import Mathlib

/-!
RepRight: daily nutrition ledger and day rollover.

A shallow embedding of the home-dashboard logic of the RepRight application
(`src/screens/main/HomeScreen.js`, `src/utils/dateHelpers.js`,
`src/utils/storage.js`, `src/utils/calorieCalculations.js`,
`src/utils/validation.js`, `src/components/modals/MealModal.js`,
`src/components/modals/GoalModal.js`, `src/components/modals/MacroGoalsModal.js`,
`src/auth/AuthContext.js`) and of the weekly meal plan of
`src/screens/main/DietScreen.js`; the constants are those of
`src/constants/index.example.js`, the template of the constants module.

Modelling conventions.

* JavaScript numbers that hold calorie, gram, streak and millisecond counts are
  integers (`Int`): sums and differences of such counts are exact in binary64 below
  2^53, and what the rounding does to larger ones is outside the model.
* A quotient, a product with a decimal literal, and everything computed from them is
  a `Number`: binary64 arithmetic with rounding to nearest, ties to even, the two
  infinities and `NaN`. An integer argument of such an operation stands for the
  `Number` of that value.
* A `Date` object is its time value, the number of milliseconds since the epoch
  (`Instant`). An ISO-8601 string written by `toISOString` is represented by the
  instant it denotes, so `new Date(d.toISOString())` has the time value of `d`.
* The getters `getFullYear`, `getMonth`, `getDate` belong to the JavaScript
  runtime and depend on the device time zone; they are the fields of a
  `Calendar`. `Calendar.fixedOffset` is the proleptic Gregorian calendar of a
  zone at a fixed offset from UTC.
* `AsyncStorage` maps each key of `STORAGE_KEYS` to nothing, to the JSON text of
  a value of the shape that the application writes under that key, or to text
  that `JSON.parse` rejects. Every write in the repository stores a value of
  that shape, so well-shaped stores are closed under the operations below.
* An `AsyncStorage` call may reject. `Faults` says, for one run of an
  operation, which calls do. The helpers of `storage.js` catch the rejection, so
  no handler ever observes an exception from the store, and with values of the
  expected shape nothing else in the handlers throws: their `catch` blocks are
  unreachable and are not represented.
* React state of `HomeScreen` is the record `HomeState`; a state setter is a
  record update. Every `new Date()` or `Date.now()` evaluated by an operation is
  an explicit argument of the operation, in source order.
-/

namespace RepRight

/-! ## Dates (`src/utils/dateHelpers.js`) -/

/-- Time value of a JavaScript `Date`: milliseconds since 1970-01-01T00:00:00Z. -/
abbrev Instant := Int

/-- ISO-8601 string produced by `Date.prototype.toISOString`, represented by the
instant it denotes. -/
structure ISOString where
  ms : Int
deriving DecidableEq, Repr

/-- The string `d.toISOString()`. -/
def toISOString (d : Instant) : ISOString := ⟨d⟩

/-- The date `new Date(s)` for an ISO string `s`. -/
def newDate (s : ISOString) : Instant := s.ms

/-- Local-time getters of `Date`, supplied by the runtime for the device zone. -/
structure Calendar where
  getFullYear : Instant → Int
  getMonth : Instant → Int
  getDate : Instant → Int

/-- Number of milliseconds in a day. -/
def msPerDay : Int := 86400000

/-- Gregorian (year, month from 1, day of month) of the day that lies `z0` days
after 1970-01-01. -/
def civilFromDays (z0 : Int) : Int × Int × Int :=
  let z := z0 + 719468
  let era := z / 146097
  let doe := z - era * 146097
  let yoe := (doe - doe / 1460 + doe / 36524 - doe / 146096) / 365
  let y := yoe + era * 400
  let doy := doe - (365 * yoe + yoe / 4 - yoe / 100)
  let mp := (5 * doy + 2) / 153
  let d := doy - (153 * mp + 2) / 5 + 1
  let m := if mp < 10 then mp + 3 else mp - 9
  (if m ≤ 2 then y + 1 else y, m, d)

/-- Calendar of a zone whose local time is UTC plus `offsetMs` milliseconds. -/
def Calendar.fixedOffset (offsetMs : Int) : Calendar where
  getFullYear := fun t => (civilFromDays ((t + offsetMs) / msPerDay)).1
  getMonth := fun t => (civilFromDays ((t + offsetMs) / msPerDay)).2.1 - 1
  getDate := fun t => (civilFromDays ((t + offsetMs) / msPerDay)).2.2

/-- Calendar of a device whose zone is UTC. -/
def Calendar.utc : Calendar := Calendar.fixedOffset 0

/-- Source `isSameDay(date1, date2)`: year, month and day of month all agree. -/
def isSameDay (cal : Calendar) (date1 date2 : Instant) : Bool :=
  cal.getFullYear date1 == cal.getFullYear date2 &&
  cal.getMonth date1 == cal.getMonth date2 &&
  cal.getDate date1 == cal.getDate date2

/-- Source `shouldResetDaily(lastActiveDate)`; `today` is the `new Date()` that the
function evaluates, and `none` is a falsy argument. -/
def shouldResetDaily (cal : Calendar) (lastActiveDate : Option ISOString)
    (today : Instant) : Bool :=
  match lastActiveDate with
  | none => false
  | some s =>
    let lastActive := newDate s
    !isSameDay cal lastActive today

/-! ## Records -/

/-- Food search result: nutrition per 100 g. -/
structure FoodItem where
  id : String
  name : String
  brand : String
  image : String
  servingSize : String
  calories : Int
  protein : Int
  carbs : Int
  fat : Int
deriving DecidableEq, Repr

/-- Element of `selectedFoods`: a food item with its chosen serving. -/
structure SelectedFood where
  food : FoodItem
  servingMultiplier : Rat
  serving : String
  totalCalories : Int
  totalProtein : Int
  totalCarbs : Int
  totalFat : Int
deriving DecidableEq, Repr

/-- Logged meal, as built by `MealModal.handleSave`. -/
structure Meal where
  id : Int
  mealType : String
  selectedFoods : List SelectedFood
  calories : Int
  protein : Int
  carbs : Int
  fat : Int
  timestamp : ISOString
deriving DecidableEq, Repr

/-- Macro goals in grams. -/
structure MacroGoals where
  protein : Int
  carbs : Int
  fat : Int
deriving DecidableEq, Repr

/-- User record kept under `USER_DATA`. -/
structure User where
  uid : String
  email : String
  displayName : String
  name : String
  photoURL : Option String
  createdAt : Option ISOString
  onboardingCompleted : Bool
deriving DecidableEq, Repr

/-! ## Constants (`src/constants/index.example.js`) -/

/-- Source `CALORIE_PRESETS.LOSS`. -/
def CALORIE_PRESETS.LOSS : Int := 1500
/-- Source `CALORIE_PRESETS.MAINTAIN`. -/
def CALORIE_PRESETS.MAINTAIN : Int := 2000
/-- Source `CALORIE_PRESETS.GAIN`. -/
def CALORIE_PRESETS.GAIN : Int := 2500

/-- Source `DEFAULT_MACRO_GOALS`. -/
def DEFAULT_MACRO_GOALS : MacroGoals := { protein := 150, carbs := 200, fat := 65 }

/-- Source `STORAGE_KEYS`. -/
inductive STORAGE_KEYS where
  | MEALS
  | CALORIES
  | DAILY_GOAL
  | MACRO_GOALS
  | STREAK
  | LAST_ACTIVE
  | USER_DATA
deriving DecidableEq, Repr

/-- The key string of each `STORAGE_KEYS` entry. -/
def STORAGE_KEYS.keyString : STORAGE_KEYS → String
  | .MEALS => "repright_meals"
  | .CALORIES => "repright_calories"
  | .DAILY_GOAL => "repright_daily_goal"
  | .MACRO_GOALS => "repright_macro_goals"
  | .STREAK => "repright_streak"
  | .LAST_ACTIVE => "repright_last_active"
  | .USER_DATA => "repright_user_data"

/-! ## Persistence (`src/utils/storage.js`) -/

/-- Shape of the value that the application stores under each key. -/
@[reducible] def Val : STORAGE_KEYS → Type
  | .MEALS => List Meal
  | .CALORIES => Int
  | .DAILY_GOAL => Int
  | .MACRO_GOALS => MacroGoals
  | .STREAK => Int
  | .LAST_ACTIVE => ISOString
  | .USER_DATA => User

/-- Text held by one `AsyncStorage` item: the JSON text of a value, or text that
`JSON.parse` rejects. -/
inductive Stored (α : Type) where
  | json (v : α)
  | corrupt (text : String)
deriving DecidableEq, Repr

/-- Contents of `AsyncStorage` at the keys of `STORAGE_KEYS`; `none` is a key that
holds no item. -/
abbrev AsyncStorage := (k : STORAGE_KEYS) → Option (Stored (Val k))

/-- Store of a fresh installation: no item under any key. -/
def AsyncStorage.empty : AsyncStorage := fun _ => none

/-- Which `AsyncStorage` calls reject during one run of an operation. -/
structure Faults where
  getItemThrows : STORAGE_KEYS → Bool
  setItemThrows : STORAGE_KEYS → Bool
  removeItemThrows : STORAGE_KEYS → Bool

/-- A store on which every call succeeds. -/
def noFaults : Faults where
  getItemThrows := fun _ => false
  setItemThrows := fun _ => false
  removeItemThrows := fun _ => false

/-- Source `saveData(key, value)`: the success flag and the store afterwards. -/
def saveData (fl : Faults) (key : STORAGE_KEYS) (value : Val key)
    (st : AsyncStorage) : Bool × AsyncStorage :=
  if fl.setItemThrows key then (false, st)
  else (true, Function.update st key (some (Stored.json value)))

/-- Source `getData(key)` with `defaultValue` left at `null` (`none`). -/
def getDataNull (fl : Faults) (st : AsyncStorage) (key : STORAGE_KEYS) :
    Option (Val key) :=
  if fl.getItemThrows key then none
  else
    match st key with
    | none => none
    | some (Stored.json v) => some v
    | some (Stored.corrupt _) => none

/-- Source `getData(key, defaultValue)`. -/
def getData (fl : Faults) (st : AsyncStorage) (key : STORAGE_KEYS)
    (defaultValue : Val key) : Val key :=
  if fl.getItemThrows key then defaultValue
  else
    match st key with
    | none => defaultValue
    | some (Stored.json v) => v
    | some (Stored.corrupt _) => defaultValue

/-- Source `removeData(key)`: the success flag and the store afterwards. -/
def removeData (fl : Faults) (key : STORAGE_KEYS) (st : AsyncStorage) :
    Bool × AsyncStorage :=
  if fl.removeItemThrows key then (false, st)
  else (true, Function.update st key none)

/-! ## Home screen state (`src/screens/main/HomeScreen.js`) -/

/-- React state of `HomeScreen` that the data handlers read or set. -/
structure HomeState where
  meals : List Meal
  dailyGoal : Int
  macroGoals : MacroGoals
  streak : Int
  showMealModal : Bool
  editingMeal : Option Meal
deriving DecidableEq, Repr

/-- State of a freshly mounted `HomeScreen`: the `useState` initial values. -/
def HomeState.initial : HomeState where
  meals := []
  dailyGoal := CALORIE_PRESETS.MAINTAIN
  macroGoals := DEFAULT_MACRO_GOALS
  streak := 0
  showMealModal := false
  editingMeal := none

/-- The application: the device store and the state of the mounted home screen. -/
structure App where
  storage : AsyncStorage
  home : HomeState

/-- The statement `await saveData(key, value)` with its result discarded. -/
def App.save (fl : Faults) (key : STORAGE_KEYS) (value : Val key) (app : App) : App :=
  { app with storage := (saveData fl key value app.storage).2 }

/-- State setter `setMeals`. -/
def setMeals (v : List Meal) (app : App) : App :=
  { app with home := { app.home with meals := v } }

/-- State setter `setDailyGoal`. -/
def setDailyGoal (v : Int) (app : App) : App :=
  { app with home := { app.home with dailyGoal := v } }

/-- State setter `setMacroGoals`. -/
def setMacroGoals (v : MacroGoals) (app : App) : App :=
  { app with home := { app.home with macroGoals := v } }

/-- State setter `setStreak`. -/
def setStreak (v : Int) (app : App) : App :=
  { app with home := { app.home with streak := v } }

/-- State setter `setEditingMeal`. -/
def setEditingMeal (v : Option Meal) (app : App) : App :=
  { app with home := { app.home with editingMeal := v } }

/-- State setter `setShowMealModal`. -/
def setShowMealModal (v : Bool) (app : App) : App :=
  { app with home := { app.home with showMealModal := v } }

/-- Source `resetDailyData`; `now` is the `new Date()` of the last-active write. -/
def resetDailyData (fl : Faults) (now : Instant) (app : App) : App :=
  let savedMeals := getData fl app.storage .MEALS []
  let savedStreak := getData fl app.storage .STREAK 0
  let app1 :=
    if savedMeals.length > 0 then
      setStreak (savedStreak + 1) (app.save fl .STREAK (savedStreak + 1))
    else
      setStreak 0 (app.save fl .STREAK 0)
  let app2 := setMeals [] (app1.save fl .MEALS [])
  app2.save fl .LAST_ACTIVE (toISOString now)

/-- The guard `lastActive && shouldResetDaily(lastActive)` of `loadData`; `today` is
the `new Date()` evaluated by `shouldResetDaily`. -/
def rolloverDue (cal : Calendar) (fl : Faults) (today : Instant) (app : App) : Bool :=
  let lastActive := getDataNull fl app.storage .LAST_ACTIVE
  lastActive.isSome && shouldResetDaily cal lastActive today

/-- The part of `loadData` after the guard: load existing data, then update the
last-active date; `now` is the `new Date()` of that write. -/
def loadExisting (fl : Faults) (now : Instant) (app : App) : App :=
  let savedMeals := getData fl app.storage .MEALS []
  let savedGoal := getData fl app.storage .DAILY_GOAL CALORIE_PRESETS.MAINTAIN
  let savedMacroGoals := getData fl app.storage .MACRO_GOALS DEFAULT_MACRO_GOALS
  let savedStreak := getData fl app.storage .STREAK 0
  let app1 := setStreak savedStreak (setMacroGoals savedMacroGoals
    (setDailyGoal savedGoal (setMeals savedMeals app)))
  app1.save fl .LAST_ACTIVE (toISOString now)

/-- Source `loadData`; `today` is the clock reading of the rollover check and `now`
the clock reading of the last-active write. -/
def loadData (cal : Calendar) (fl : Faults) (today now : Instant) (app : App) : App :=
  if rolloverDue cal fl today app then
    resetDailyData fl now app
  else
    loadExisting fl now app

/-- Mounting `HomeScreen`: fresh React state, then the `useEffect` call of
`loadData`. -/
def mount (cal : Calendar) (fl : Faults) (today now : Instant) (app : App) : App :=
  loadData cal fl today now { app with home := HomeState.initial }

/-- Source `handleDeleteMeal(mealId)` after the user confirms with "Delete". -/
def handleDeleteMeal (fl : Faults) (mealId : Int) (app : App) : App :=
  let updatedMeals := app.home.meals.filter (fun meal => meal.id != mealId)
  (setMeals updatedMeals app).save fl .MEALS updatedMeals

/-- Source `handleSaveMeal(meal)`. -/
def handleSaveMeal (fl : Faults) (meal : Meal) (app : App) : App :=
  let updatedMeals := app.home.meals ++ [meal]
  (setMeals updatedMeals app).save fl .MEALS updatedMeals

/-- Source `handleUpdateGoal(newGoal)`. -/
def handleUpdateGoal (fl : Faults) (newGoal : Int) (app : App) : App :=
  (setDailyGoal newGoal app).save fl .DAILY_GOAL newGoal

/-- Source `handleUpdateMacros(newMacros)`. -/
def handleUpdateMacros (fl : Faults) (newMacros : MacroGoals) (app : App) : App :=
  (setMacroGoals newMacros app).save fl .MACRO_GOALS newMacros

/-- Source `handleEditMeal(meal)`. -/
def handleEditMeal (meal : Meal) (app : App) : App :=
  setShowMealModal true (setEditingMeal (some meal) app)

/-- Source `handleSaveEditedMeal(updatedMeal)`. -/
def handleSaveEditedMeal (fl : Faults) (updatedMeal : Meal) (app : App) : App :=
  let updatedMeals := app.home.meals.map
    (fun m => if m.id == updatedMeal.id then updatedMeal else m)
  setEditingMeal none ((setMeals updatedMeals app).save fl .MEALS updatedMeals)

/-! ## Meal modal (`src/components/modals/MealModal.js`) -/

/-- Nutrition totals of a meal. -/
structure Totals where
  calories : Int
  protein : Int
  carbs : Int
  fat : Int
deriving DecidableEq, Repr

/-- JavaScript `x || d` for a number `x`: `d` when `x` is 0, else `x`. -/
def orElse (x d : Int) : Int := if x = 0 then d else x

/-- Source `calculateTotals()` of `MealModal`, over its `selectedFoods` state. -/
def calculateTotals (selectedFoods : List SelectedFood) : Totals :=
  selectedFoods.foldl
    (fun totals food =>
      { calories := totals.calories + orElse food.totalCalories 0
        protein := totals.protein + orElse food.totalProtein 0
        carbs := totals.carbs + orElse food.totalCarbs 0
        fat := totals.fat + orElse food.totalFat 0 })
    { calories := 0, protein := 0, carbs := 0, fat := 0 }

/-- Source `handleSave` of `MealModal`: the meal handed to `onSave`, or `none` when
the modal shows the "Please add at least one food item" alert. `dateNow` is the
value of `Date.now()` and `now` the `new Date()` of the timestamp. -/
def MealModal.handleSave (editingMeal : Option Meal) (mealType : String)
    (selectedFoods : List SelectedFood) (dateNow : Int) (now : Instant) : Option Meal :=
  if selectedFoods.length = 0 then none
  else
    let totals := calculateTotals selectedFoods
    some
      { id := match editingMeal with
          | some e => orElse e.id dateNow
          | none => dateNow
        mealType := mealType
        selectedFoods := selectedFoods
        calories := totals.calories
        protein := totals.protein
        carbs := totals.carbs
        fat := totals.fat
        timestamp := match editingMeal with
          | some e => e.timestamp
          | none => toISOString now }

/-- The `onClose` prop that `HomeScreen` passes to `MealModal`. -/
def onCloseMealModal (app : App) : App :=
  setEditingMeal none (setShowMealModal false app)

/-- Pressing "Save" in the meal modal mounted by `HomeScreen`: `handleSave` of the
modal with `onSave` bound to `editingMeal ? handleSaveEditedMeal : handleSaveMeal`,
followed by `handleClose`. -/
def pressSaveMeal (fl : Faults) (mealType : String) (selectedFoods : List SelectedFood)
    (dateNow : Int) (now : Instant) (app : App) : App :=
  match MealModal.handleSave app.home.editingMeal mealType selectedFoods dateNow now with
  | none => app
  | some meal =>
    onCloseMealModal
      (if app.home.editingMeal.isSome then handleSaveEditedMeal fl meal app
       else handleSaveMeal fl meal app)

/-! ## Sign-out (`src/auth/AuthContext.js`) -/

/-- Result object of `logout`. -/
structure LogoutResult where
  success : Bool
  error : Option String
deriving DecidableEq, Repr

/-- Source `logout`; `signOutError` is the message of the error with which the
identity provider rejects `signOut(auth)`, if it does. -/
def logout (signOutError : Option String) (fl : Faults) (st : AsyncStorage) :
    LogoutResult × AsyncStorage :=
  match signOutError with
  | some msg => ({ success := false, error := some msg }, st)
  | none =>
    let st1 := (removeData fl .USER_DATA st).2
    let st2 := (removeData fl .MEALS st1).2
    let st3 := (removeData fl .CALORIES st2).2
    let st4 := (removeData fl .STREAK st3).2
    ({ success := true, error := none }, st4)

/-- Confirming "Logout" on the home screen: `logout` applied to the device store. -/
def confirmLogout (signOutError : Option String) (fl : Faults) (app : App) : App :=
  { app with storage := (logout signOutError fl app.storage).2 }

/-! ## Sessions: the home screen as a transition system -/

/-- An event of the home screen that touches the meal log, with the clock readings
that its handler takes. -/
inductive Event where
  /-- Cold start: `HomeScreen` mounts and its effect calls `loadData`. -/
  | mount (today now : Instant)
  /-- Pull to refresh: `onRefresh` calls `loadData`. -/
  | refresh (today now : Instant)
  /-- The add button: `setShowMealModal(true)`. -/
  | openModal
  /-- The "Edit" button of a listed meal: `handleEditMeal(meal)`. -/
  | editMeal (meal : Meal)
  /-- The "Save" button of the meal modal. -/
  | pressSave (mealType : String) (selectedFoods : List SelectedFood)
      (dateNow : Int) (now : Instant)
  /-- Closing the meal modal without saving: `onClose`. -/
  | closeModal
  /-- The "Delete" button of a listed meal, confirmed: `handleDeleteMeal(meal.id)`. -/
  | deleteMeal (mealId : Int)
deriving DecidableEq, Repr

/-- Effect of one event. The "Edit" button exists only for a meal of the displayed
list. -/
def step (cal : Calendar) (fl : Faults) (e : Event) (app : App) : App :=
  match e with
  | .mount today now => mount cal fl today now app
  | .refresh today now => loadData cal fl today now app
  | .openModal => setShowMealModal true app
  | .editMeal meal => if meal ∈ app.home.meals then handleEditMeal meal app else app
  | .pressSave mealType selectedFoods dateNow now =>
    pressSaveMeal fl mealType selectedFoods dateNow now app
  | .closeModal => onCloseMealModal app
  | .deleteMeal mealId => handleDeleteMeal fl mealId app

/-- Effect of a sequence of events, first event first. -/
def run (cal : Calendar) (fl : Faults) (es : List Event) (app : App) : App :=
  es.foldl (fun a e => step cal fl e a) app

/-- The application right after installation: empty store, initial React state. -/
def freshInstall : App where
  storage := AsyncStorage.empty
  home := HomeState.initial

/-- Clock readings taken by an event, in order. -/
def Event.readings : Event → List Instant
  | .mount today now => [today, now]
  | .refresh today now => [today, now]
  | .pressSave _ _ dateNow now => [dateNow, now]
  | _ => []

/-- The clock never runs backwards over a sequence of events. -/
def advancingClock (es : List Event) : Prop :=
  (es.flatMap Event.readings).Pairwise (fun a b => a ≤ b)

/-- The meal list that a readable store holds; `[]` when there is none. -/
def storedMeals (st : AsyncStorage) : List Meal := getData noFaults st .MEALS []

/-- Day invariant of the log: every stored meal has its timestamp on the local
calendar day of the stored last-active date. -/
def DayInvariant (cal : Calendar) (app : App) : Prop :=
  ∀ la, app.storage .LAST_ACTIVE = some (Stored.json la) →
    ∀ m ∈ storedMeals app.storage,
      isSameDay cal (newDate m.timestamp) (newDate la) = true

/-- Side condition on one event in a state: a `loadData` takes its two clock readings
on one calendar day, and a new meal is saved at an instant on the calendar day of the
stored last-active date. -/
def sameDayEvent (cal : Calendar) (e : Event) (app : App) : Bool :=
  match e with
  | .mount today now => isSameDay cal today now
  | .refresh today now => isSameDay cal today now
  | .pressSave _ _ _ now =>
    match app.home.editingMeal, app.storage .LAST_ACTIVE with
    | some _, _ => true
    | none, some (Stored.json la) => isSameDay cal now (newDate la)
    | none, _ => false
  | _ => true

/-- Side condition on a sequence of events from a state: `sameDayEvent` holds for each
event in the state in which it happens. -/
def sameDaySession (cal : Calendar) (fl : Faults) : List Event → App → Bool
  | [], _ => true
  | e :: es, app => sameDayEvent cal e app && sameDaySession cal fl es (step cal fl e app)

/-- Invariant of the store alone that `loadData` relies on. -/
def StoreInv (cal : Calendar) (app : App) : Prop :=
  (∀ la, app.storage .LAST_ACTIVE = some (Stored.json la) →
    ∀ m ∈ storedMeals app.storage,
      isSameDay cal (newDate m.timestamp) (newDate la) = true) ∧
  (∀ la, app.storage .LAST_ACTIVE = some (Stored.json la) →
    ∀ e, app.home.editingMeal = some e →
      storedMeals app.storage = [] ∨
        isSameDay cal (newDate e.timestamp) (newDate la) = true) ∧
  ((∀ la, app.storage .LAST_ACTIVE ≠ some (Stored.json la)) →
    storedMeals app.storage = [])

/-- Inductive invariant of a session: the displayed list is the stored list, and the
store invariant holds. -/
def LedgerInv (cal : Calendar) (app : App) : Prop :=
  app.home.meals = storedMeals app.storage ∧ StoreInv cal app

/-! ## Numbers (`Number`, IEEE 754 binary64) -/

/-- Round to the nearest integer, a tie going to the even neighbour. -/
def roundHalfEven (t : Rat) : Int :=
  if t - Int.floor t < 1 / 2 then Int.floor t
  else if 1 / 2 < t - Int.floor t then Int.floor t + 1
  else if Int.floor t % 2 = 0 then Int.floor t
  else Int.floor t + 1

/-- A JavaScript `Number`: a finite value, an infinity or `NaN`. The finite values that
the arithmetic below produces are binary64 values. The two zeros are one value here:
`-0 === 0` holds in the source language, both print as `0`, and a zero divisor is
taken as `+0`. -/
inductive Number where
  | finite (value : Rat)
  | posInf
  | negInf
  | nan
deriving DecidableEq, Repr

/-- The distance between neighbouring binary64 values around a non-zero `x`:
`2 ^ (e - 52)` in the binade `2 ^ e ≤ |x| < 2 ^ (e + 1)`, and the subnormal spacing
`2 ^ (-1074)` below `2 ^ (-1022)`. -/
def spacing (x : Rat) : Rat := 2 ^ (max (Int.log 2 |x|) (-1022) - 52)

/-- The binary64 value nearest to the real number `x`: `x` is rounded to a multiple of
`spacing x`, a tie going to the even multiple, and a result of magnitude `2 ^ 1024` or
more is an infinity. Every arithmetic operation and
every decimal literal applies this rounding to its exact value. -/
def Number.ofRat (x : Rat) : Number :=
  if x = 0 then .finite 0
  else
    let y : Rat := roundHalfEven (x / spacing x) * spacing x
    if 2 ^ 1024 ≤ |y| then (if 0 < x then .posInf else .negInf) else .finite y

/-- The `Number` whose value is the integer `n`. The integers of magnitude up to
`2 ^ 53`, and the larger ones that are binary64 values, are the integer `Number`s. -/
def Number.ofInt (n : Int) : Number := .finite n

/-- JavaScript `a * b`. -/
def Number.mul : Number → Number → Number
  | .finite a, .finite b => Number.ofRat (a * b)
  | .finite a, .posInf => if a = 0 then .nan else if 0 < a then .posInf else .negInf
  | .finite a, .negInf => if a = 0 then .nan else if 0 < a then .negInf else .posInf
  | .posInf, .finite b => if b = 0 then .nan else if 0 < b then .posInf else .negInf
  | .negInf, .finite b => if b = 0 then .nan else if 0 < b then .negInf else .posInf
  | .posInf, .posInf => .posInf
  | .posInf, .negInf => .negInf
  | .negInf, .posInf => .negInf
  | .negInf, .negInf => .posInf
  | .nan, _ => .nan
  | _, .nan => .nan

/-- JavaScript `a / b`. -/
def Number.div : Number → Number → Number
  | .finite a, .finite b =>
    if b = 0 then (if a = 0 then .nan else if 0 < a then .posInf else .negInf)
    else Number.ofRat (a / b)
  | .finite _, .posInf => .finite 0
  | .finite _, .negInf => .finite 0
  | .posInf, .finite b => if b < 0 then .negInf else .posInf
  | .negInf, .finite b => if b < 0 then .posInf else .negInf
  | .posInf, .posInf => .nan
  | .posInf, .negInf => .nan
  | .negInf, .posInf => .nan
  | .negInf, .negInf => .nan
  | .nan, _ => .nan
  | _, .nan => .nan

/-- JavaScript `a + b`. -/
def Number.add : Number → Number → Number
  | .finite a, .finite b => Number.ofRat (a + b)
  | .finite _, .posInf => .posInf
  | .finite _, .negInf => .negInf
  | .posInf, .finite _ => .posInf
  | .negInf, .finite _ => .negInf
  | .posInf, .posInf => .posInf
  | .negInf, .negInf => .negInf
  | .posInf, .negInf => .nan
  | .negInf, .posInf => .nan
  | .nan, _ => .nan
  | _, .nan => .nan

/-- JavaScript `Math.round(x)`: the integer nearest to `x`, a half rounding up. -/
def Math.round : Number → Number
  | .finite v => .finite (Int.floor (v + 1 / 2))
  | .posInf => .posInf
  | .negInf => .negInf
  | .nan => .nan

/-- JavaScript `Math.min(a, b)`. -/
def Math.min : Number → Number → Number
  | .nan, _ => .nan
  | _, .nan => .nan
  | .negInf, _ => .negInf
  | _, .negInf => .negInf
  | .posInf, b => b
  | a, .posInf => a
  | .finite a, .finite b => .finite (if a ≤ b then a else b)

/-- JavaScript `a < b`. -/
def Number.lt : Number → Number → Bool
  | .finite a, .finite b => decide (a < b)
  | .finite _, .posInf => true
  | .negInf, .finite _ => true
  | .negInf, .posInf => true
  | _, _ => false

/-! ## Calorie calculations (`src/utils/calorieCalculations.js`) -/

/-- Numeric fields of a meal object as the calculation utilities read them; `none` is
a field that the object does not have. -/
structure MealNutrition where
  calories : Option Int
  protein : Option Int
  carbs : Option Int
  fat : Option Int
deriving DecidableEq, Repr

/-- Numeric fields of a logged meal: all four are present. -/
def Meal.nutrition (m : Meal) : MealNutrition where
  calories := some m.calories
  protein := some m.protein
  carbs := some m.carbs
  fat := some m.fat

/-- JavaScript `x || d` for a field `x` that is a number or missing: `d` when `x` is
missing or 0, else `x`. -/
def fieldOrElse (x : Option Int) (d : Int) : Int :=
  match x with
  | none => d
  | some v => orElse v d

/-- Macro totals in grams. -/
structure Macros where
  protein : Int
  carbs : Int
  fat : Int
deriving DecidableEq, Repr

/-- Source `calculateCaloriesFromMacros(protein, carbs, fat)`. -/
def calculateCaloriesFromMacros (protein carbs fat : Int) : Int :=
  (protein * 4) + (carbs * 4) + (fat * 9)

/-- Source `calculateCaloriesFromMacros(protein, carbs, fat)` as binary64 arithmetic
carries it out: each product and each sum is rounded. -/
def calculateCaloriesFromMacrosNumber (protein carbs fat : Number) : Number :=
  ((protein.mul (Number.ofInt 4)).add (carbs.mul (Number.ofInt 4))).add
    (fat.mul (Number.ofInt 9))

/-- Source `calculateTotalMacros(meals)` for an array `meals`. -/
def calculateTotalMacros (meals : List MealNutrition) : Macros :=
  if meals.length = 0 then { protein := 0, carbs := 0, fat := 0 }
  else
    meals.foldl
      (fun totals meal =>
        { protein := totals.protein + fieldOrElse meal.protein 0
          carbs := totals.carbs + fieldOrElse meal.carbs 0
          fat := totals.fat + fieldOrElse meal.fat 0 })
      { protein := 0, carbs := 0, fat := 0 }

/-- Source `calculateTotalCalories(meals)` for an array `meals`. -/
def calculateTotalCalories (meals : List MealNutrition) : Int :=
  if meals.length = 0 then 0
  else meals.foldl (fun total meal => total + fieldOrElse meal.calories 0) 0

/-- Source `calculateRemainingCalories(dailyGoal, consumed)`. -/
def calculateRemainingCalories (dailyGoal consumed : Int) : Int :=
  max 0 (dailyGoal - consumed)

/-- JavaScript `Math.round`: the nearest integer, a half rounding up. -/
def mathRound (x : Rat) : Int := Int.floor (x + 1 / 2)

/-- Source `calculatePercentage(current, goal)` for integer arguments; the quotient
and the product are binary64 operations. -/
def calculatePercentage (current goal : Int) : Number :=
  if goal = 0 then Number.ofInt 0
  else
    Math.min (Number.ofInt 100)
      (Math.round
        (((Number.ofInt current).div (Number.ofInt goal)).mul (Number.ofInt 100)))

/-- The `totalCalories` that `HomeScreen` computes on each render. -/
def HomeState.totalCalories (h : HomeState) : Int :=
  calculateTotalCalories (h.meals.map Meal.nutrition)

/-- The `remainingCalories` that `HomeScreen` computes on each render. -/
def HomeState.remainingCalories (h : HomeState) : Int :=
  calculateRemainingCalories h.dailyGoal h.totalCalories

/-- The `caloriePercentage` that `HomeScreen` computes on each render and prints
before the percent sign. -/
def HomeState.caloriePercentage (h : HomeState) : Number :=
  calculatePercentage h.totalCalories h.dailyGoal

/-- The `totalMacros` that `HomeScreen` computes on each render. -/
def HomeState.totalMacros (h : HomeState) : Macros :=
  calculateTotalMacros (h.meals.map Meal.nutrition)

/-! ## Number input (`parseInt`) -/

/-- White space and line terminators that `parseInt` skips at the start of its
argument. -/
def isStrWhiteSpaceChar (c : Char) : Bool :=
  c.toNat ∈ [0x09, 0x0A, 0x0B, 0x0C, 0x0D, 0x20, 0xA0, 0x1680, 0x2028, 0x2029, 0x202F,
    0x205F, 0x3000, 0xFEFF] || (0x2000 ≤ c.toNat && c.toNat ≤ 0x200A)

/-- Value of a character as a digit in a radix up to 36. -/
def digitValue (c : Char) : Option Nat :=
  if 48 ≤ c.toNat ∧ c.toNat ≤ 57 then some (c.toNat - 48)
  else if 97 ≤ c.toNat ∧ c.toNat ≤ 122 then some (c.toNat - 87)
  else if 65 ≤ c.toNat ∧ c.toNat ≤ 90 then some (c.toNat - 55)
  else none

/-- Digit values of the longest prefix made of digits of the radix. -/
def radixDigits (radix : Nat) : List Char → List Nat
  | [] => []
  | c :: cs =>
    match digitValue c with
    | some d => if d < radix then d :: radixDigits radix cs else []
    | none => []

/-- Characters left after an optional sign, with the sign. -/
def stripSign (cs : List Char) : Int × List Char :=
  match cs with
  | c :: rest =>
    if c.toNat = 45 then (-1, rest)
    else if c.toNat = 43 then (1, rest)
    else (1, cs)
  | [] => (1, cs)

/-- Characters left after an optional `0x` or `0X`, with the radix. -/
def stripRadix (cs : List Char) : Nat × List Char :=
  match cs with
  | c0 :: c1 :: rest =>
    if c0.toNat = 48 ∧ (c1.toNat = 120 ∨ c1.toNat = 88) then (16, rest) else (10, cs)
  | _ => (10, cs)

/-- JavaScript `parseInt(string)` without a radix argument; `none` is `NaN`. The
rounding of integers beyond 2^53 is outside the model. -/
def parseInt (string : String) : Option Int :=
  let trimmed := string.toList.dropWhile isStrWhiteSpaceChar
  let signed := stripSign trimmed
  let based := stripRadix signed.2
  let digits := radixDigits based.1 based.2
  if digits.length = 0 then none
  else some (signed.1 * ((digits.foldl (fun acc d => acc * based.1 + d) 0 : Nat) : Int))

/-! ## Goal modals (`src/components/modals/GoalModal.js`, `MacroGoalsModal.js`) -/

/-- Source `handleSave` of `GoalModal` over its `goal` text: the number handed to
`onSave`, or `none` when the modal shows the "Invalid Goal" alert. -/
def GoalModal.handleSave (goal : String) : Option Int :=
  let numGoal := parseInt goal
  match numGoal with
  | none => none
  | some n => if n < 500 || n > 10000 then none else some n

/-- Pressing "Save Goal" in the goal modal mounted by `HomeScreen`, whose `onSave` is
`handleUpdateGoal`; the `onClose` that follows only hides the modal. -/
def pressSaveGoal (fl : Faults) (goal : String) (app : App) : App :=
  match GoalModal.handleSave goal with
  | none => app
  | some numGoal => handleUpdateGoal fl numGoal app

/-- The argument `text || 0` of `parseInt` in the calorie preview, as a string: the
text of the number 0 when the input is empty. -/
def textOrZero (text : String) : String := if text = "" then "0" else text

/-- The "Estimated Total" of `MacroGoalsModal`:
`parseInt(protein || 0) * 4 + parseInt(carbs || 0) * 4 + parseInt(fat || 0) * 9`;
`none` is `NaN`. -/
def estimatedTotal (protein carbs fat : String) : Option Int :=
  match parseInt (textOrZero protein), parseInt (textOrZero carbs),
    parseInt (textOrZero fat) with
  | some p, some c, some f => some (p * 4 + c * 4 + f * 9)
  | _, _, _ => none

/-! ## Macro goal editor (`src/components/modals/MacroGoalsModal.js`) -/

/-- Source `handleSave` of `MacroGoalsModal` over its three texts: the object handed to
`onSave`, or `none` when the modal shows an "Invalid Input" alert. -/
def MacroGoalsModal.handleSave (protein carbs fat : String) : Option MacroGoals :=
  let numProtein := parseInt protein
  let numCarbs := parseInt carbs
  let numFat := parseInt fat
  match numProtein, numCarbs, numFat with
  | some p, some c, some f =>
    if p < 0 || c < 0 || f < 0 then none
    else some { protein := p, carbs := c, fat := f }
  | _, _, _ => none

/-- Pressing "Save Macro Goals" in the macro modal mounted by `HomeScreen`, whose
`onSave` is `handleUpdateMacros`; the `onClose` that follows only hides the modal. -/
def pressSaveMacros (fl : Faults) (protein carbs fat : String) (app : App) : App :=
  match MacroGoalsModal.handleSave protein carbs fat with
  | none => app
  | some newMacros => handleUpdateMacros fl newMacros app

/-! ## Food selection (`src/components/modals/MealModal.js`) -/

/-- React state of `MealModal`; `servingSizes` maps a food id to the multiplier chosen
with the plus and minus buttons, `none` for an id without an entry. -/
structure MealModalState where
  mealType : String
  searchQuery : String
  searchResults : List FoodItem
  selectedFoods : List SelectedFood
  servingSizes : String → Option Rat

/-- JavaScript `x || d` for a number `x` that may be missing. -/
def numberOrElse (x : Option Rat) (d : Rat) : Rat :=
  match x with
  | none => d
  | some v => if v = 0 then d else v

/-- The element that `addFood(food)` appends; `numberToString` is the conversion of a
number to text by the runtime, used for the `serving` label. -/
def foodToAdd (numberToString : Rat → String) (servingSizes : String → Option Rat)
    (food : FoodItem) : SelectedFood :=
  let servingMultiplier := numberOrElse (servingSizes food.id) 1
  { food := food
    servingMultiplier := servingMultiplier
    serving := numberToString (servingMultiplier * 100) ++ "g"
    totalCalories := mathRound ((food.calories : Rat) * servingMultiplier)
    totalProtein := mathRound ((food.protein : Rat) * servingMultiplier)
    totalCarbs := mathRound ((food.carbs : Rat) * servingMultiplier)
    totalFat := mathRound ((food.fat : Rat) * servingMultiplier) }

/-- Source `addFood(food)` of `MealModal`. -/
def addFood (numberToString : Rat → String) (food : FoodItem) (st : MealModalState) :
    MealModalState :=
  { st with
    selectedFoods := st.selectedFoods ++ [foodToAdd numberToString st.servingSizes food]
    searchQuery := ""
    searchResults := []
    servingSizes := fun _ => none }

/-! ## Macro percentages (`src/utils/calorieCalculations.js`) -/

/-- The object `{ protein, carbs, fat }` of percentages that
`calculateMacroPercentages` returns. -/
structure MacroPercentages where
  protein : Number
  carbs : Number
  fat : Number
deriving DecidableEq, Repr

/-- Source `calculateMacroPercentages(protein, carbs, fat)` for integer arguments, in
binary64 arithmetic: the products, the sums of `calculateCaloriesFromMacros`, the
quotients and the scaling by 100 are all rounded, and an overflowing total is
`Infinity`. -/
def calculateMacroPercentages (protein carbs fat : Int) : MacroPercentages :=
  let totalCalories :=
    calculateCaloriesFromMacrosNumber (Number.ofInt protein) (Number.ofInt carbs)
      (Number.ofInt fat)
  if totalCalories = Number.ofInt 0 then
    { protein := Number.ofInt 0, carbs := Number.ofInt 0, fat := Number.ofInt 0 }
  else
    { protein :=
        Math.round
          ((((Number.ofInt protein).mul (Number.ofInt 4)).div totalCalories).mul
            (Number.ofInt 100))
      carbs :=
        Math.round
          ((((Number.ofInt carbs).mul (Number.ofInt 4)).div totalCalories).mul
            (Number.ofInt 100))
      fat :=
        Math.round
          ((((Number.ofInt fat).mul (Number.ofInt 9)).div totalCalories).mul
            (Number.ofInt 100)) }

/-! ## Sign-in (`src/auth/AuthContext.js`) -/

/-- Answer of the identity provider to `signInWithEmailAndPassword`: the signed-in user,
or the code of the error with which the call rejects. -/
inductive ProviderAnswer where
  | resolved (user : User)
  | rejected (code : String)
deriving DecidableEq, Repr

/-- Source `getErrorMessage(errorCode)`. -/
def getErrorMessage (errorCode : String) : String :=
  if errorCode = "auth/email-already-in-use" then "This email is already registered"
  else if errorCode = "auth/invalid-email" then "Invalid email address"
  else if errorCode = "auth/weak-password" then "Password should be at least 6 characters"
  else if errorCode = "auth/user-not-found" then "No account found with this email"
  else if errorCode = "auth/wrong-password" then "Incorrect password"
  else if errorCode = "auth/too-many-requests" then "Too many attempts. Please try again later"
  else if errorCode = "auth/network-request-failed" then "Network error. Check your connection"
  else "An error occurred. Please try again"

/-- Result object of `signIn`. -/
structure SignInResult where
  success : Bool
  user : Option User
  error : Option String
deriving DecidableEq, Repr

/-- The hard-coded test user of `signIn`; `now` is the `new Date()` of `createdAt`. -/
def testUser (now : Instant) : User where
  uid := "test-user-123"
  email := "test@repright.com"
  displayName := "Test User"
  name := "Test User"
  photoURL := none
  createdAt := some (toISOString now)
  onboardingCompleted := true

/-- One run of `signIn`: its result, the `user` state of the provider component
afterwards, the store afterwards, and the calls made to the identity provider. -/
structure SignInRun where
  result : SignInResult
  user : Option User
  storage : AsyncStorage
  providerCalls : List (String × String)

/-- Source `signIn(email, password)`; `provider` is the answer that the identity
provider gives to `signInWithEmailAndPassword`, `user` the `user` state before the call
and `now` the `new Date()` of the test user. -/
def signIn (provider : String → String → ProviderAnswer) (fl : Faults) (now : Instant)
    (email password : String) (user : Option User) (st : AsyncStorage) : SignInRun :=
  if email = "test@repright.com" ∧ password = "test123" then
    { result := { success := true, user := some (testUser now), error := none }
      user := some (testUser now)
      storage := (saveData fl .USER_DATA (testUser now) st).2
      providerCalls := [] }
  else
    match provider email password with
    | .resolved firebaseUser =>
      { result := { success := true, user := some firebaseUser, error := none }
        user := user
        storage := st
        providerCalls := [(email, password)] }
    | .rejected code =>
      { result := { success := false, user := none, error := some (getErrorMessage code) }
        user := user
        storage := st
        providerCalls := [(email, password)] }

/-! ## Regular expressions (`RegExp.prototype.test`) -/

/-- Regular expression over characters, anchored at both ends of the input. A class is
given by its membership test. Without the `u` flag a JavaScript class matches one
UTF-16 code unit; the classes and characters used below treat both halves of a
surrogate pair alike, so matching by code point is the same. -/
inductive RegExp where
  | never
  | empty
  | charClass (p : Char → Bool)
  | seq (r s : RegExp)
  | alt (r s : RegExp)
  | star (r : RegExp)

/-- The quantifier `+`: one or more repetitions. -/
def RegExp.plus (r : RegExp) : RegExp := RegExp.seq r (RegExp.star r)

/-- Whether the expression matches the empty input. -/
def RegExp.nullable : RegExp → Bool
  | .never => false
  | .empty => true
  | .charClass _ => false
  | .seq r s => r.nullable && s.nullable
  | .alt r s => r.nullable || s.nullable
  | .star _ => true

/-- The expression for what may follow the character `c`. -/
def RegExp.deriv (c : Char) : RegExp → RegExp
  | .never => .never
  | .empty => .never
  | .charClass p => if p c then .empty else .never
  | .seq r s =>
    if r.nullable then .alt (.seq (r.deriv c) s) (s.deriv c) else .seq (r.deriv c) s
  | .alt r s => .alt (r.deriv c) (s.deriv c)
  | .star r => .seq (r.deriv c) (.star r)

/-- Whether the expression matches the whole input. -/
def RegExp.fullMatch (r : RegExp) : List Char → Bool
  | [] => r.nullable
  | c :: cs => (r.deriv c).fullMatch cs

/-- The method `test` of an expression written between `^` and `$`. -/
def RegExp.test (r : RegExp) (text : String) : Bool := r.fullMatch text.toList

/-- The inputs that an expression matches. -/
def RegExp.Matches : RegExp → List Char → Prop
  | .never, _ => False
  | .empty, cs => cs = []
  | .charClass p, cs => ∃ c, cs = [c] ∧ p c = true
  | .seq r s, cs => ∃ u v, cs = u ++ v ∧ r.Matches u ∧ s.Matches v
  | .alt r s, cs => r.Matches cs ∨ s.Matches cs
  | .star r, cs => ∃ pieces : List (List Char), cs = pieces.flatten ∧ ∀ u ∈ pieces, r.Matches u

/-! ## Form validation (`src/utils/validation.js`) -/

/-- Result object of a field validator. -/
structure ValidationResult where
  isValid : Bool
  error : String
deriving DecidableEq, Repr

/-- JavaScript `String.prototype.trim` on the characters of a string. -/
def trimChars (cs : List Char) : List Char :=
  ((cs.dropWhile isStrWhiteSpaceChar).reverse.dropWhile isStrWhiteSpaceChar).reverse

/-- JavaScript `length` of a string: the number of UTF-16 code units. -/
def utf16Length (cs : List Char) : Nat :=
  (cs.map (fun c => if c.toNat < 65536 then 1 else 2)).sum

/-- The class `[^\s@]`: neither white space nor the at sign. -/
def notSpaceNorAt (c : Char) : Bool := !isStrWhiteSpaceChar c && c != '@'

/-- Source `emailRegex`: `^[^\s@]+@[^\s@]+\.[^\s@]+$`. -/
def emailRegex : RegExp :=
  .seq (.plus (.charClass notSpaceNorAt))
    (.seq (.charClass (fun c => c == '@'))
      (.seq (.plus (.charClass notSpaceNorAt))
        (.seq (.charClass (fun c => c == '.'))
          (.plus (.charClass notSpaceNorAt)))))

/-- Source `validateEmail(email)` for a string `email`. -/
def validateEmail (email : String) : ValidationResult :=
  if email = "" || trimChars email.toList = [] then
    { isValid := false, error := "Email is required" }
  else if !emailRegex.test email then
    { isValid := false, error := "Please enter a valid email address" }
  else { isValid := true, error := "" }

/-- Source `validatePassword(password)` for a string `password`. -/
def validatePassword (password : String) : ValidationResult :=
  if password = "" || trimChars password.toList = [] then
    { isValid := false, error := "Password is required" }
  else if utf16Length password.toList < 6 then
    { isValid := false, error := "Password must be at least 6 characters" }
  else { isValid := true, error := "" }

/-- Source `validateName(name)` for a string `name`. -/
def validateName (name : String) : ValidationResult :=
  if name = "" || trimChars name.toList = [] then
    { isValid := false, error := "Name is required" }
  else if utf16Length (trimChars name.toList) < 2 then
    { isValid := false, error := "Name must be at least 2 characters" }
  else { isValid := true, error := "" }

/-- Source `validatePasswordsMatch(password, confirmPassword)`. -/
def validatePasswordsMatch (password confirmPassword : String) : ValidationResult :=
  if password ≠ confirmPassword then { isValid := false, error := "Passwords do not match" }
  else { isValid := true, error := "" }

/-- The `formData` of the registration form; `confirmPassword` is `none` when the
property is `undefined`. -/
structure RegistrationForm where
  name : String
  email : String
  password : String
  confirmPassword : Option String
deriving DecidableEq, Repr

/-- The `errors` object of a form validation; `none` is a field without an entry. -/
structure RegistrationErrors where
  name : Option String
  email : Option String
  password : Option String
  confirmPassword : Option String
deriving DecidableEq, Repr

/-- Result object of `validateRegistrationForm`. -/
structure FormValidation where
  isValid : Bool
  errors : RegistrationErrors
deriving DecidableEq, Repr

/-- The entry that a failed validation leaves in `errors`. -/
def errorEntry (v : ValidationResult) : Option String :=
  if !v.isValid then some v.error else none

/-- The number of keys of an `errors` object. -/
def RegistrationErrors.keyCount (e : RegistrationErrors) : Nat :=
  (if e.name.isSome then 1 else 0) + (if e.email.isSome then 1 else 0) +
    (if e.password.isSome then 1 else 0) + (if e.confirmPassword.isSome then 1 else 0)

/-- Source `validateRegistrationForm(formData)`. -/
def validateRegistrationForm (formData : RegistrationForm) : FormValidation :=
  let nameValidation := validateName formData.name
  let emailValidation := validateEmail formData.email
  let passwordValidation := validatePassword formData.password
  let errors : RegistrationErrors :=
    { name := errorEntry nameValidation
      email := errorEntry emailValidation
      password := errorEntry passwordValidation
      confirmPassword :=
        match formData.confirmPassword with
        | none => none
        | some confirmPassword =>
          errorEntry (validatePasswordsMatch formData.password confirmPassword) }
  { isValid := errors.keyCount = 0, errors := errors }

/-! ## Weekly meal plan (`src/screens/main/DietScreen.js`) -/

/-- Source `MEAL_TYPES`. -/
def MEAL_TYPES : List String := ["Breakfast", "Lunch", "Dinner", "Snacks"]

/-- Preferences record kept under `repright_meal_preferences`. -/
structure MealPreferences where
  diet : String
  budget : String
  cuisines : List String
  allergies : List String
deriving DecidableEq, Repr

/-- One entry of the table `mealVariations` inside `generateVariedMeal`. -/
structure MealVariation where
  title : String
  image : String
  summary : String
deriving DecidableEq, Repr

/-- Meal record held by one slot of the weekly plan. A field is `none` where the
object has no such field (`ingredients`, `instructions` of a template meal), holds
`undefined` (`readyInMinutes` of an unknown meal type) or holds `null` (`recipeUrl`
of a remotely generated meal). -/
structure PlanMeal where
  id : String
  title : String
  image : String
  calories : Number
  protein : Number
  carbs : Number
  fat : Number
  servings : Int
  readyInMinutes : Option Int
  summary : String
  ingredients : Option (List String)
  instructions : Option (List String)
  recipeUrl : Option String
deriving DecidableEq, Repr

/-- The entries of `mealVariations` under the key `Breakfast`. -/
def breakfastVariations : List MealVariation :=
  [
    { title := "Oatmeal with Berries"
      image := "https://images.unsplash.com/photo-1517673132405-a56a62b18caf?w=400"
      summary := "Warm oatmeal topped with fresh berries, honey, and almonds." },
    { title := "Scrambled Eggs & Toast"
      image := "https://images.unsplash.com/photo-1525351484163-7529414344d8?w=400"
      summary := "Fluffy scrambled eggs with whole wheat toast and avocado." },
    { title := "Greek Yogurt Parfait"
      image := "https://images.unsplash.com/photo-1488477181946-6428a0291777?w=400"
      summary := "Creamy Greek yogurt layered with granola and fresh fruit." },
    { title := "Protein Pancakes"
      image := "https://images.unsplash.com/photo-1567620905732-2d1ec7ab7445?w=400"
      summary := "Fluffy protein pancakes topped with banana and maple syrup." },
    { title := "Avocado Toast"
      image := "https://images.unsplash.com/photo-1541519227354-08fa5d50c44d?w=400"
      summary := "Smashed avocado on sourdough with poached eggs." },
    { title := "Smoothie Bowl"
      image := "https://images.unsplash.com/photo-1590301157890-4810ed352733?w=400"
      summary := "Thick smoothie bowl topped with granola, coconut, and berries." },
    { title := "French Toast"
      image := "https://images.unsplash.com/photo-1484723091739-30a097e8f929?w=400"
      summary := "Classic French toast with cinnamon and fresh strawberries." }
  ]

/-- The entries of `mealVariations` under the key `Lunch`. -/
def lunchVariations : List MealVariation :=
  [
    { title := "Grilled Chicken Salad"
      image := "https://images.unsplash.com/photo-1546069901-ba9599a7e63c?w=400"
      summary := "Fresh grilled chicken breast over mixed greens with vinaigrette." },
    { title := "Turkey & Cheese Wrap"
      image := "https://images.unsplash.com/photo-1626700051175-6818013e1d4f?w=400"
      summary := "Whole wheat wrap with turkey, cheese, lettuce, and tomato." },
    { title := "Quinoa Buddha Bowl"
      image := "https://images.unsplash.com/photo-1512621776951-a57141f2eefd?w=400"
      summary := "Quinoa bowl with roasted vegetables, chickpeas, and tahini." },
    { title := "Chicken Caesar Salad"
      image := "https://images.unsplash.com/photo-1550304943-4f24f54ddde9?w=400"
      summary := "Crisp romaine with grilled chicken, parmesan, and Caesar dressing." },
    { title := "Tuna Sandwich"
      image := "https://images.unsplash.com/photo-1619740455993-557d41f24f44?w=400"
      summary := "Tuna salad sandwich on whole grain bread with lettuce." },
    { title := "Veggie Stir-Fry"
      image := "https://images.unsplash.com/photo-1512058564366-18510be2db19?w=400"
      summary := "Colorful vegetable stir-fry with tofu over brown rice." },
    { title := "Chicken Burrito Bowl"
      image := "https://images.unsplash.com/photo-1604467794349-0b74285de7e7?w=400"
      summary := "Grilled chicken with rice, beans, salsa, and guacamole." }
  ]

/-- The entries of `mealVariations` under the key `Dinner`. -/
def dinnerVariations : List MealVariation :=
  [
    { title := "Baked Salmon with Vegetables"
      image := "https://images.unsplash.com/photo-1467003909585-2f8a72700288?w=400"
      summary := "Perfectly baked salmon fillet with roasted seasonal vegetables." },
    { title := "Grilled Steak & Potatoes"
      image := "https://images.unsplash.com/photo-1588168333986-5078d3ae3976?w=400"
      summary := "Juicy grilled steak with roasted potatoes and asparagus." },
    { title := "Chicken Pasta Primavera"
      image := "https://images.unsplash.com/photo-1621996346565-e3dbc646d9a9?w=400"
      summary := "Whole wheat pasta with grilled chicken and fresh vegetables." },
    { title := "Shrimp Tacos"
      image := "https://images.unsplash.com/photo-1565299585323-38d6b0865b47?w=400"
      summary := "Grilled shrimp tacos with cabbage slaw and avocado." },
    { title := "Turkey Meatballs & Zoodles"
      image := "https://images.unsplash.com/photo-1529042410759-befb1204b468?w=400"
      summary := "Lean turkey meatballs with zucchini noodles and marinara." },
    { title := "Grilled Chicken & Rice"
      image := "https://images.unsplash.com/photo-1598103442097-8b74394b95c6?w=400"
      summary := "Marinated grilled chicken breast with brown rice and broccoli." },
    { title := "Beef Stir-Fry"
      image := "https://images.unsplash.com/photo-1603360946369-dc9bb6258143?w=400"
      summary := "Tender beef strips with mixed vegetables in savory sauce." }
  ]

/-- The entries of `mealVariations` under the key `Snacks`. -/
def snacksVariations : List MealVariation :=
  [
    { title := "Greek Yogurt with Nuts"
      image := "https://images.unsplash.com/photo-1488477181946-6428a0291777?w=400"
      summary := "Protein-rich Greek yogurt topped with mixed nuts and honey." },
    { title := "Apple & Peanut Butter"
      image := "https://images.unsplash.com/photo-1568702846914-96b305d2aaeb?w=400"
      summary := "Fresh apple slices with natural peanut butter." },
    { title := "Protein Shake"
      image := "https://images.unsplash.com/photo-1622483767028-3f66f32aef97?w=400"
      summary := "Chocolate protein shake with banana and almond milk." },
    { title := "Trail Mix"
      image := "https://images.unsplash.com/photo-1599599810769-bcde5a160d32?w=400"
      summary := "Healthy mix of nuts, seeds, and dried fruits." },
    { title := "Cottage Cheese & Fruit"
      image := "https://images.unsplash.com/photo-1628088062854-d1870b4553da?w=400"
      summary := "Low-fat cottage cheese with fresh pineapple chunks." },
    { title := "Hummus & Veggies"
      image := "https://images.unsplash.com/photo-1621340635223-9b8f5f9b6440?w=400"
      summary := "Creamy hummus with carrot sticks and bell peppers." },
    { title := "Protein Bar"
      image := "https://images.unsplash.com/photo-1582033712908-32d7c6c8e8f0?w=400"
      summary := "High-protein energy bar with nuts and chocolate." }
  ]

/-- Source `mealVariations[mealType]` inside `generateVariedMeal`: `none` is
`undefined`, the value at a key the table does not have. -/
def mealVariations (mealType : String) : Option (List MealVariation) :=
  if mealType = "Breakfast" then some breakfastVariations
  else if mealType = "Lunch" then some lunchVariations
  else if mealType = "Dinner" then some dinnerVariations
  else if mealType = "Snacks" then some snacksVariations
  else none

/-- Source `getFallbackCookTime(mealType)`: `times[mealType]`, `none` being
`undefined`. -/
def getFallbackCookTime (mealType : String) : Option Int :=
  if mealType = "Breakfast" then some 10
  else if mealType = "Lunch" then some 20
  else if mealType = "Dinner" then some 30
  else if mealType = "Snacks" then some 5
  else none

/-- Source `generateVariedMeal(mealType, calories, dayIndex)`, with the reading of
`Date.now()` as `dateNow`. The result is `none` where the source throws a
`TypeError` (reading `title` of an `undefined` variation). `toLowerCase` is
`String.toLower`, which agrees with it on ASCII text; the decimal literals and the
arithmetic under `Math.round` are binary64. -/
def generateVariedMeal (mealType : String) (calories : Number) (dayIndex : Nat)
    (dateNow : Int) : Option PlanMeal :=
  match (mealVariations mealType).orElse (fun _ => mealVariations "Lunch") with
  | none => none
  | some variations =>
    match variations[dayIndex % variations.length]? with
    | none => none
    | some selectedVariation =>
      some
        { id := mealType.toLower ++ "-day" ++ toString dayIndex ++ "-" ++ toString dateNow
          title := selectedVariation.title
          image := selectedVariation.image
          calories := calories
          protein := Math.round ((calories.mul (Number.ofRat 0.25)).div (Number.ofInt 4))
          carbs := Math.round ((calories.mul (Number.ofRat 0.50)).div (Number.ofInt 4))
          fat := Math.round ((calories.mul (Number.ofRat 0.25)).div (Number.ofInt 9))
          servings := 1
          readyInMinutes := getFallbackCookTime mealType
          summary := selectedVariation.summary
          ingredients := none
          instructions := none
          recipeUrl := some ("#recipe-" ++ mealType.toLower) }

/-- Source `mealCalories[mealType]` inside `generateWeeklyMealPlan`: the share of
the daily target given to a meal type, `none` being `undefined`. Each share is the
binary64 product of the target and the binary64 value of the decimal literal,
rounded by `Math.round`. -/
def mealCalories (calorieTarget : Int) (mealType : String) : Option Number :=
  if mealType = "Breakfast" then
    some (Math.round ((Number.ofInt calorieTarget).mul (Number.ofRat 0.25)))
  else if mealType = "Lunch" then
    some (Math.round ((Number.ofInt calorieTarget).mul (Number.ofRat 0.35)))
  else if mealType = "Dinner" then
    some (Math.round ((Number.ofInt calorieTarget).mul (Number.ofRat 0.30)))
  else if mealType = "Snacks" then
    some (Math.round ((Number.ofInt calorieTarget).mul (Number.ofRat 0.10)))
  else none

/-- Outcome of each call `generateMealWithClaude(mealType, targetCalories, diet,
cuisines, allergies, budget, dayIndex)`: the meal the call resolves with, or
`none` when it rejects. -/
abbrev RemoteMeals :=
  String → Number → String → List String → List String → String → Nat → Option PlanMeal

/-- An object built key by key, in the order of the list; `none` when building one
of the values throws. -/
def fillKeys {κ β : Type} (value : κ → Option β) : List κ → Option (List (κ × β))
  | [] => some []
  | k :: rest =>
    match value k with
    | none => none
    | some v => (fillKeys value rest).map (fun filled => (k, v) :: filled)

/-- The weekly plan `newMealPlan`: for each day index, the meals by meal type. -/
abbrev WeeklyMealPlan := List (Nat × List (String × PlanMeal))

/-- Read `plan[day][mealType]`; `none` is `undefined`. -/
def WeeklyMealPlan.slot (plan : WeeklyMealPlan) (day : Nat) (mealType : String) :
    Option PlanMeal :=
  (plan.lookup day).bind (fun meals => meals.lookup mealType)

/-- Body of the inner loop of `generateWeeklyMealPlan` for one day and one meal
type: the remotely generated meal, or in the `catch` branch the template of
`generateVariedMeal`. `dateNow day mealType` is the reading of `Date.now()` taken
in that branch. The loop only runs over `MEAL_TYPES`, each of which has a target;
a meal type without one is given no meal here. -/
def planSlot (generateMealWithClaude : RemoteMeals) (dateNow : Nat → String → Int)
    (prefs : MealPreferences) (calorieTarget : Int) (day : Nat) (mealType : String) :
    Option PlanMeal :=
  match mealCalories calorieTarget mealType with
  | none => none
  | some calories =>
    match generateMealWithClaude mealType calories prefs.diet prefs.cuisines
        prefs.allergies prefs.budget day with
    | some aiMeal => some aiMeal
    | none => generateVariedMeal mealType calories day (dateNow day mealType)

/-- Source `generateWeeklyMealPlan`. `savedPrefs` is what
`getData('repright_meal_preferences')` returned (`none` for `null`); the calorie
target is read from the store under `repright_daily_goal`. The result is the plan
handed to `setWeeklyMealPlan`, or `none` when the function leaves the plan of the
screen as it was (no preferences, or an exception reaching the outer `catch`). The
write of the plan under `repright_weekly_meal_plan`, a key outside `STORAGE_KEYS`,
is not represented. -/
def generateWeeklyMealPlan (generateMealWithClaude : RemoteMeals)
    (dateNow : Nat → String → Int) (fl : Faults) (st : AsyncStorage)
    (savedPrefs : Option MealPreferences) : Option WeeklyMealPlan :=
  match savedPrefs with
  | none => none
  | some prefs =>
    let calorieTarget := getData fl st .DAILY_GOAL 2000
    fillKeys
      (fun day =>
        fillKeys (planSlot generateMealWithClaude dateNow prefs calorieTarget day)
          MEAL_TYPES)
      (List.range 7)

/-! ## Sample data -/

/-- A selected food: 100 g of a food with 500 kcal, 30 g protein, 50 g carbs and
15 g fat per 100 g. -/
def sampleFood : SelectedFood where
  food :=
    { id := "9040", name := "granola", brand := "Generic", image := "", servingSize := "100g"
      calories := 500, protein := 30, carbs := 50, fat := 15 }
  servingMultiplier := 1
  serving := "100g"
  totalCalories := 500
  totalProtein := 30
  totalCarbs := 50
  totalFat := 15

/-- A meal of 500 kcal logged at the instant `t`. -/
def sampleMeal (t : Instant) : Meal where
  id := t
  mealType := "Breakfast"
  selectedFoods := [sampleFood]
  calories := 500
  protein := 30
  carbs := 50
  fat := 15
  timestamp := toISOString t

/-- A store with the given meals, streak and last-active instant and no goals. -/
def sampleStore (meals : List Meal) (streak : Int) (lastActive : Instant) : AsyncStorage :=
  fun k =>
    match k with
    | .MEALS => some (Stored.json meals)
    | .STREAK => some (Stored.json streak)
    | .LAST_ACTIVE => some (Stored.json (toISOString lastActive))
    | _ => none

/-- A freshly mounted home screen over `sampleStore`. -/
def sampleApp (meals : List Meal) (streak : Int) (lastActive : Instant) : App where
  storage := sampleStore meals streak lastActive
  home := HomeState.initial

/-- The store `sampleStore` with a daily goal of 1500 kcal and macro goals of
120 g protein, 180 g carbs and 50 g fat. -/
def sampleGoalStore (meals : List Meal) (streak : Int) (lastActive : Instant) :
    AsyncStorage :=
  fun k =>
    match k with
    | .DAILY_GOAL => some (Stored.json (1500 : Int))
    | .MACRO_GOALS => some (Stored.json ({ protein := 120, carbs := 180, fat := 50 } : MacroGoals))
    | k1 => sampleStore meals streak lastActive k1

/-- A freshly mounted home screen over `sampleGoalStore`. -/
def sampleGoalApp (meals : List Meal) (streak : Int) (lastActive : Instant) : App where
  storage := sampleGoalStore meals streak lastActive
  home := HomeState.initial

/-- A session across midnight (UTC): cold start at 23:50 on 1 January 1970, then a
breakfast saved at 00:10 on 2 January with the application still open. -/
def midnightSession : List Event :=
  [.mount 85800000 85800000, .pressSave "Breakfast" [sampleFood] 87000000 87000000]

/-- A session whose refresh straddles midnight (UTC): cold start at 01:00 on 1 January
1970, a breakfast saved at 02:00, then a refresh that checks the day at 23:59:59.999
and writes the last-active date at 00:00:00.001 on 2 January. -/
def straddlingSession : List Event :=
  [.mount 3600000 3600000, .pressSave "Breakfast" [sampleFood] 7200000 7200000,
    .refresh 86399999 86400001]

/-- A session within one day (UTC): cold start at 01:00 on 1 January 1970, a breakfast
saved at 02:00, a refresh at 03:00. -/
def sameDaySampleSession : List Event :=
  [.mount 3600000 3600000, .pressSave "Breakfast" [sampleFood] 7200000 7200000,
    .refresh 10800000 10800000]

/-- A home screen with a daily goal of 2000 kcal that shows five meals of 500 kcal. -/
def sampleOverHome : HomeState :=
  { HomeState.initial with
    meals := [sampleMeal 3600000, sampleMeal 7200000, sampleMeal 10800000,
      sampleMeal 14400000, sampleMeal 18000000] }

/-- The application with the stored last-active date replaced by `la`. -/
def withLastActive (la : ISOString) (app : App) : App :=
  { app with storage := Function.update app.storage .LAST_ACTIVE (some (Stored.json la)) }

/-- The meal `sampleMeal t` after an edit that changes it to a lunch of 700 kcal. -/
def editedMeal (t : Instant) : Meal :=
  { sampleMeal t with mealType := "Lunch", calories := 700 }

/-- A food search result: granola with 500 kcal per 100 g. -/
def sampleFoodItem : FoodItem := sampleFood.food

/-- A meal modal in which a serving multiplier of 1.5 is chosen for the granola. -/
def sampleModalState : MealModalState where
  mealType := "Breakfast"
  searchQuery := "granola"
  searchResults := [sampleFoodItem]
  selectedFoods := []
  servingSizes := fun id => if id = "9040" then some (3 / 2) else none

/-- A meal whose id is 0: one created at the epoch instant. -/
def epochMeal : Meal := sampleMeal 0

/-- The home screen with the meal `epochMeal` listed and opened for editing. -/
def editingEpochMeal : App :=
  handleEditMeal epochMeal (handleSaveMeal noFaults epochMeal freshInstall)

/-- The home screen with two meals listed and the first opened for editing. -/
def editingFirstMeal : App :=
  handleEditMeal (sampleMeal 3600000)
    (handleSaveMeal noFaults (sampleMeal 7200000)
      (handleSaveMeal noFaults (sampleMeal 3600000) freshInstall))

/-- A store on which every write fails. -/
def failingWrites : Faults := { noFaults with setItemThrows := fun _ => true }

/-- An identity provider that rejects every sign-in. -/
def rejectingProvider : String → String → ProviderAnswer :=
  fun _ _ => ProviderAnswer.rejected "auth/network-request-failed"

/-- An identity provider that knows one account. -/
def oneAccountProvider : String → String → ProviderAnswer :=
  fun email password =>
    if email = "ana@example.com" ∧ password = "secret1" then
      ProviderAnswer.resolved
        { uid := "u1", email := "ana@example.com", displayName := "Ana", name := "Ana"
          photoURL := none, createdAt := none, onboardingCompleted := false }
    else ProviderAnswer.rejected "auth/wrong-password"

/-- A registration form with valid fields and no `confirmPassword` property. -/
def formWithoutConfirm : RegistrationForm where
  name := "Ana"
  email := "ana@example.com"
  password := "secret1"
  confirmPassword := none

/-- The registration form `formWithoutConfirm` with the given confirmation. -/
def formWithConfirm (confirmPassword : String) : RegistrationForm :=
  { formWithoutConfirm with confirmPassword := some confirmPassword }

/-- Preferences as the preferences modal first shows them. -/
def samplePreferences : MealPreferences where
  diet := "balanced"
  budget := "moderate"
  cuisines := ["american", "italian", "mexican"]
  allergies := []

/-- A remote service whose every call rejects. -/
def rejectingRemote : RemoteMeals := fun _ _ _ _ _ _ _ => none

/-- A clock that reads the same instant at every call. -/
def fixedClock : Nat → String → Int := fun _ _ => 1700000000000

/-! ## Storage lemmas -/

theorem saveData_same (fl : Faults) (key : STORAGE_KEYS) (value : Val key)
    (st : AsyncStorage) (hw : fl.setItemThrows key = false) :
    (saveData fl key value st).2 key = some (Stored.json value) := by
  simp [saveData, hw]

theorem saveData_other (fl : Faults) (key k : STORAGE_KEYS) (value : Val key)
    (st : AsyncStorage) (hk : k ≠ key) :
    (saveData fl key value st).2 k = st k := by
  unfold saveData
  split
  · rfl
  · exact Function.update_noteq hk _ _

theorem removeData_other (fl : Faults) (key k : STORAGE_KEYS)
    (st : AsyncStorage) (hk : k ≠ key) :
    (removeData fl key st).2 k = st k := by
  unfold removeData
  split
  · rfl
  · exact Function.update_noteq hk _ _

theorem removeData_same (fl : Faults) (key : STORAGE_KEYS)
    (st : AsyncStorage) (hw : fl.removeItemThrows key = false) :
    (removeData fl key st).2 key = none := by
  simp [removeData, hw]

theorem getData_json (fl : Faults) (st : AsyncStorage) (key : STORAGE_KEYS)
    (d v : Val key) (hr : fl.getItemThrows key = false)
    (hv : st key = some (Stored.json v)) : getData fl st key d = v := by
  simp [getData, hr, hv]

theorem getData_absent (fl : Faults) (st : AsyncStorage) (key : STORAGE_KEYS)
    (d : Val key) (hv : st key = none) : getData fl st key d = d := by
  simp [getData, hv]

@[simp] theorem save_home (fl : Faults) (key : STORAGE_KEYS) (value : Val key) (app : App) :
    (app.save fl key value).home = app.home := rfl

@[simp] theorem save_storage (fl : Faults) (key : STORAGE_KEYS) (value : Val key) (app : App) :
    (app.save fl key value).storage = (saveData fl key value app.storage).2 := rfl

@[simp] theorem setMeals_storage (v : List Meal) (app : App) :
    (setMeals v app).storage = app.storage := rfl

@[simp] theorem setStreak_storage (v : Int) (app : App) :
    (setStreak v app).storage = app.storage := rfl

@[simp] theorem setDailyGoal_storage (v : Int) (app : App) :
    (setDailyGoal v app).storage = app.storage := rfl

@[simp] theorem setMacroGoals_storage (v : MacroGoals) (app : App) :
    (setMacroGoals v app).storage = app.storage := rfl

@[simp] theorem setEditingMeal_storage (v : Option Meal) (app : App) :
    (setEditingMeal v app).storage = app.storage := rfl

@[simp] theorem setShowMealModal_storage (v : Bool) (app : App) :
    (setShowMealModal v app).storage = app.storage := rfl

/-- The store that `resetDailyData` leaves, as three writes in sequence. -/
theorem resetDailyData_storage (fl : Faults) (now : Instant) (app : App) :
    (resetDailyData fl now app).storage =
      (saveData fl .LAST_ACTIVE (toISOString now)
        (saveData fl .MEALS []
          (saveData fl .STREAK
            (if (getData fl app.storage .MEALS []).length > 0
              then getData fl app.storage .STREAK 0 + 1 else 0)
            app.storage).2).2).2 := by
  unfold resetDailyData
  by_cases h : (getData fl app.storage .MEALS []).length > 0 <;> simp [h]

/-- The React state that `resetDailyData` leaves. -/
theorem resetDailyData_home (fl : Faults) (now : Instant) (app : App) :
    (resetDailyData fl now app).home =
      { app.home with
        meals := []
        streak := if (getData fl app.storage .MEALS []).length > 0
          then getData fl app.storage .STREAK 0 + 1 else 0 } := by
  unfold resetDailyData
  by_cases h : (getData fl app.storage .MEALS []).length > 0 <;>
    simp [h, setMeals, setStreak]

/-! ## Rollover -/

/-- C1. Streak transition at rollover: when the store holds the meal list `M` and the
streak `s` and both are read, `resetDailyData` sets the in-memory streak to `s + 1` if
`M` is non-empty and to 0 if `M` is empty, and the streak write, when it succeeds,
persists the same value. -/
theorem C1_streak_transition (fl : Faults) (now : Instant) (app : App)
    (M : List Meal) (s : Int)
    (hM : app.storage .MEALS = some (Stored.json M))
    (hs : app.storage .STREAK = some (Stored.json s))
    (hrM : fl.getItemThrows .MEALS = false)
    (hrS : fl.getItemThrows .STREAK = false) :
    (resetDailyData fl now app).home.streak = (if M.length > 0 then s + 1 else 0) ∧
    (fl.setItemThrows .STREAK = false →
      (resetDailyData fl now app).storage .STREAK =
        some (Stored.json (if M.length > 0 then s + 1 else 0))) := by
  have hgM : getData fl app.storage .MEALS [] = M := getData_json fl _ _ _ _ hrM hM
  have hgS : getData fl app.storage .STREAK 0 = s := getData_json fl _ _ _ _ hrS hs
  constructor
  · rw [resetDailyData_home, hgM, hgS]
  · intro hw
    rw [resetDailyData_storage, hgM, hgS]
    rw [saveData_other _ _ _ _ _ (by decide), saveData_other _ _ _ _ _ (by decide)]
    exact saveData_same fl _ _ _ hw

/-- Witness of C1: a day with one logged meal and streak 2 rolls over to streak 3, in
memory and in the store. -/
theorem C1_streak_transition_witness :
    (resetDailyData noFaults 86400000 (sampleApp [sampleMeal 3600000] 2 3600000)).home.streak = 3 ∧
    (resetDailyData noFaults 86400000 (sampleApp [sampleMeal 3600000] 2 3600000)).storage .STREAK
        = some (Stored.json (3 : Int)) :=
  have h := C1_streak_transition noFaults 86400000 (sampleApp [sampleMeal 3600000] 2 3600000)
      [sampleMeal 3600000] 2 rfl rfl rfl rfl
  ⟨h.1, h.2 rfl⟩

/-- C2. Day isolation: whatever the store held, after `resetDailyData` the in-memory
meal list is empty, and the meals write, when it succeeds, persists the empty list. -/
theorem C2_day_isolation (fl : Faults) (now : Instant) (app : App) :
    (resetDailyData fl now app).home.meals = [] ∧
    (fl.setItemThrows .MEALS = false →
      (resetDailyData fl now app).storage .MEALS = some (Stored.json [])) := by
  constructor
  · rw [resetDailyData_home]
  · intro hw
    rw [resetDailyData_storage, saveData_other _ _ _ _ _ (by decide)]
    exact saveData_same fl _ _ _ hw

/-- Witness of C2: a day with one logged meal rolls over to an empty list, in memory
and in the store. -/
theorem C2_day_isolation_witness :
    (resetDailyData noFaults 86400000 (sampleApp [sampleMeal 3600000] 2 3600000)).home.meals = [] ∧
    (resetDailyData noFaults 86400000 (sampleApp [sampleMeal 3600000] 2 3600000)).storage .MEALS
        = some (Stored.json []) :=
  have h := C2_day_isolation noFaults 86400000 (sampleApp [sampleMeal 3600000] 2 3600000)
  ⟨h.1, h.2 rfl⟩

/-- A value read by `getData(key)` is the stored JSON value. -/
theorem getDataNull_some (fl : Faults) (st : AsyncStorage) (key : STORAGE_KEYS)
    (v : Val key) (h : getDataNull fl st key = some v) :
    st key = some (Stored.json v) := by
  unfold getDataNull at h
  split at h
  · cases h
  · split at h
    · cases h
    · next w hw => cases h; exact hw
    · cases h

/-- The value read by `getData(key)` from a store whose read succeeds. -/
theorem getDataNull_json (fl : Faults) (st : AsyncStorage) (key : STORAGE_KEYS)
    (v : Val key) (hr : fl.getItemThrows key = false)
    (hv : st key = some (Stored.json v)) : getDataNull fl st key = some v := by
  simp [getDataNull, hr, hv]

/-- Unfolding of `loadData` when no rollover is due. -/
theorem loadData_of_not_due (cal : Calendar) (fl : Faults) (today now : Instant)
    (app : App) (h : rolloverDue cal fl today app = false) :
    loadData cal fl today now app = loadExisting fl now app := by
  unfold loadData
  simp [h]

/-- Unfolding of `loadData` when a rollover is due. -/
theorem loadData_of_due (cal : Calendar) (fl : Faults) (today now : Instant)
    (app : App) (h : rolloverDue cal fl today app = true) :
    loadData cal fl today now app = resetDailyData fl now app := by
  unfold loadData
  simp [h]

/-- The guard of `loadData` in terms of the value read under the last-active key. -/
theorem rolloverDue_eq (cal : Calendar) (fl : Faults) (today : Instant) (app : App) :
    rolloverDue cal fl today app =
      match getDataNull fl app.storage .LAST_ACTIVE with
      | none => false
      | some s => !isSameDay cal (newDate s) today := by
  unfold rolloverDue shouldResetDaily
  cases getDataNull fl app.storage .LAST_ACTIVE <;> simp

/-- No rollover is due when the stored last-active date, if there is one, lies on the
day of the check. -/
theorem rolloverDue_false_of_sameDay (cal : Calendar) (fl : Faults) (today : Instant)
    (app : App)
    (h : ∀ s, app.storage .LAST_ACTIVE = some (Stored.json s) →
      isSameDay cal (newDate s) today = true) :
    rolloverDue cal fl today app = false := by
  rw [rolloverDue_eq]
  cases hg : getDataNull fl app.storage .LAST_ACTIVE with
  | none => rfl
  | some s => simp [h s (getDataNull_some fl _ _ s hg)]

/-- The store that `loadExisting` leaves: one write, to the last-active key. -/
theorem loadExisting_storage (fl : Faults) (now : Instant) (app : App) :
    (loadExisting fl now app).storage =
      (saveData fl .LAST_ACTIVE (toISOString now) app.storage).2 := rfl

/-- Reflexivity of `isSameDay`. -/
theorem isSameDay_refl (cal : Calendar) (d : Instant) : isSameDay cal d d = true := by
  simp [isSameDay]

/-- Equivalence between `isSameDay` and agreement of the three calendar fields. -/
theorem isSameDay_iff (cal : Calendar) (d1 d2 : Instant) :
    isSameDay cal d1 d2 = true ↔
      cal.getFullYear d1 = cal.getFullYear d2 ∧ cal.getMonth d1 = cal.getMonth d2 ∧
        cal.getDate d1 = cal.getDate d2 := by
  simp [isSameDay, and_assoc]

/-- Transitivity of `isSameDay`. -/
theorem isSameDay_trans (cal : Calendar) (d1 d2 d3 : Instant)
    (h12 : isSameDay cal d1 d2 = true) (h23 : isSameDay cal d2 d3 = true) :
    isSameDay cal d1 d3 = true := by
  rw [isSameDay_iff] at *
  obtain ⟨a1, a2, a3⟩ := h12
  obtain ⟨b1, b2, b3⟩ := h23
  exact ⟨a1.trans b1, a2.trans b2, a3.trans b3⟩

/-- Symmetry of `isSameDay`. -/
theorem isSameDay_symm (cal : Calendar) (d1 d2 : Instant)
    (h : isSameDay cal d1 d2 = true) : isSameDay cal d2 d1 = true := by
  rw [isSameDay_iff] at *
  exact ⟨h.1.symm, h.2.1.symm, h.2.2.symm⟩

/-- The last-active item after `loadData`, when its write succeeds. -/
theorem loadData_lastActive (cal : Calendar) (fl : Faults) (today now : Instant)
    (app : App) (hw : fl.setItemThrows .LAST_ACTIVE = false) :
    (loadData cal fl today now app).storage .LAST_ACTIVE =
      some (Stored.json (toISOString now)) := by
  unfold loadData
  split
  · rw [resetDailyData_storage]
    exact saveData_same fl _ _ _ hw
  · rw [loadExisting_storage]
    exact saveData_same fl _ _ _ hw

/-- C3. Idempotent rollover guard: when the first `loadData` writes the last-active
date at an instant on the same local calendar day as the second run, the second run
does not roll over (it takes the load-existing path) and leaves the persisted meals
and streak as the first run left them. -/
theorem C3_idempotent_rollover_guard (cal : Calendar) (fl1 fl2 : Faults)
    (today1 now1 today2 now2 : Instant) (app : App)
    (hw : fl1.setItemThrows .LAST_ACTIVE = false)
    (hday : isSameDay cal now1 today2 = true) :
    rolloverDue cal fl2 today2 (loadData cal fl1 today1 now1 app) = false ∧
    loadData cal fl2 today2 now2 (loadData cal fl1 today1 now1 app) =
      loadExisting fl2 now2 (loadData cal fl1 today1 now1 app) ∧
    (loadData cal fl2 today2 now2 (loadData cal fl1 today1 now1 app)).storage .MEALS =
      (loadData cal fl1 today1 now1 app).storage .MEALS ∧
    (loadData cal fl2 today2 now2 (loadData cal fl1 today1 now1 app)).storage .STREAK =
      (loadData cal fl1 today1 now1 app).storage .STREAK := by
  have hla := loadData_lastActive cal fl1 today1 now1 app hw
  have hno : rolloverDue cal fl2 today2 (loadData cal fl1 today1 now1 app) = false := by
    apply rolloverDue_false_of_sameDay
    intro s hs
    rw [hla] at hs
    cases hs
    exact hday
  have hload : loadData cal fl2 today2 now2 (loadData cal fl1 today1 now1 app) =
      loadExisting fl2 now2 (loadData cal fl1 today1 now1 app) :=
    loadData_of_not_due cal fl2 today2 now2 _ hno
  refine ⟨hno, hload, ?_, ?_⟩
  · rw [hload, loadExisting_storage]
    exact saveData_other _ _ _ _ _ (by decide)
  · rw [hload, loadExisting_storage]
    exact saveData_other _ _ _ _ _ (by decide)

/-- Witness of C3: the store was last active on 1 January 1970 with one meal and
streak 2; a load at 08:00 on 2 January rolls over, and a second load at 20:00 on
2 January does not and keeps the empty meal list and the streak 3. -/
theorem C3_idempotent_rollover_guard_witness :
    rolloverDue Calendar.utc noFaults 115200000 (sampleApp [sampleMeal 3600000] 2 3600000) = true ∧
    rolloverDue Calendar.utc noFaults 158400000
      (loadData Calendar.utc noFaults 115200000 115200000
        (sampleApp [sampleMeal 3600000] 2 3600000)) = false ∧
    (loadData Calendar.utc noFaults 158400000 158400000
      (loadData Calendar.utc noFaults 115200000 115200000
        (sampleApp [sampleMeal 3600000] 2 3600000))).storage .MEALS = some (Stored.json []) ∧
    (loadData Calendar.utc noFaults 158400000 158400000
      (loadData Calendar.utc noFaults 115200000 115200000
        (sampleApp [sampleMeal 3600000] 2 3600000))).storage .STREAK =
      some (Stored.json (3 : Int)) :=
  have h := C3_idempotent_rollover_guard Calendar.utc noFaults noFaults
    115200000 115200000 158400000 158400000 (sampleApp [sampleMeal 3600000] 2 3600000)
    rfl (by decide)
  ⟨by decide, h.1, h.2.2.1.trans (by decide), h.2.2.2.trans (by decide)⟩

/-- C4. Rollover trigger: `loadData` runs `resetDailyData` exactly when its guard
holds, and otherwise loads the existing data; with a readable store the guard holds
if and only if a last-active value is stored and its local year, month or day of month
differs from that of the current instant; an absent last-active value never triggers
it. In UTC, 23:55 on 1 January and 00:05 on 2 January trigger it, while 00:00:00.000
and 23:59:59.999 on 1 January do not. -/
theorem C4_rollover_trigger (cal : Calendar) (fl : Faults) (today now : Instant)
    (app : App) :
    (loadData cal fl today now app =
      if rolloverDue cal fl today app then resetDailyData fl now app
      else loadExisting fl now app) ∧
    (fl.getItemThrows .LAST_ACTIVE = false →
      (rolloverDue cal fl today app = true ↔
        ∃ s, app.storage .LAST_ACTIVE = some (Stored.json s) ∧
          ¬ (cal.getFullYear (newDate s) = cal.getFullYear today ∧
             cal.getMonth (newDate s) = cal.getMonth today ∧
             cal.getDate (newDate s) = cal.getDate today))) ∧
    (app.storage .LAST_ACTIVE = none → rolloverDue cal fl today app = false) ∧
    rolloverDue Calendar.utc noFaults 86700000 (sampleApp [] 0 86100000) = true ∧
    rolloverDue Calendar.utc noFaults 86399999 (sampleApp [] 0 0) = false := by
  refine ⟨rfl, ?_, ?_, by decide, by decide⟩
  · intro hr
    rw [rolloverDue_eq]
    constructor
    · intro h
      cases hg : getDataNull fl app.storage .LAST_ACTIVE with
      | none => rw [hg] at h; cases h
      | some s =>
        rw [hg] at h
        refine ⟨s, getDataNull_some fl _ _ s hg, ?_⟩
        rw [← isSameDay_iff]
        simpa using h
    · rintro ⟨s, hs, hne⟩
      rw [getDataNull_json fl _ _ s hr hs]
      rw [← isSameDay_iff] at hne
      simpa using hne
  · intro hnone
    apply rolloverDue_false_of_sameDay
    intro s hs
    rw [hnone] at hs
    cases hs

/-- Witness of C4: the store was last active at 23:55 on 1 January 1970 (UTC); a load
at 00:05 on 2 January finds a stored date with a different day of month and rolls
over. -/
theorem C4_rollover_trigger_witness :
    loadData Calendar.utc noFaults 86700000 86700000 (sampleApp [] 0 86100000) =
      resetDailyData noFaults 86700000 (sampleApp [] 0 86100000) ∧
    (∃ s, (sampleApp [] 0 86100000).storage .LAST_ACTIVE = some (Stored.json s) ∧
      ¬ (Calendar.utc.getFullYear (newDate s) = Calendar.utc.getFullYear 86700000 ∧
         Calendar.utc.getMonth (newDate s) = Calendar.utc.getMonth 86700000 ∧
         Calendar.utc.getDate (newDate s) = Calendar.utc.getDate 86700000)) :=
  have h := C4_rollover_trigger Calendar.utc noFaults 86700000 86700000
    (sampleApp [] 0 86100000)
  ⟨h.1.trans (by rw [h.2.2.2.1]; rfl), (h.2.1 rfl).mp h.2.2.2.1⟩

/-- C5. Goals after a rollover: a cold start on 2 January 1970 over a store with a
daily goal of 1500 kcal, macro goals of 120/180/50 g and a last-active date on
1 January rolls over, leaves both goals in the store, and leaves the in-memory goals
at their initial values 2000 and 150/200/65 instead of the stored ones, whereas the
same load without rollover shows the stored goals. -/
theorem C5_goals_not_loaded_after_rollover :
    rolloverDue Calendar.utc noFaults 115200000 (sampleGoalApp [] 0 3600000) = true ∧
    (mount Calendar.utc noFaults 115200000 115200000 (sampleGoalApp [] 0 3600000)).storage
      .DAILY_GOAL = some (Stored.json (1500 : Int)) ∧
    (mount Calendar.utc noFaults 115200000 115200000 (sampleGoalApp [] 0 3600000)).storage
      .MACRO_GOALS = some (Stored.json ({ protein := 120, carbs := 180, fat := 50 } : MacroGoals)) ∧
    (mount Calendar.utc noFaults 115200000 115200000
      (sampleGoalApp [] 0 3600000)).home.dailyGoal = 2000 ∧
    (mount Calendar.utc noFaults 115200000 115200000
      (sampleGoalApp [] 0 3600000)).home.macroGoals = { protein := 150, carbs := 200, fat := 65 } ∧
    (mount Calendar.utc noFaults 7200000 7200000
      (sampleGoalApp [] 0 3600000)).home.dailyGoal = 1500 ∧
    (mount Calendar.utc noFaults 7200000 7200000
      (sampleGoalApp [] 0 3600000)).home.macroGoals = { protein := 120, carbs := 180, fat := 50 } := by
  refine ⟨by decide, by decide, by decide, by decide, by decide, by decide, by decide⟩

/-- The React state that `loadExisting` leaves. -/
theorem loadExisting_home (fl : Faults) (now : Instant) (app : App) :
    (loadExisting fl now app).home =
      { app.home with
        meals := getData fl app.storage .MEALS []
        dailyGoal := getData fl app.storage .DAILY_GOAL CALORIE_PRESETS.MAINTAIN
        macroGoals := getData fl app.storage .MACRO_GOALS DEFAULT_MACRO_GOALS
        streak := getData fl app.storage .STREAK 0 } := rfl

/-- C6. Defaults on load: when the stored last-active date is absent or on the
current day and the store is readable, `loadData` sets the in-memory meals, daily goal,
macro goals and streak to the stored values, and for an absent key to `[]`, 2000,
150/200/65 and 0. -/
theorem C6_defaults_on_load (cal : Calendar) (fl : Faults) (today now : Instant)
    (app : App)
    (hday : app.storage .LAST_ACTIVE = none ∨
      ∃ s, app.storage .LAST_ACTIVE = some (Stored.json s) ∧
        isSameDay cal (newDate s) today = true)
    (hr : ∀ k, fl.getItemThrows k = false) :
    ((∀ v, app.storage .MEALS = some (Stored.json v) →
        (loadData cal fl today now app).home.meals = v) ∧
      (app.storage .MEALS = none → (loadData cal fl today now app).home.meals = [])) ∧
    ((∀ v, app.storage .DAILY_GOAL = some (Stored.json v) →
        (loadData cal fl today now app).home.dailyGoal = v) ∧
      (app.storage .DAILY_GOAL = none →
        (loadData cal fl today now app).home.dailyGoal = 2000)) ∧
    ((∀ v, app.storage .MACRO_GOALS = some (Stored.json v) →
        (loadData cal fl today now app).home.macroGoals = v) ∧
      (app.storage .MACRO_GOALS = none →
        (loadData cal fl today now app).home.macroGoals =
          { protein := 150, carbs := 200, fat := 65 })) ∧
    ((∀ v, app.storage .STREAK = some (Stored.json v) →
        (loadData cal fl today now app).home.streak = v) ∧
      (app.storage .STREAK = none → (loadData cal fl today now app).home.streak = 0)) := by
  have hno : rolloverDue cal fl today app = false := by
    apply rolloverDue_false_of_sameDay
    intro s hs
    rcases hday with hnone | ⟨s1, hs1, hsame⟩
    · rw [hnone] at hs
      cases hs
    · rw [hs1] at hs
      cases hs
      exact hsame
  rw [loadData_of_not_due cal fl today now app hno, loadExisting_home]
  refine ⟨⟨?_, ?_⟩, ⟨?_, ?_⟩, ⟨?_, ?_⟩, ⟨?_, ?_⟩⟩
  · intro v hv
    exact getData_json fl _ _ _ _ (hr _) hv
  · intro hv
    exact getData_absent fl _ _ _ hv
  · intro v hv
    exact getData_json fl _ _ _ _ (hr _) hv
  · intro hv
    exact getData_absent fl _ _ _ hv
  · intro v hv
    exact getData_json fl _ _ _ _ (hr _) hv
  · intro hv
    exact getData_absent fl _ _ _ hv
  · intro v hv
    exact getData_json fl _ _ _ _ (hr _) hv
  · intro hv
    exact getData_absent fl _ _ _ hv

/-- Witness of C6: a cold start at 02:00 on 1 January 1970 over a store last active at
01:00 with one meal, streak 2 and no goals shows that meal, streak 2 and the default
goals 2000 and 150/200/65. -/
theorem C6_defaults_on_load_witness :
    (loadData Calendar.utc noFaults 7200000 7200000
      (sampleApp [sampleMeal 3600000] 2 3600000)).home.meals = [sampleMeal 3600000] ∧
    (loadData Calendar.utc noFaults 7200000 7200000
      (sampleApp [sampleMeal 3600000] 2 3600000)).home.dailyGoal = 2000 ∧
    (loadData Calendar.utc noFaults 7200000 7200000
      (sampleApp [sampleMeal 3600000] 2 3600000)).home.macroGoals =
        { protein := 150, carbs := 200, fat := 65 } ∧
    (loadData Calendar.utc noFaults 7200000 7200000
      (sampleApp [sampleMeal 3600000] 2 3600000)).home.streak = 2 :=
  have h := C6_defaults_on_load Calendar.utc noFaults 7200000 7200000
    (sampleApp [sampleMeal 3600000] 2 3600000)
    (Or.inr ⟨toISOString 3600000, rfl, by decide⟩) (fun _ => rfl)
  ⟨h.1.1 _ rfl, h.2.1.2 rfl, h.2.2.1.2 rfl, h.2.2.2.1 _ rfl⟩

/-- C7. Load marks the day as touched: when the last-active write succeeds, after
`loadData` the stored last-active value is the ISO string of the instant `now` of that
write, on the rollover path and on the load-existing path alike, and that value lies
on the calendar day of `now`. -/
theorem C7_load_marks_day_touched (cal : Calendar) (fl : Faults) (today now : Instant)
    (app : App) (hw : fl.setItemThrows .LAST_ACTIVE = false) :
    (loadData cal fl today now app).storage .LAST_ACTIVE =
      some (Stored.json (toISOString now)) ∧
    (resetDailyData fl now app).storage .LAST_ACTIVE =
      some (Stored.json (toISOString now)) ∧
    (loadExisting fl now app).storage .LAST_ACTIVE =
      some (Stored.json (toISOString now)) ∧
    isSameDay cal (newDate (toISOString now)) now = true := by
  refine ⟨loadData_lastActive cal fl today now app hw, ?_, ?_, isSameDay_refl cal _⟩
  · rw [resetDailyData_storage]
    exact saveData_same fl _ _ _ hw
  · rw [loadExisting_storage]
    exact saveData_same fl _ _ _ hw

/-- Witness of C7: a load at 08:00 on 2 January 1970 over a store last active on
1 January stores the ISO string of 08:00 on 2 January. -/
theorem C7_load_marks_day_touched_witness :
    (loadData Calendar.utc noFaults 115200000 115200000
      (sampleApp [sampleMeal 3600000] 2 3600000)).storage .LAST_ACTIVE =
      some (Stored.json (toISOString 115200000)) :=
  (C7_load_marks_day_touched Calendar.utc noFaults 115200000 115200000
    (sampleApp [sampleMeal 3600000] 2 3600000) rfl).1

/-- C10. Goals survive rollover: `resetDailyData` leaves the items stored under the
daily-goal and macro-goals keys unchanged, and every key whose item it changes is the
streak, meals or last-active key. -/
theorem C10_goals_survive_rollover (fl : Faults) (now : Instant) (app : App) :
    (resetDailyData fl now app).storage .DAILY_GOAL = app.storage .DAILY_GOAL ∧
    (resetDailyData fl now app).storage .MACRO_GOALS = app.storage .MACRO_GOALS ∧
    (∀ k, (resetDailyData fl now app).storage k ≠ app.storage k →
      k = .STREAK ∨ k = .MEALS ∨ k = .LAST_ACTIVE) := by
  have hother : ∀ k, k ≠ STORAGE_KEYS.STREAK → k ≠ STORAGE_KEYS.MEALS →
      k ≠ STORAGE_KEYS.LAST_ACTIVE → (resetDailyData fl now app).storage k = app.storage k := by
    intro k h1 h2 h3
    rw [resetDailyData_storage, saveData_other _ _ _ _ _ h3, saveData_other _ _ _ _ _ h2,
      saveData_other _ _ _ _ _ h1]
  refine ⟨hother _ (by decide) (by decide) (by decide),
    hother _ (by decide) (by decide) (by decide), ?_⟩
  intro k hk
  by_contra hcon
  push_neg at hcon
  exact hk (hother k hcon.1 hcon.2.1 hcon.2.2)

/-- Witness of C10: rolling over a store with a daily goal of 1500 kcal and macro
goals of 120/180/50 g keeps both items, and the streak item, which changes from 2 to
3, is one of the three written keys. -/
theorem C10_goals_survive_rollover_witness :
    (resetDailyData noFaults 115200000
      (sampleGoalApp [sampleMeal 3600000] 2 3600000)).storage .DAILY_GOAL =
      some (Stored.json (1500 : Int)) ∧
    (resetDailyData noFaults 115200000
      (sampleGoalApp [sampleMeal 3600000] 2 3600000)).storage .MACRO_GOALS =
      some (Stored.json ({ protein := 120, carbs := 180, fat := 50 } : MacroGoals)) ∧
    (STORAGE_KEYS.STREAK = .STREAK ∨ STORAGE_KEYS.STREAK = .MEALS ∨
      STORAGE_KEYS.STREAK = .LAST_ACTIVE) :=
  have h := C10_goals_survive_rollover noFaults 115200000
    (sampleGoalApp [sampleMeal 3600000] 2 3600000)
  ⟨h.1, h.2.1, h.2.2 .STREAK (by decide)⟩

/-! ## Streak frame -/

/-- The store after `logout` when sign-out succeeds: four removals in sequence. -/
theorem confirmLogout_storage (fl : Faults) (app : App) :
    (confirmLogout none fl app).storage =
      (removeData fl .STREAK (removeData fl .CALORIES (removeData fl .MEALS
        (removeData fl .USER_DATA app.storage).2).2).2).2 := rfl

/-- Counterexample to C9: over a store with streak 5, a logout whose sign-out and
removals succeed leaves no item under the streak key, so the persisted streak is not
left unchanged by every logout. -/
theorem C9_counterexample_logout_removes_streak :
    (sampleApp [] 5 3600000).storage .STREAK = some (Stored.json (5 : Int)) ∧
    (confirmLogout none noFaults (sampleApp [] 5 3600000)).storage .STREAK = none ∧
    getData noFaults (confirmLogout none noFaults (sampleApp [] 5 3600000)).storage .STREAK 0 = 0 ∧
    ¬ (∀ (signOutError : Option String) (fl : Faults) (app : App),
        (confirmLogout signOutError fl app).storage .STREAK = app.storage .STREAK) := by
  refine ⟨by decide, by decide, by decide, ?_⟩
  intro h
  have h1 := h none noFaults (sampleApp [] 5 3600000)
  revert h1
  decide

/-- C9 as amended. The handlers `handleSaveMeal`, `handleSaveEditedMeal`,
`handleDeleteMeal`, `handleUpdateGoal`, `handleUpdateMacros`, and a `loadData` whose
stored last-active date, if any, is on the current calendar day, leave the item under
the streak key unchanged; so does a `logout` whose sign-out fails, while a `logout`
whose sign-out succeeds removes the item when the removal succeeds. -/
theorem C9_streak_frame (cal : Calendar) (fl : Faults) (today now : Instant)
    (meal : Meal) (mealId newGoal : Int) (newMacros : MacroGoals) (msg : String)
    (app : App) :
    (handleSaveMeal fl meal app).storage .STREAK = app.storage .STREAK ∧
    (handleSaveEditedMeal fl meal app).storage .STREAK = app.storage .STREAK ∧
    (handleDeleteMeal fl mealId app).storage .STREAK = app.storage .STREAK ∧
    (handleUpdateGoal fl newGoal app).storage .STREAK = app.storage .STREAK ∧
    (handleUpdateMacros fl newMacros app).storage .STREAK = app.storage .STREAK ∧
    ((∀ s, app.storage .LAST_ACTIVE = some (Stored.json s) →
        isSameDay cal (newDate s) today = true) →
      (loadData cal fl today now app).storage .STREAK = app.storage .STREAK) ∧
    (confirmLogout (some msg) fl app).storage .STREAK = app.storage .STREAK ∧
    (fl.removeItemThrows .STREAK = false →
      (confirmLogout none fl app).storage .STREAK = none) := by
  refine ⟨?_, ?_, ?_, ?_, ?_, ?_, rfl, ?_⟩
  · exact saveData_other _ _ _ _ _ (by decide)
  · exact saveData_other _ _ _ _ _ (by decide)
  · exact saveData_other _ _ _ _ _ (by decide)
  · exact saveData_other _ _ _ _ _ (by decide)
  · exact saveData_other _ _ _ _ _ (by decide)
  · intro hday
    rw [loadData_of_not_due cal fl today now app
      (rolloverDue_false_of_sameDay cal fl today app hday), loadExisting_storage]
    exact saveData_other _ _ _ _ _ (by decide)
  · intro hw
    rw [confirmLogout_storage]
    exact removeData_same fl _ _ hw

/-- Witness of C9 as amended: over a store with streak 2 that was last active at 01:00
on 1 January 1970, a load at 02:00 keeps the streak item, and a successful logout
removes it. -/
theorem C9_streak_frame_witness :
    (loadData Calendar.utc noFaults 7200000 7200000
      (sampleApp [sampleMeal 3600000] 2 3600000)).storage .STREAK =
      some (Stored.json (2 : Int)) ∧
    (confirmLogout none noFaults (sampleApp [sampleMeal 3600000] 2 3600000)).storage .STREAK =
      none :=
  have h := C9_streak_frame Calendar.utc noFaults 7200000 7200000 (sampleMeal 3600000) 0 0
    DEFAULT_MACRO_GOALS "" (sampleApp [sampleMeal 3600000] 2 3600000)
  ⟨h.2.2.2.2.2.1 (fun s hs => by cases hs; decide), h.2.2.2.2.2.2.2 rfl⟩

/-! ## Day invariant of the log -/

/-- The stored meal list depends only on the item under the meals key. -/
theorem storedMeals_congr (st1 st2 : AsyncStorage) (h : st1 .MEALS = st2 .MEALS) :
    storedMeals st1 = storedMeals st2 := by
  unfold storedMeals getData
  rw [h]

/-- The stored meal list after a successful write of the meals key. -/
theorem storedMeals_of_json (st : AsyncStorage) (L : List Meal)
    (h : st .MEALS = some (Stored.json L)) : storedMeals st = L :=
  getData_json noFaults st .MEALS [] L rfl h

/-- With a working store, no rollover due means that a stored last-active date lies on
the day of the check. -/
theorem sameDay_of_not_due (cal : Calendar) (today : Instant) (app : App)
    (la : ISOString) (hno : rolloverDue cal noFaults today app = false)
    (hla : app.storage .LAST_ACTIVE = some (Stored.json la)) :
    isSameDay cal (newDate la) today = true := by
  rw [rolloverDue_eq, getDataNull_json noFaults _ _ la rfl hla] at hno
  simpa using hno

/-- With a working store, a due rollover means that the stored last-active date lies
on another day than the check. -/
theorem not_sameDay_of_due (cal : Calendar) (today : Instant) (app : App)
    (hdue : rolloverDue cal noFaults today app = true) :
    ∃ la, app.storage .LAST_ACTIVE = some (Stored.json la) ∧
      isSameDay cal (newDate la) today = false := by
  rw [rolloverDue_eq] at hdue
  cases hg : getDataNull noFaults app.storage .LAST_ACTIVE with
  | none => rw [hg] at hdue; cases hdue
  | some la =>
    rw [hg] at hdue
    exact ⟨la, getDataNull_some noFaults _ _ la hg, by simpa using hdue⟩

/-- The store invariant does not depend on the displayed list, and holds again after
the React state is reset. -/
theorem StoreInv_initial (cal : Calendar) (app : App) (h : StoreInv cal app) :
    StoreInv cal { app with home := HomeState.initial } := by
  refine ⟨h.1, ?_, h.2.2⟩
  intro la _ e he
  cases he

/-- With a working store, `loadData` whose two clock readings lie on one day establishes
the session invariant from the store invariant. -/
theorem loadData_inv (cal : Calendar) (today now : Instant) (app : App)
    (hst : StoreInv cal app) (hd : isSameDay cal today now = true) :
    LedgerInv cal (loadData cal noFaults today now app) := by
  by_cases hdue : rolloverDue cal noFaults today app = true
  · rw [loadData_of_due cal noFaults today now app hdue]
    have hm : storedMeals (resetDailyData noFaults now app).storage = [] := by
      apply storedMeals_of_json
      rw [resetDailyData_storage, saveData_other _ _ _ _ _ (by decide)]
      exact saveData_same noFaults _ _ _ rfl
    refine ⟨?_, ?_, ?_, ?_⟩
    · rw [hm, resetDailyData_home]
    · intro la _ m hmem
      rw [hm] at hmem
      cases hmem
    · intro la _ e _
      exact Or.inl hm
    · intro _
      exact hm
  · have hno : rolloverDue cal noFaults today app = false := by simpa using hdue
    rw [loadData_of_not_due cal noFaults today now app hno]
    have hm : storedMeals (loadExisting noFaults now app).storage = storedMeals app.storage := by
      apply storedMeals_congr
      rw [loadExisting_storage]
      exact saveData_other _ _ _ _ _ (by decide)
    have hla : (loadExisting noFaults now app).storage .LAST_ACTIVE =
        some (Stored.json (toISOString now)) := by
      rw [loadExisting_storage]
      exact saveData_same noFaults _ _ _ rfl
    refine ⟨?_, ?_, ?_, ?_⟩
    · rw [hm, loadExisting_home]
      rfl
    · intro la1 hla1 m hmem
      rw [hla] at hla1
      cases hla1
      rw [hm] at hmem
      by_cases hex : ∃ la, app.storage .LAST_ACTIVE = some (Stored.json la)
      · obtain ⟨la, hs⟩ := hex
        exact isSameDay_trans cal _ _ _ (hst.1 la hs m hmem)
          (isSameDay_trans cal _ _ _ (sameDay_of_not_due cal today app la hno hs) hd)
      · have hempty := hst.2.2 (fun la hs => hex ⟨la, hs⟩)
        rw [hempty] at hmem
        cases hmem
    · intro la1 hla1 e he
      rw [hla] at hla1
      cases hla1
      rw [hm]
      have he0 : app.home.editingMeal = some e := he
      by_cases hex : ∃ la, app.storage .LAST_ACTIVE = some (Stored.json la)
      · obtain ⟨la, hs⟩ := hex
        rcases hst.2.1 la hs e he0 with h0 | h1
        · exact Or.inl h0
        · exact Or.inr (isSameDay_trans cal _ _ _ h1
            (isSameDay_trans cal _ _ _ (sameDay_of_not_due cal today app la hno hs) hd))
      · exact Or.inl (hst.2.2 (fun la hs => hex ⟨la, hs⟩))
    · intro hnone
      exact absurd hla (hnone _)

/-- With a working store, a handler that displays and writes the meal list `L` keeps
the session invariant when `L` satisfies the three conditions of the store
invariant. -/
theorem inv_of_meals_write (cal : Calendar) (app app1 : App) (L : List Meal)
    (hs : app1.storage = (saveData noFaults .MEALS L app.storage).2)
    (hm : app1.home.meals = L)
    (hL : ∀ la, app.storage .LAST_ACTIVE = some (Stored.json la) →
      ∀ m ∈ L, isSameDay cal (newDate m.timestamp) (newDate la) = true)
    (hE : ∀ la, app.storage .LAST_ACTIVE = some (Stored.json la) →
      ∀ e, app1.home.editingMeal = some e →
        L = [] ∨ isSameDay cal (newDate e.timestamp) (newDate la) = true)
    (h3 : (∀ la, app.storage .LAST_ACTIVE ≠ some (Stored.json la)) → L = []) :
    LedgerInv cal app1 := by
  have hstored : storedMeals app1.storage = L := by
    apply storedMeals_of_json
    rw [hs]
    exact saveData_same noFaults _ _ _ rfl
  have hla : app1.storage .LAST_ACTIVE = app.storage .LAST_ACTIVE := by
    rw [hs]
    exact saveData_other _ _ _ _ _ (by decide)
  refine ⟨?_, ?_, ?_, ?_⟩
  · rw [hstored, hm]
  · intro la hla1 m hmem
    rw [hla] at hla1
    rw [hstored] at hmem
    exact hL la hla1 m hmem
  · intro la hla1 e he
    rw [hla] at hla1
    rw [hstored]
    exact hE la hla1 e he
  · intro hnone
    rw [hstored]
    apply h3
    intro la hla1
    exact hnone la (hla.trans hla1)

/-- The timestamp of the meal that `handleSave` of the modal hands to `onSave`. -/
theorem handleSave_timestamp (editingMeal : Option Meal) (mealType : String)
    (selectedFoods : List SelectedFood) (dateNow : Int) (now : Instant) (meal : Meal)
    (h : MealModal.handleSave editingMeal mealType selectedFoods dateNow now = some meal) :
    meal.timestamp = (editingMeal.map Meal.timestamp).getD (toISOString now) := by
  unfold MealModal.handleSave at h
  split at h
  · cases h
  · cases h
    cases editingMeal <;> rfl

/-- A new meal saved under the side condition is saved on the stored last-active day. -/
theorem sameDayEvent_new_meal (cal : Calendar) (mealType : String)
    (selectedFoods : List SelectedFood) (dateNow : Int) (now : Instant) (app : App)
    (hed : app.home.editingMeal = none)
    (hok : sameDayEvent cal (.pressSave mealType selectedFoods dateNow now) app = true) :
    ∃ la, app.storage .LAST_ACTIVE = some (Stored.json la) ∧
      isSameDay cal now (newDate la) = true := by
  cases hla : app.storage .LAST_ACTIVE with
  | none => simp [sameDayEvent, hed, hla] at hok
  | some v =>
    cases v with
    | json la => exact ⟨la, rfl, by simpa [sameDayEvent, hed, hla] using hok⟩
    | corrupt text => simp [sameDayEvent, hed, hla] at hok

/-- With a working store, every event that meets the side condition keeps the session
invariant. -/
theorem step_inv (cal : Calendar) (e : Event) (app : App) (hinv : LedgerInv cal app)
    (hok : sameDayEvent cal e app = true) : LedgerInv cal (step cal noFaults e app) := by
  cases e with
  | mount today now =>
    exact loadData_inv cal today now _ (StoreInv_initial cal app hinv.2) hok
  | refresh today now => exact loadData_inv cal today now app hinv.2 hok
  | openModal => exact hinv
  | editMeal meal =>
    unfold step
    simp only
    split
    · next hmem =>
      refine ⟨hinv.1, hinv.2.1, ?_, hinv.2.2.2⟩
      intro la hla e he
      have hme : meal = e := Option.some.inj he
      rw [← hme]
      exact Or.inr (hinv.2.1 la hla meal (hinv.1 ▸ hmem))
    · exact hinv
  | closeModal =>
    refine ⟨hinv.1, hinv.2.1, ?_, hinv.2.2.2⟩
    intro la _ e he
    cases he
  | deleteMeal mealId =>
    apply inv_of_meals_write cal app _
      (app.home.meals.filter (fun meal => meal.id != mealId)) rfl rfl
    · intro la hla m hmem
      exact hinv.2.1 la hla m (hinv.1 ▸ (List.mem_filter.mp hmem).1)
    · intro la hla e he
      rcases hinv.2.2.1 la hla e he with h0 | h1
      · left
        rw [hinv.1, h0]
        rfl
      · exact Or.inr h1
    · intro hnone
      rw [hinv.1, hinv.2.2.2 hnone]
      rfl
  | pressSave mealType selectedFoods dateNow now =>
    unfold step pressSaveMeal
    simp only
    cases hsave : MealModal.handleSave app.home.editingMeal mealType selectedFoods dateNow now with
    | none => exact hinv
    | some meal =>
      have hts := handleSave_timestamp _ _ _ _ _ _ hsave
      cases hed : app.home.editingMeal with
      | none =>
        obtain ⟨la0, hla0, hday⟩ :=
          sameDayEvent_new_meal cal mealType selectedFoods dateNow now app hed hok
        rw [hed] at hts
        apply inv_of_meals_write cal app _ (app.home.meals ++ [meal]) rfl rfl
        · intro la hla m hmem
          rcases List.mem_append.mp hmem with hold | hnew
          · exact hinv.2.1 la hla m (hinv.1 ▸ hold)
          · rw [List.mem_singleton] at hnew
            rw [hla0] at hla
            cases hla
            rw [hnew, hts]
            exact hday
        · intro la _ e he
          cases he
        · intro hnone
          exact absurd hla0 (hnone la0)
      | some e0 =>
        rw [hed] at hts
        apply inv_of_meals_write cal app _
          (app.home.meals.map (fun m => if m.id == meal.id then meal else m)) rfl rfl
        · intro la hla m1 hmem
          obtain ⟨m, hm, rfl⟩ := List.mem_map.mp hmem
          by_cases hid : (m.id == meal.id) = true
          · simp only [hid, if_true]
            rcases hinv.2.2.1 la hla e0 hed with h0 | h1
            · rw [hinv.1, h0] at hm
              cases hm
            · rw [hts]
              exact h1
          · simp only [hid]
            exact hinv.2.1 la hla m (hinv.1 ▸ hm)
        · intro la _ e he
          cases he
        · intro hnone
          rw [hinv.1, hinv.2.2.2 hnone]
          rfl

/-- The session invariant holds right after installation. -/
theorem freshInstall_inv (cal : Calendar) : LedgerInv cal freshInstall := by
  refine ⟨rfl, ?_, ?_, ?_⟩
  · intro la hla
    cases hla
  · intro la hla
    cases hla
  · intro _
    rfl

/-- With a working store, a session that meets the side condition keeps the session
invariant. -/
theorem run_inv (cal : Calendar) (es : List Event) :
    ∀ app, LedgerInv cal app → sameDaySession cal noFaults es app = true →
      LedgerInv cal (run cal noFaults es app) := by
  induction es with
  | nil =>
    intro app hinv _
    exact hinv
  | cons e es ih =>
    intro app hinv hok
    unfold sameDaySession at hok
    rw [Bool.and_eq_true] at hok
    exact ih _ (step_inv cal e app hinv hok.1) hok.2

/-- C8 at the failing session, under an advancing clock and a working store (UTC). The
application is opened at 23:50 on 1 January 1970 and a breakfast is saved at 00:10 on
2 January: no reset runs at midnight, so the stored meal is of 2 January while the
stored last-active date is of 1 January, and the refresh at 08:00 on 2 January rolls
over, clearing that meal of the current day and counting it as a streak day.
Furthermore a refresh that checks the day at 23:59:59.999 and writes the last-active
date at 00:00:00.001 keeps the meal of 1 January under a last-active date of
2 January. -/
theorem C8_midnight_session_breaks_day_invariant :
    advancingClock (midnightSession ++ [.refresh 115200000 115200000]) ∧
    ¬ DayInvariant Calendar.utc (run Calendar.utc noFaults midnightSession freshInstall) ∧
    rolloverDue Calendar.utc noFaults 115200000
      (run Calendar.utc noFaults midnightSession freshInstall) = true ∧
    (∃ m ∈ storedMeals (run Calendar.utc noFaults midnightSession freshInstall).storage,
      isSameDay Calendar.utc (newDate m.timestamp) 115200000 = true) ∧
    storedMeals (run Calendar.utc noFaults
      (midnightSession ++ [.refresh 115200000 115200000]) freshInstall).storage = [] ∧
    (run Calendar.utc noFaults
      (midnightSession ++ [.refresh 115200000 115200000]) freshInstall).storage .STREAK =
        some (Stored.json (1 : Int)) ∧
    advancingClock straddlingSession ∧
    ¬ DayInvariant Calendar.utc (run Calendar.utc noFaults straddlingSession freshInstall) := by
  refine ⟨by unfold advancingClock; decide, ?_, by decide, ?_, by decide, by decide,
    by unfold advancingClock; decide, ?_⟩
  · intro h
    have h1 := h (toISOString 85800000) (by decide) (sampleMeal 87000000) (by decide)
    revert h1
    decide
  · exact ⟨sampleMeal 87000000, by decide, by decide⟩
  · intro h
    have h1 := h (toISOString 86400001) (by decide) (sampleMeal 7200000) (by decide)
    revert h1
    decide

/-- The day invariant within the last-active day. With a working store, in every state
reached from a fresh installation by cold starts, refreshes, meal saves, meal edits and meal deletions in
which every `loadData` takes its clock readings on one calendar day and every new meal
is saved on the calendar day of the stored last-active date, every stored meal has its
timestamp on the calendar day of the stored last-active date, the displayed list is
the stored list, and a rollover that is due clears no meal of the current day. -/
theorem day_invariant_of_sameDaySession (cal : Calendar) (es : List Event)
    (hok : sameDaySession cal noFaults es freshInstall = true) :
    DayInvariant cal (run cal noFaults es freshInstall) ∧
    (run cal noFaults es freshInstall).home.meals =
      storedMeals (run cal noFaults es freshInstall).storage ∧
    (∀ today, rolloverDue cal noFaults today (run cal noFaults es freshInstall) = true →
      ∀ m ∈ storedMeals (run cal noFaults es freshInstall).storage,
        isSameDay cal (newDate m.timestamp) today = false) := by
  have hinv := run_inv cal es freshInstall (freshInstall_inv cal) hok
  refine ⟨hinv.2.1, hinv.1, ?_⟩
  intro today hdue m hmem
  obtain ⟨la, hla, hdiff⟩ := not_sameDay_of_due cal today _ hdue
  have hm := hinv.2.1 la hla m hmem
  cases hcur : isSameDay cal (newDate m.timestamp) today with
  | false => rfl
  | true =>
    have hcontra := isSameDay_trans cal _ _ _ (isSameDay_symm cal _ _ hm) hcur
    rw [hdiff] at hcontra
    cases hcontra

/-- An instance of `day_invariant_of_sameDaySession`: a cold start at 01:00, a breakfast saved at 02:00 and a
refresh at 03:00 on 1 January 1970 (UTC) meet the side condition, and the one stored
meal lies on the stored last-active day. -/
theorem day_invariant_of_sameDaySession_example :
    sameDaySession Calendar.utc noFaults sameDaySampleSession freshInstall = true ∧
    (storedMeals (run Calendar.utc noFaults sameDaySampleSession freshInstall).storage).length = 1 ∧
    DayInvariant Calendar.utc (run Calendar.utc noFaults sameDaySampleSession freshInstall) :=
  ⟨by decide, by decide,
    (day_invariant_of_sameDaySession Calendar.utc sameDaySampleSession (by decide)).1⟩

/-! ## Binary64 rounding -/

/-- Rounding to the nearest integer moves a number by at most one half. -/
theorem roundHalfEven_sub_le (t : Rat) : |(roundHalfEven t : Rat) - t| ≤ 1 / 2 := by
  have h1 : ((Int.floor t : Int) : Rat) ≤ t := Int.floor_le t
  have h2 : t < ((Int.floor t : Int) : Rat) + 1 := Int.lt_floor_add_one t
  unfold roundHalfEven
  rw [abs_le]
  split_ifs <;> push_cast <;> constructor <;> linarith

/-- A number within less than one half of an integer rounds to that integer. -/
theorem roundHalfEven_eq (t : Rat) (m : Int) (h : |t - m| < 1 / 2) :
    roundHalfEven t = m := by
  rw [abs_lt] at h
  obtain ⟨h1, h2⟩ := h
  by_cases hm : (m : Rat) ≤ t
  · have hf : Int.floor t = m := by
      rw [Int.floor_eq_iff]
      constructor <;> linarith
    unfold roundHalfEven
    rw [hf, if_pos (by linarith)]
  · have hf : Int.floor t = m - 1 := by
      rw [Int.floor_eq_iff]
      push_cast
      constructor <;> linarith
    unfold roundHalfEven
    rw [hf, if_neg (by push_cast; linarith), if_pos (by push_cast; linarith)]
    ring

/-- An integer rounds to itself. -/
theorem roundHalfEven_intCast (m : Int) : roundHalfEven (m : Rat) = m :=
  roundHalfEven_eq _ m (by simp)

/-- Rounding to the nearest integer does not go below an integer lower bound. -/
theorem le_roundHalfEven (t : Rat) (n : Int) (h : (n : Rat) ≤ t) : n ≤ roundHalfEven t := by
  have hf : n ≤ Int.floor t := Int.le_floor.mpr h
  unfold roundHalfEven
  split_ifs <;> omega

/-- The spacing is positive. -/
theorem spacing_pos (x : Rat) : 0 < spacing x := by
  unfold spacing
  positivity

/-- A rounded value of magnitude below `2 ^ 1024` is the result of the rounding. -/
theorem ofRat_of_lt (x : Rat) (hx : x ≠ 0)
    (h : |(roundHalfEven (x / spacing x) : Rat) * spacing x| < 2 ^ 1024) :
    Number.ofRat x = .finite (roundHalfEven (x / spacing x) * spacing x) := by
  unfold Number.ofRat
  rw [if_neg hx]
  simp only []
  rw [if_neg (not_le.mpr h)]

/-- Rounding to a multiple of the spacing moves a number by at most half the spacing. -/
theorem round_spacing_sub (x : Rat) :
    |(roundHalfEven (x / spacing x) : Rat) * spacing x - x| ≤ spacing x / 2 := by
  have hs := spacing_pos x
  have h := roundHalfEven_sub_le (x / spacing x)
  have he : (roundHalfEven (x / spacing x) : Rat) * spacing x - x =
      ((roundHalfEven (x / spacing x) : Rat) - x / spacing x) * spacing x := by
    field_simp
  rw [he, abs_mul, abs_of_pos hs]
  calc |(roundHalfEven (x / spacing x) : Rat) - x / spacing x| * spacing x
      ≤ 1 / 2 * spacing x := mul_le_mul_of_nonneg_right h hs.le
    _ = spacing x / 2 := by ring

/-- The binade of a non-zero number of magnitude below `2 ^ k` lies below `k`. -/
theorem log_lt_of_abs_lt (x : Rat) (hx : x ≠ 0) (k : Int) (h : |x| < 2 ^ k) :
    Int.log 2 |x| < k := by
  apply (Int.lt_zpow_iff_log_lt (by norm_num) (abs_pos.mpr hx)).mp
  exact_mod_cast h

/-- The binade of a number of magnitude at least `2 ^ k` is at least `k`. -/
theorem le_log_of_le_abs (x : Rat) (hx : x ≠ 0) (k : Int) (h : 2 ^ k ≤ |x|) :
    k ≤ Int.log 2 |x| := by
  apply (Int.zpow_le_iff_le_log (by norm_num) (abs_pos.mpr hx)).mp
  exact_mod_cast h

/-- The power of two at the binade of a non-zero number does not exceed its
magnitude. -/
theorem zpow_log_le_abs (x : Rat) (hx : x ≠ 0) : (2 : Rat) ^ Int.log 2 |x| ≤ |x| := by
  have h := Int.zpow_log_le_self (b := 2) (r := |x|) (by norm_num) (abs_pos.mpr hx)
  exact_mod_cast h

/-- Below `2 ^ k` the spacing is at most `2 ^ (k - 53)`. -/
theorem spacing_le (x : Rat) (hx : x ≠ 0) (k : Int) (hk : -1021 ≤ k) (h : |x| < 2 ^ k) :
    spacing x ≤ 2 ^ (k - 53) := by
  unfold spacing
  apply zpow_le_zpow_right₀ (by norm_num)
  have hlog := log_lt_of_abs_lt x hx k h
  have hmax : max (Int.log 2 |x|) (-1022) ≤ k - 1 := max_le (by omega) (by omega)
  omega

/-- From `2 ^ (-1022)` on the spacing is `2 ^ (e - 52)` for the binade `e`. -/
theorem spacing_eq (x : Rat) (h : -1022 ≤ Int.log 2 |x|) :
    spacing x = 2 ^ (Int.log 2 |x| - 52) := by
  unfold spacing
  rw [max_eq_left h]

/-- Absolute error of the rounding: a number of magnitude below `2 ^ k` rounds to a
finite value within `2 ^ (k - 54)` of it. -/
theorem ofRat_abs_err (x : Rat) (k : Int) (hk1 : -1021 ≤ k) (hk2 : k ≤ 1023)
    (hx : |x| < 2 ^ k) :
    ∃ y, Number.ofRat x = .finite y ∧ |y - x| ≤ 2 ^ (k - 54) := by
  by_cases h0 : x = 0
  · refine ⟨0, by simp [Number.ofRat, h0], ?_⟩
    rw [h0]
    simp only [sub_zero, abs_zero]
    positivity
  · have hs := spacing_le x h0 k hk1 hx
    have herr := round_spacing_sub x
    have hpow : (2 : Rat) ^ (k - 53) = 2 * 2 ^ (k - 54) := by
      rw [show k - 53 = (k - 54) + 1 by ring, zpow_add_one₀ (by norm_num)]
      ring
    have hhalf : spacing x / 2 ≤ 2 ^ (k - 54) := by linarith
    refine ⟨_, ofRat_of_lt x h0 ?_, herr.trans hhalf⟩
    have h1 : |(roundHalfEven (x / spacing x) : Rat) * spacing x| ≤
        |(roundHalfEven (x / spacing x) : Rat) * spacing x - x| + |x| := by
      have := abs_add ((roundHalfEven (x / spacing x) : Rat) * spacing x - x) x
      simpa using this
    have h2 : (2 : Rat) ^ k ≤ 2 ^ (1023 : Int) := zpow_le_zpow_right₀ (by norm_num) hk2
    have h3 : (2 : Rat) ^ (k - 54) ≤ 2 ^ (1023 : Int) :=
      zpow_le_zpow_right₀ (by norm_num) (by omega)
    have h4 : (2 : Rat) ^ (1023 : Int) + 2 ^ (1023 : Int) = 2 ^ 1024 := by norm_num
    linarith

/-- From 1 on, the rounded value is at least the power of two at the binade. -/
theorem zpow_log_le_round (x : Rat) (hx : 1 ≤ x) :
    (2 : Rat) ^ Int.log 2 |x| ≤ (roundHalfEven (x / spacing x) : Rat) * spacing x := by
  have hx0 : x ≠ 0 := by linarith
  have hlog : 0 ≤ Int.log 2 |x| := le_log_of_le_abs x hx0 0 (by
    rw [abs_of_pos (by linarith)]; simpa using hx)
  have hsp := spacing_eq x (by omega)
  have hs := spacing_pos x
  have hle : (2 : Rat) ^ Int.log 2 |x| ≤ x :=
    (zpow_log_le_abs x hx0).trans (le_of_eq (abs_of_pos (by linarith)))
  have h52 : ((2 ^ 52 : Int) : Rat) = (2 : Rat) ^ (52 : Int) := by norm_num
  have hsplit : (2 : Rat) ^ Int.log 2 |x| = ((2 ^ 52 : Int) : Rat) * spacing x := by
    rw [h52, hsp, ← zpow_add₀ (by norm_num)]
    congr 1
    ring
  have ht : ((2 ^ 52 : Int) : Rat) ≤ x / spacing x := by
    rw [le_div_iff₀ hs, ← hsplit]
    exact hle
  have hr := le_roundHalfEven _ _ ht
  rw [hsplit]
  exact mul_le_mul_of_nonneg_right (by exact_mod_cast hr) hs.le

/-- Relative error of the rounding: a number that is 0 or at least 1, below the
overflow threshold, rounds to a finite value that is 0 or at least 1 and within the
fraction `1 / 2 ^ 53` of it. -/
theorem ofRat_rel_err (x : Rat) (hx : x = 0 ∨ 1 ≤ x) (hlt : x < 2 ^ 1024 - 2 ^ 970) :
    ∃ y, Number.ofRat x = .finite y ∧ (y = 0 ∨ 1 ≤ y) ∧
      x * (1 - 1 / 2 ^ 53) ≤ y ∧ y ≤ x * (1 + 1 / 2 ^ 53) := by
  rcases hx with h0 | h1
  · subst h0
    exact ⟨0, by simp [Number.ofRat], Or.inl rfl, by simp, by simp⟩
  · have hx0 : x ≠ 0 := by linarith
    have hpos : (0 : Rat) < x := by linarith
    have habs : |x| = x := abs_of_pos hpos
    have hlog0 : 0 ≤ Int.log 2 |x| := le_log_of_le_abs x hx0 0 (by
      rw [habs]; simpa using h1)
    have hlog1 : Int.log 2 |x| < 1024 := log_lt_of_abs_lt x hx0 1024 (by
      rw [habs]
      have : (2 : Rat) ^ (1024 : Int) = 2 ^ 1024 := by norm_num
      rw [this]
      have : (0 : Rat) < 2 ^ 970 := by positivity
      linarith)
    have hsp := spacing_eq x (by omega)
    have hs := spacing_pos x
    have hle : (2 : Rat) ^ Int.log 2 |x| ≤ x := (zpow_log_le_abs x hx0).trans (le_of_eq habs)
    have herr := round_spacing_sub x
    have hge := zpow_log_le_round x h1
    have hone : (1 : Rat) ≤ 2 ^ Int.log 2 |x| := by
      have := zpow_le_zpow_right₀ (show (1 : Rat) ≤ 2 by norm_num) hlog0
      simpa using this
    -- half the spacing is the fraction 1 / 2 ^ 53 of the power of two at the binade
    have hhalf : spacing x / 2 = 2 ^ Int.log 2 |x| * (1 / 2 ^ 53) := by
      rw [hsp, show Int.log 2 |x| - 52 = Int.log 2 |x| + (-52) by ring,
        zpow_add₀ (by norm_num)]
      norm_num
      ring
    have hhalf_le : spacing x / 2 ≤ x * (1 / 2 ^ 53) := by
      rw [hhalf]
      exact mul_le_mul_of_nonneg_right hle (by positivity)
    have hhalf_max : spacing x / 2 ≤ 2 ^ 970 := by
      rw [hhalf]
      have h1023 : (2 : Rat) ^ Int.log 2 |x| ≤ 2 ^ (1023 : Int) :=
        zpow_le_zpow_right₀ (by norm_num) (by omega)
      have : (2 : Rat) ^ (1023 : Int) * (1 / 2 ^ 53) = 2 ^ 970 := by norm_num
      calc (2 : Rat) ^ Int.log 2 |x| * (1 / 2 ^ 53)
          ≤ 2 ^ (1023 : Int) * (1 / 2 ^ 53) :=
            mul_le_mul_of_nonneg_right h1023 (by positivity)
        _ = 2 ^ 970 := this
    rw [abs_le] at herr
    obtain ⟨hlo, hhi⟩ := herr
    have hy0 : (0 : Rat) ≤ (roundHalfEven (x / spacing x) : Rat) * spacing x := by
      linarith
    refine ⟨_, ofRat_of_lt x hx0 ?_, Or.inr (by linarith), by linarith, by linarith⟩
    rw [abs_of_nonneg hy0]
    linarith

/-- The rounding does not go below an integer of at most 53 bits: a number at least
the positive integer `c ≤ 2 ^ 53` rounds to `+∞` or to a finite value at least `c`. -/
theorem le_ofRat (c : Nat) (hc0 : 0 < c) (hc : c ≤ 2 ^ 53) (x : Rat) (h : (c : Rat) ≤ x) :
    Number.ofRat x = .posInf ∨ ∃ y, Number.ofRat x = .finite y ∧ (c : Rat) ≤ y := by
  have hc1 : (1 : Rat) ≤ c := by exact_mod_cast hc0
  have h1 : (1 : Rat) ≤ x := by linarith
  have hx0 : x ≠ 0 := by linarith
  have hpos : (0 : Rat) < x := by linarith
  have habs : |x| = x := abs_of_pos hpos
  have hlog0 : 0 ≤ Int.log 2 |x| := le_log_of_le_abs x hx0 0 (by
    rw [habs]; simpa using h1)
  have hsp := spacing_eq x (by omega)
  have hs := spacing_pos x
  have hy : (c : Rat) ≤ (roundHalfEven (x / spacing x) : Rat) * spacing x := by
    by_cases he : Int.log 2 |x| ≤ 52
    · -- the spacing is the inverse of a power of two: `c` is a multiple of it
      obtain ⟨j, hj⟩ : ∃ j : Nat, (j : Int) = 52 - Int.log 2 |x| :=
        ⟨(52 - Int.log 2 |x|).toNat, Int.toNat_of_nonneg (by omega)⟩
      have hinv : spacing x * 2 ^ j = 1 := by
        rw [hsp, ← zpow_natCast (2 : Rat) j, ← zpow_add₀ (by norm_num), hj]
        simp
      have ht : (((c * 2 ^ j : Nat) : Int) : Rat) ≤ x / spacing x := by
        rw [le_div_iff₀ hs]
        push_cast
        calc (c : Rat) * 2 ^ j * spacing x = c * (spacing x * 2 ^ j) := by ring
          _ = c := by rw [hinv, mul_one]
          _ ≤ x := h
      have hr := le_roundHalfEven _ _ ht
      have hr2 : (((c * 2 ^ j : Nat) : Int) : Rat) ≤
          (roundHalfEven (x / spacing x) : Rat) := by exact_mod_cast hr
      calc (c : Rat) = c * (spacing x * 2 ^ j) := by rw [hinv, mul_one]
        _ = (((c * 2 ^ j : Nat) : Int) : Rat) * spacing x := by push_cast; ring
        _ ≤ (roundHalfEven (x / spacing x) : Rat) * spacing x :=
          mul_le_mul_of_nonneg_right hr2 hs.le
    · -- the rounded value is at least `2 ^ 53`
      have hge := zpow_log_le_round x h1
      have h53 : (2 : Rat) ^ (53 : Int) ≤ 2 ^ Int.log 2 |x| :=
        zpow_le_zpow_right₀ (by norm_num) (by omega)
      have hc53 : (c : Rat) ≤ 2 ^ (53 : Int) := by
        have h : (c : Rat) ≤ ((2 ^ 53 : Nat) : Rat) := by exact_mod_cast hc
        have h2 : ((2 ^ 53 : Nat) : Rat) = 2 ^ (53 : Int) := by norm_num
        rw [← h2]
        exact h
      linarith
  unfold Number.ofRat
  rw [if_neg hx0]
  simp only []
  by_cases hov : (2 : Rat) ^ 1024 ≤ |(roundHalfEven (x / spacing x) : Rat) * spacing x|
  · rw [if_pos hov, if_pos hpos]
    exact Or.inl rfl
  · rw [if_neg hov]
    exact Or.inr ⟨_, rfl, hy⟩

/-- Evaluation of the rounding in the normal range: in the binade `e`, a number whose
quotient by the spacing lies within less than one half of the integer `m` rounds to
`m` times the spacing. -/
theorem ofRat_eq (x : Rat) (e m : Int) (h1 : 2 ^ e ≤ |x|) (h2 : |x| < 2 ^ (e + 1))
    (he1 : -1022 ≤ e) (he2 : e ≤ 1022) (hm : |x / 2 ^ (e - 52) - m| < 1 / 2) :
    Number.ofRat x = .finite (m * 2 ^ (e - 52)) := by
  have hx0 : x ≠ 0 := by
    intro h
    rw [h, abs_zero] at h1
    have : (0 : Rat) < 2 ^ e := by positivity
    linarith
  have hlog : Int.log 2 |x| = e :=
    le_antisymm (by have := log_lt_of_abs_lt x hx0 (e + 1) h2; omega)
      (le_log_of_le_abs x hx0 e h1)
  have hsp : spacing x = 2 ^ (e - 52) := by
    rw [spacing_eq x (by omega), hlog]
  have hr : roundHalfEven (x / spacing x) = m := by
    rw [hsp]
    exact roundHalfEven_eq _ m hm
  have herr := round_spacing_sub x
  rw [hr, hsp] at herr
  have hfin := ofRat_of_lt x hx0 (by
    rw [hr, hsp]
    have hsmax : (2 : Rat) ^ (e - 52) ≤ 2 ^ (970 : Int) :=
      zpow_le_zpow_right₀ (by norm_num) (by omega)
    have hxmax : (2 : Rat) ^ (e + 1) ≤ 2 ^ (1023 : Int) :=
      zpow_le_zpow_right₀ (by norm_num) (by omega)
    have hspos : (0 : Rat) < 2 ^ (e - 52) := by positivity
    have habs : |(m : Rat) * 2 ^ (e - 52)| ≤ |(m : Rat) * 2 ^ (e - 52) - x| + |x| := by
      have := abs_add ((m : Rat) * 2 ^ (e - 52) - x) x
      simpa using this
    have hnum : (2 : Rat) ^ (970 : Int) / 2 + 2 ^ (1023 : Int) < 2 ^ 1024 := by norm_num
    linarith)
  rw [hfin, hr, hsp]

/-- Evaluation of the rounding at a value given in closed form. -/
theorem ofRat_eq_of (x v : Rat) (e m : Int) (h1 : 2 ^ e ≤ |x|) (h2 : |x| < 2 ^ (e + 1))
    (he1 : -1022 ≤ e) (he2 : e ≤ 1022) (hm : |x / 2 ^ (e - 52) - m| < 1 / 2)
    (hv : v = m * 2 ^ (e - 52)) : Number.ofRat x = .finite v := by
  rw [hv]
  exact ofRat_eq x e m h1 h2 he1 he2 hm

/-- Zero rounds to zero. -/
theorem ofRat_zero : Number.ofRat 0 = .finite 0 := by
  simp [Number.ofRat]

/-- A non-negative number rounds to `+∞` or to a non-negative finite value. -/
theorem ofRat_nonneg (x : Rat) (hx : 0 ≤ x) :
    Number.ofRat x = .posInf ∨ ∃ y, Number.ofRat x = .finite y ∧ 0 ≤ y := by
  by_cases h0 : x = 0
  · exact Or.inr ⟨0, by rw [h0]; exact ofRat_zero, le_refl 0⟩
  · have hpos : 0 < x := lt_of_le_of_ne hx (Ne.symm h0)
    have hs := spacing_pos x
    have ht : ((0 : Int) : Rat) ≤ x / spacing x := by
      push_cast
      exact div_nonneg hx hs.le
    have hr := le_roundHalfEven _ _ ht
    have hy : (0 : Rat) ≤ (roundHalfEven (x / spacing x) : Rat) * spacing x :=
      mul_nonneg (by exact_mod_cast hr) hs.le
    unfold Number.ofRat
    rw [if_neg h0]
    simp only []
    by_cases hov : (2 : Rat) ^ 1024 ≤ |(roundHalfEven (x / spacing x) : Rat) * spacing x|
    · rw [if_pos hov, if_pos hpos]
      exact Or.inl rfl
    · rw [if_neg hov]
      exact Or.inr ⟨_, rfl, hy⟩

/-- A non-negative integer below `2 ^ 53` is a binary64 value: it rounds to itself. -/
theorem ofRat_intCast (n : Int) (h0 : 0 ≤ n) (h : n < 2 ^ 53) :
    Number.ofRat (n : Rat) = .finite (n : Rat) := by
  rcases (show n = 0 ∨ 1 ≤ n by omega) with hz | h1
  · subst hz
    simpa using ofRat_zero
  · have hx1 : (1 : Rat) ≤ (n : Rat) := by exact_mod_cast h1
    have hx0 : (n : Rat) ≠ 0 := by linarith
    have habs : |(n : Rat)| = (n : Rat) := abs_of_pos (by linarith)
    have hlog0 : 0 ≤ Int.log 2 |(n : Rat)| := le_log_of_le_abs _ hx0 0 (by
      rw [habs]; simpa using hx1)
    have hlog1 : Int.log 2 |(n : Rat)| < 53 := log_lt_of_abs_lt _ hx0 53 (by
      rw [habs]
      have h2 : (n : Rat) < ((2 ^ 53 : Int) : Rat) := by exact_mod_cast h
      have h3 : ((2 ^ 53 : Int) : Rat) = 2 ^ (53 : Int) := by norm_num
      rw [← h3]
      exact h2)
    have hsp := spacing_eq (n : Rat) (by omega)
    have hs := spacing_pos (n : Rat)
    obtain ⟨j, hj⟩ : ∃ j : Nat, (j : Int) = 52 - Int.log 2 |(n : Rat)| :=
      ⟨(52 - Int.log 2 |(n : Rat)|).toNat, Int.toNat_of_nonneg (by omega)⟩
    have hinv : spacing (n : Rat) * 2 ^ j = 1 := by
      rw [hsp, ← zpow_natCast (2 : Rat) j, ← zpow_add₀ (by norm_num), hj]
      simp
    have ht : (n : Rat) / spacing (n : Rat) = ((n * 2 ^ j : Int) : Rat) := by
      rw [div_eq_iff (ne_of_gt hs)]
      push_cast
      calc (n : Rat) = n * (spacing (n : Rat) * 2 ^ j) := by rw [hinv, mul_one]
        _ = (n : Rat) * 2 ^ j * spacing (n : Rat) := by ring
    have hr : roundHalfEven ((n : Rat) / spacing (n : Rat)) = n * 2 ^ j := by
      rw [ht]
      exact roundHalfEven_intCast _
    have hy : ((roundHalfEven ((n : Rat) / spacing (n : Rat)) : Int) : Rat) *
        spacing (n : Rat) = (n : Rat) := by
      rw [hr]
      push_cast
      calc (n : Rat) * 2 ^ j * spacing (n : Rat) = n * (spacing (n : Rat) * 2 ^ j) := by ring
        _ = n := by rw [hinv, mul_one]
    have hfin := ofRat_of_lt (n : Rat) hx0 (by
      rw [hy, habs]
      have h2 : (n : Rat) < ((2 ^ 53 : Int) : Rat) := by exact_mod_cast h
      have h3 : ((2 ^ 53 : Int) : Rat) < 2 ^ 1024 := by norm_num
      linarith)
    rw [hfin, hy]


/-! ## Derived aggregates -/

/-- The value of `x || 0` for a number `x` is `x`. -/
theorem orElse_zero (x : Int) : orElse x 0 = x := by
  unfold orElse
  split
  · next h => exact h.symm
  · rfl

/-- The value of `x || 0` for a field: the number, or 0 when the field is missing. -/
theorem fieldOrElse_zero (x : Option Int) : fieldOrElse x 0 = x.getD 0 := by
  cases x with
  | none => rfl
  | some v => exact orElse_zero v

/-- The reduction of `calculateTotalCalories` from any start value. -/
theorem foldl_calories (meals : List MealNutrition) :
    ∀ acc : Int, meals.foldl (fun total meal => total + fieldOrElse meal.calories 0) acc =
      acc + (meals.map (fun m => m.calories.getD 0)).sum := by
  induction meals with
  | nil => intro acc; simp
  | cons m ms ih =>
    intro acc
    rw [List.foldl_cons, ih, List.map_cons, List.sum_cons, fieldOrElse_zero]
    ring

/-- The reduction of `calculateTotalMacros` from any start value. -/
theorem foldl_macros (meals : List MealNutrition) :
    ∀ acc : Macros,
      meals.foldl
        (fun totals meal =>
          ({ protein := totals.protein + fieldOrElse meal.protein 0
             carbs := totals.carbs + fieldOrElse meal.carbs 0
             fat := totals.fat + fieldOrElse meal.fat 0 } : Macros)) acc =
      { protein := acc.protein + (meals.map (fun m => m.protein.getD 0)).sum
        carbs := acc.carbs + (meals.map (fun m => m.carbs.getD 0)).sum
        fat := acc.fat + (meals.map (fun m => m.fat.getD 0)).sum } := by
  induction meals with
  | nil => intro acc; simp
  | cons m ms ih =>
    intro acc
    rw [List.foldl_cons, ih]
    simp only [List.map_cons, List.sum_cons, fieldOrElse_zero, add_assoc]

/-- The total calories of any array of meal objects. -/
theorem calculateTotalCalories_eq_sum (meals : List MealNutrition) :
    calculateTotalCalories meals = (meals.map (fun m => m.calories.getD 0)).sum := by
  unfold calculateTotalCalories
  split
  · next h => rw [List.length_eq_zero.mp h]; rfl
  · rw [foldl_calories, zero_add]

/-- The total macros of any array of meal objects. -/
theorem calculateTotalMacros_eq_sum (meals : List MealNutrition) :
    calculateTotalMacros meals =
      { protein := (meals.map (fun m => m.protein.getD 0)).sum
        carbs := (meals.map (fun m => m.carbs.getD 0)).sum
        fat := (meals.map (fun m => m.fat.getD 0)).sum } := by
  unfold calculateTotalMacros
  split
  · next h => rw [List.length_eq_zero.mp h]; rfl
  · rw [foldl_macros]
    simp only [zero_add]

/-- C12. Sum invariant: for every array of meal objects, `calculateTotalCalories` is the
sum of the calories and `calculateTotalMacros` the component-wise sums of protein, carbs
and fat, a missing field counting as 0; for logged meals, whose four fields are present,
they are the sums of the fields; for the empty list they are 0 and 0, 0, 0. -/
theorem C12_sum_invariant (meals : List MealNutrition) (L : List Meal) :
    calculateTotalCalories meals = (meals.map (fun m => m.calories.getD 0)).sum ∧
    calculateTotalMacros meals =
      { protein := (meals.map (fun m => m.protein.getD 0)).sum
        carbs := (meals.map (fun m => m.carbs.getD 0)).sum
        fat := (meals.map (fun m => m.fat.getD 0)).sum } ∧
    calculateTotalCalories (L.map Meal.nutrition) = (L.map Meal.calories).sum ∧
    calculateTotalMacros (L.map Meal.nutrition) =
      { protein := (L.map Meal.protein).sum
        carbs := (L.map Meal.carbs).sum
        fat := (L.map Meal.fat).sum } ∧
    calculateTotalCalories [] = 0 ∧
    calculateTotalMacros [] = { protein := 0, carbs := 0, fat := 0 } := by
  refine ⟨calculateTotalCalories_eq_sum meals, calculateTotalMacros_eq_sum meals, ?_, ?_,
    rfl, rfl⟩
  · rw [calculateTotalCalories_eq_sum, List.map_map]
    rfl
  · rw [calculateTotalMacros_eq_sum]
    simp only [List.map_map]
    rfl

/-- C13. Remaining calories floor: for every goal and consumed amount,
`calculateRemainingCalories` is `max 0 (goal - consumed)`: it is `goal - consumed` when
that is not negative and 0 when `consumed` exceeds `goal`, and it is never negative. -/
theorem C13_remaining_calories_floor (goal consumed : Int) :
    calculateRemainingCalories goal consumed = max 0 (goal - consumed) ∧
    calculateRemainingCalories goal consumed =
      (if consumed ≤ goal then goal - consumed else 0) ∧
    0 ≤ calculateRemainingCalories goal consumed := by
  unfold calculateRemainingCalories
  refine ⟨rfl, ?_, le_max_left 0 _⟩
  split
  · next h => exact max_eq_right (by omega)
  · next h => exact max_eq_left (by omega)

/-- For the goal 0 the percentage is 0. -/
theorem calculatePercentage_zero_goal (x : Int) :
    calculatePercentage x 0 = Number.ofInt 0 := rfl

/-- For a non-negative amount and a positive goal the percentage is an integer in
0..100. -/
theorem calculatePercentage_mem (current goal : Int) (hc : 0 ≤ current) (hg : 0 < goal) :
    ∃ k : Int, calculatePercentage current goal = Number.ofInt k ∧ 0 ≤ k ∧ k ≤ 100 := by
  have hg0 : (goal : Rat) ≠ 0 := by exact_mod_cast (ne_of_gt hg)
  have h1 : (0 : Rat) < (goal : Rat) := by exact_mod_cast hg
  have h2 : (0 : Rat) ≤ (current : Rat) := by exact_mod_cast hc
  unfold calculatePercentage
  rw [if_neg (by omega)]
  simp only [Number.ofInt, Number.div, if_neg hg0]
  rcases ofRat_nonneg _ (div_nonneg h2 h1.le) with hinf | ⟨y, hy, hy0⟩
  · rw [hinf]
    exact ⟨100, by simp [Number.mul, Math.round, Math.min], by decide, by decide⟩
  · rw [hy]
    simp only [Number.mul]
    rcases ofRat_nonneg (y * ((100 : Int) : Rat)) (by push_cast; linarith) with
      hinf | ⟨z, hz, hz0⟩
    · rw [hinf]
      exact ⟨100, by simp [Math.round, Math.min], by decide, by decide⟩
    · rw [hz]
      simp only [Math.round, Math.min]
      have hfl : (0 : Int) ≤ Int.floor (z + 1 / 2) := by
        rw [Int.le_floor]
        push_cast
        linarith
      by_cases hle : ((100 : Int) : Rat) ≤ ((Int.floor (z + 1 / 2) : Int) : Rat)
      · rw [if_pos hle]
        exact ⟨100, rfl, by decide, by decide⟩
      · rw [if_neg hle]
        refine ⟨Int.floor (z + 1 / 2), rfl, hfl, ?_⟩
        have hlt : ((Int.floor (z + 1 / 2) : Int) : Rat) < ((100 : Int) : Rat) :=
          lt_of_not_le hle
        have := Int.cast_lt.mp hlt
        omega

/-- The binary64 quotient 1150 / 2000 lies below 0.575, so that 1150 of 2000 is
57 percent, not 58. -/
theorem calculatePercentage_1150_2000 :
    calculatePercentage 1150 2000 = Number.ofInt 57 := by
  have hq : Number.ofRat (((1150 : Int) : Rat) / ((2000 : Int) : Rat)) =
      .finite (5179139571476070 / 2 ^ 53) :=
    ofRat_eq_of _ _ (-1) 5179139571476070 (by rw [le_abs]; norm_num)
      (by rw [abs_lt]; constructor <;> norm_num) (by norm_num) (by norm_num)
      (by rw [abs_lt]; constructor <;> norm_num) (by norm_num)
  have hp : Number.ofRat ((5179139571476070 / 2 ^ 53 : Rat) * ((100 : Int) : Rat)) =
      .finite (8092405580431359 / 2 ^ 47) :=
    ofRat_eq_of _ _ 5 8092405580431359 (by rw [le_abs]; norm_num)
      (by rw [abs_lt]; constructor <;> norm_num) (by norm_num) (by norm_num)
      (by rw [abs_lt]; constructor <;> norm_num) (by norm_num)
  have hfl : Int.floor ((8092405580431359 / 2 ^ 47 : Rat) + 1 / 2) = 57 := by
    rw [Int.floor_eq_iff]
    norm_num
  unfold calculatePercentage
  rw [if_neg (by decide)]
  simp only [Number.ofInt, Number.div]
  rw [if_neg (by norm_num), hq]
  simp only [Number.mul]
  rw [hp]
  simp only [Math.round, Math.min]
  rw [hfl]
  norm_num


/-- C14 at the failing input: for the non-negative amount 50 and the goal -100,
`calculatePercentage` returns -50, a value below 0. Quotient and product are exact
there; `Math.min(100, ...)` caps the result from above and nothing bounds it from
below. -/
theorem C14_negative_goal_percentage :
    calculatePercentage 50 (-100) = Number.ofInt (-50) ∧
    Number.lt (calculatePercentage 50 (-100)) (Number.ofInt 0) = true := by
  have h : calculatePercentage 50 (-100) = Number.ofInt (-50) := by
    have hq : Number.ofRat (((50 : Int) : Rat) / ((-100 : Int) : Rat)) =
        .finite (((-4503599627370496 : Int) : Rat) * 2 ^ ((-1 : Int) - 52)) := by
      exact ofRat_eq _ (-1) _ (by rw [le_abs]; norm_num)
        (by rw [abs_lt]; constructor <;> norm_num) (by norm_num) (by norm_num)
        (by rw [abs_lt]; constructor <;> norm_num)
    have hp : Number.ofRat ((((-4503599627370496 : Int) : Rat) * 2 ^ ((-1 : Int) - 52)) *
        ((100 : Int) : Rat)) =
        .finite (((-7036874417766400 : Int) : Rat) * 2 ^ ((5 : Int) - 52)) := by
      exact ofRat_eq _ 5 _ (by rw [le_abs]; norm_num)
        (by rw [abs_lt]; constructor <;> norm_num) (by norm_num) (by norm_num)
        (by rw [abs_lt]; constructor <;> norm_num)
    unfold calculatePercentage
    rw [if_neg (by decide)]
    simp only [Number.ofInt, Number.div]
    rw [if_neg (by norm_num), hq]
    simp only [Number.mul]
    rw [hp]
    simp only [Math.round, Math.min]
    have hfl : Int.floor ((((-7036874417766400 : Int) : Rat) * 2 ^ ((5 : Int) - 52)) + 1 / 2)
        = -50 := by
      rw [Int.floor_eq_iff]
      norm_num
    rw [hfl]
    norm_num
  refine ⟨h, ?_⟩
  rw [h]
  simp [Number.lt, Number.ofInt]

/-- The percentage of an amount above a positive goal is 100. -/
theorem calculatePercentage_over (goal consumed : Int) (hg : 0 < goal)
    (hover : goal < consumed) : calculatePercentage consumed goal = Number.ofInt 100 := by
  have hg0 : (goal : Rat) ≠ 0 := by exact_mod_cast (ne_of_gt hg)
  have h1 : (0 : Rat) < (goal : Rat) := by exact_mod_cast hg
  have h2 : (goal : Rat) < (consumed : Rat) := by exact_mod_cast hover
  have h3 : ((1 : Nat) : Rat) ≤ (consumed : Rat) / (goal : Rat) := by
    rw [le_div_iff₀ h1]
    push_cast
    linarith
  unfold calculatePercentage
  rw [if_neg (by omega)]
  simp only [Number.ofInt, Number.div, if_neg hg0]
  rcases le_ofRat 1 (by norm_num) (by norm_num) _ h3 with hinf | ⟨y, hy, hy1⟩
  · rw [hinf]
    simp [Number.mul, Math.round, Math.min]
  · rw [hy]
    simp only [Number.mul]
    have h4 : ((100 : Nat) : Rat) ≤ y * ((100 : Int) : Rat) := by
      push_cast at hy1 ⊢
      linarith
    rcases le_ofRat 100 (by norm_num) (by norm_num) _ h4 with hinf | ⟨z, hz, hz1⟩
    · rw [hinf]
      simp [Math.round, Math.min]
    · rw [hz]
      simp only [Math.round, Math.min]
      have hfl : (100 : Int) ≤ Int.floor (z + 1 / 2) := by
        rw [Int.le_floor]
        push_cast at hz1 ⊢
        linarith
      have hle : ((100 : Int) : Rat) ≤ ((Int.floor (z + 1 / 2) : Int) : Rat) := by
        exact_mod_cast hfl
      rw [if_pos hle]


/-- Counterexample to C15: with a goal of 2000 kcal and 2500 kcal consumed nothing
remains and the percentage is 100, which does not exceed 100. -/
theorem C15_counterexample_percentage_capped :
    calculateRemainingCalories 2000 2500 = 0 ∧
    calculatePercentage 2500 2000 = Number.ofInt 100 ∧
    Number.lt (Number.ofInt 100) (calculatePercentage 2500 2000) = false := by
  have h := calculatePercentage_over 2000 2500 (by decide) (by decide)
  refine ⟨by decide, h, ?_⟩
  rw [h]
  simp [Number.lt, Number.ofInt]

/-- C15 as amended. Overconsumption: for every positive goal and every consumed amount
above it, `calculateRemainingCalories` is 0 and `calculatePercentage` is exactly 100,
the cap; the same holds for the values that the home screen derives from its meals and
daily goal. -/
theorem C15_overconsumption_capped (goal consumed : Int) (home : HomeState)
    (hg : 0 < goal) (hover : goal < consumed) :
    calculateRemainingCalories goal consumed = 0 ∧
    calculatePercentage consumed goal = Number.ofInt 100 ∧
    (0 < home.dailyGoal → home.dailyGoal < home.totalCalories →
      home.remainingCalories = 0 ∧ home.caloriePercentage = Number.ofInt 100) := by
  have hrem : ∀ g c : Int, g < c → calculateRemainingCalories g c = 0 := by
    intro g c h
    unfold calculateRemainingCalories
    exact max_eq_left (by omega)
  refine ⟨hrem goal consumed hover, calculatePercentage_over goal consumed hg hover, ?_⟩
  intro h1 h2
  exact ⟨hrem _ _ h2, calculatePercentage_over _ _ h1 h2⟩

/-- Witness of C15 as amended: with a goal of 2000 kcal and 2500 kcal consumed nothing
remains and the percentage is 100. -/
theorem C15_overconsumption_capped_witness :
    calculateRemainingCalories 2000 2500 = 0 ∧
    calculatePercentage 2500 2000 = Number.ofInt 100 ∧
    sampleOverHome.totalCalories = 2500 ∧
    sampleOverHome.remainingCalories = 0 ∧
    sampleOverHome.caloriePercentage = Number.ofInt 100 :=
  have h := C15_overconsumption_capped 2000 2500 sampleOverHome (by decide) (by decide)
  ⟨h.1, h.2.1, by decide, h.2.2 (by decide) (by decide)⟩

/-! ## Goal editors -/

/-- An input that `parseInt` reads as a number is not empty. -/
theorem textOrZero_of_parseInt (text : String) (n : Int) (h : parseInt text = some n) :
    textOrZero text = text := by
  unfold textOrZero
  split
  · next he =>
    have hempty : parseInt "" = none := by decide
    rw [he, hempty] at h
    cases h
  · rfl

/-- C16. Atwater formula: `calculateCaloriesFromMacros` is 4 kcal per gram of protein
and of carbs and 9 kcal per gram of fat, and when the three inputs of the macro-goal
editor parse to integers its "Estimated Total" is that value for those integers. -/
theorem C16_atwater_formula (protein carbs fat : Int) (proteinText carbsText fatText : String) :
    calculateCaloriesFromMacros protein carbs fat = protein * 4 + carbs * 4 + fat * 9 ∧
    (parseInt proteinText = some protein → parseInt carbsText = some carbs →
      parseInt fatText = some fat →
      estimatedTotal proteinText carbsText fatText =
        some (calculateCaloriesFromMacros protein carbs fat)) := by
  refine ⟨rfl, ?_⟩
  intro hp hc hf
  unfold estimatedTotal
  rw [textOrZero_of_parseInt _ _ hp, textOrZero_of_parseInt _ _ hc,
    textOrZero_of_parseInt _ _ hf, hp, hc, hf]
  rfl

/-- Witness of C16: for the inputs 150, 200 and 65 the estimated total is 1985 kcal,
the value of `calculateCaloriesFromMacros`. -/
theorem C16_atwater_formula_witness :
    calculateCaloriesFromMacros 150 200 65 = 1985 ∧
    estimatedTotal "150" "200" "65" = some (calculateCaloriesFromMacros 150 200 65) :=
  have h := C16_atwater_formula 150 200 65 "150" "200" "65"
  ⟨by decide, h.2 (by decide) (by decide) (by decide)⟩

/-- C20. Goal validation boundary: `handleSave` of the goal modal hands a number to
`onSave` exactly when the input parses to an integer from 500 to 10000, and then it is
that integer; `handleUpdateGoal` makes it the in-memory goal and persists it when the
write succeeds; otherwise nothing changes in memory or in the store. The inputs 499
and 10001 are rejected and 500 and 10000 are accepted. -/
theorem C20_goal_validation_boundary (fl : Faults) (goal : String) (app : App) :
    (∀ n, GoalModal.handleSave goal = some n ↔
      parseInt goal = some n ∧ 500 ≤ n ∧ n ≤ 10000) ∧
    (∀ n, GoalModal.handleSave goal = some n →
      (pressSaveGoal fl goal app).home.dailyGoal = n ∧
      (fl.setItemThrows .DAILY_GOAL = false →
        (pressSaveGoal fl goal app).storage .DAILY_GOAL = some (Stored.json n))) ∧
    (GoalModal.handleSave goal = none → pressSaveGoal fl goal app = app) ∧
    GoalModal.handleSave "499" = none ∧ GoalModal.handleSave "10001" = none ∧
    GoalModal.handleSave "500" = some 500 ∧ GoalModal.handleSave "10000" = some 10000 := by
  refine ⟨?_, ?_, ?_, by decide, by decide, by decide, by decide⟩
  · intro n
    unfold GoalModal.handleSave
    cases hp : parseInt goal with
    | none => simp
    | some v =>
      simp only [Bool.or_eq_true, decide_eq_true_eq, Option.some.injEq]
      constructor
      · intro h
        split at h
        · cases h
        · next hne =>
          cases h
          exact ⟨rfl, by omega, by omega⟩
      · rintro ⟨rfl, h1, h2⟩
        rw [if_neg (by omega)]
  · intro n hn
    unfold pressSaveGoal
    rw [hn]
    refine ⟨rfl, ?_⟩
    intro hw
    exact saveData_same fl _ _ _ hw
  · intro hn
    unfold pressSaveGoal
    rw [hn]

/-- Witness of C20: the input 500 is accepted and becomes the in-memory and the stored
daily goal. -/
theorem C20_goal_validation_boundary_witness :
    GoalModal.handleSave "500" = some 500 ∧
    (pressSaveGoal noFaults "500" (sampleApp [] 0 3600000)).home.dailyGoal = 500 ∧
    (pressSaveGoal noFaults "500" (sampleApp [] 0 3600000)).storage .DAILY_GOAL =
      some (Stored.json (500 : Int)) :=
  have h := C20_goal_validation_boundary noFaults "500" (sampleApp [] 0 3600000)
  ⟨by decide, (h.2.1 500 (by decide)).1, (h.2.1 500 (by decide)).2 rfl⟩

/-! ## Meal commands -/

/-- C17. Adding a meal appends: after `handleSaveMeal m` the in-memory list is the
former list followed by `m`, one longer, with every earlier meal at its position, and
the meals write, when it succeeds, persists that list; the in-memory and the stored
daily goal, macro goals and streak are unchanged. -/
theorem C17_add_meal_appends (fl : Faults) (m : Meal) (app : App) :
    (handleSaveMeal fl m app).home.meals = app.home.meals ++ [m] ∧
    (handleSaveMeal fl m app).home.meals.length = app.home.meals.length + 1 ∧
    (∀ i, i < app.home.meals.length →
      (handleSaveMeal fl m app).home.meals[i]? = app.home.meals[i]?) ∧
    (fl.setItemThrows .MEALS = false →
      (handleSaveMeal fl m app).storage .MEALS = some (Stored.json (app.home.meals ++ [m]))) ∧
    ((handleSaveMeal fl m app).home.dailyGoal = app.home.dailyGoal ∧
      (handleSaveMeal fl m app).home.macroGoals = app.home.macroGoals ∧
      (handleSaveMeal fl m app).home.streak = app.home.streak) ∧
    ((handleSaveMeal fl m app).storage .DAILY_GOAL = app.storage .DAILY_GOAL ∧
      (handleSaveMeal fl m app).storage .MACRO_GOALS = app.storage .MACRO_GOALS ∧
      (handleSaveMeal fl m app).storage .STREAK = app.storage .STREAK) := by
  have hm : (handleSaveMeal fl m app).home.meals = app.home.meals ++ [m] := rfl
  refine ⟨hm, ?_, ?_, ?_, ⟨rfl, rfl, rfl⟩, ⟨?_, ?_, ?_⟩⟩
  · rw [hm, List.length_append]
    rfl
  · intro i hi
    rw [hm, List.getElem?_append_left hi]
  · intro hw
    exact saveData_same fl _ _ _ hw
  · exact saveData_other _ _ _ _ _ (by decide)
  · exact saveData_other _ _ _ _ _ (by decide)
  · exact saveData_other _ _ _ _ _ (by decide)

/-- Witness of C17: adding a second meal to a list of one meal gives the two meals in
order, in memory and in the store. -/
theorem C17_add_meal_appends_witness :
    (handleSaveMeal noFaults (sampleMeal 7200000)
      (loadData Calendar.utc noFaults 7200000 7200000
        (sampleApp [sampleMeal 3600000] 2 3600000))).home.meals =
      [sampleMeal 3600000, sampleMeal 7200000] ∧
    (handleSaveMeal noFaults (sampleMeal 7200000)
      (loadData Calendar.utc noFaults 7200000 7200000
        (sampleApp [sampleMeal 3600000] 2 3600000))).storage .MEALS =
      some (Stored.json [sampleMeal 3600000, sampleMeal 7200000]) :=
  have h := C17_add_meal_appends noFaults (sampleMeal 7200000)
    (loadData Calendar.utc noFaults 7200000 7200000 (sampleApp [sampleMeal 3600000] 2 3600000))
  ⟨h.1.trans (by decide), (h.2.2.2.1 rfl).trans (by decide)⟩

/-- C18. Editing a meal replaces in place: after `handleSaveEditedMeal u` the in-memory
list has the same length, holds `u` at every position whose meal has the id of `u` and
the former meal at every other position, and is the former list when no meal has that
id; the meals write, when it succeeds, persists that list. -/
theorem C18_edit_meal_replaces_in_place (fl : Faults) (u : Meal) (app : App) :
    (handleSaveEditedMeal fl u app).home.meals.length = app.home.meals.length ∧
    (∀ i : Nat, (handleSaveEditedMeal fl u app).home.meals[i]? =
      (app.home.meals[i]?).map (fun m => if m.id = u.id then u else m)) ∧
    ((∀ m ∈ app.home.meals, m.id ≠ u.id) →
      (handleSaveEditedMeal fl u app).home.meals = app.home.meals) ∧
    (fl.setItemThrows .MEALS = false →
      (handleSaveEditedMeal fl u app).storage .MEALS =
        some (Stored.json (handleSaveEditedMeal fl u app).home.meals)) := by
  have hm : (handleSaveEditedMeal fl u app).home.meals =
      app.home.meals.map (fun m => if m.id == u.id then u else m) := rfl
  refine ⟨?_, ?_, ?_, ?_⟩
  · rw [hm, List.length_map]
  · intro i
    rw [hm, List.getElem?_map]
    simp
  · intro hnone
    rw [hm]
    conv_rhs => rw [← List.map_id app.home.meals]
    apply List.map_congr_left
    intro m hmem
    simp [hnone m hmem]
  · intro hw
    exact saveData_same fl _ _ _ hw

/-- Witness of C18: in a list of two meals, editing the first replaces only it, at its
position, and an edit whose id matches no meal leaves the list as it is. -/
theorem C18_edit_meal_replaces_in_place_witness :
    (handleSaveEditedMeal noFaults (editedMeal 3600000)
      (handleSaveMeal noFaults (sampleMeal 7200000)
        (handleSaveMeal noFaults (sampleMeal 3600000) freshInstall))).home.meals =
      [editedMeal 3600000, sampleMeal 7200000] ∧
    (handleSaveEditedMeal noFaults (editedMeal 3600000)
      (handleSaveMeal noFaults (sampleMeal 7200000)
        (handleSaveMeal noFaults (sampleMeal 3600000) freshInstall))).storage .MEALS =
      some (Stored.json [editedMeal 3600000, sampleMeal 7200000]) ∧
    (handleSaveEditedMeal noFaults (editedMeal 10800000)
      (handleSaveMeal noFaults (sampleMeal 7200000)
        (handleSaveMeal noFaults (sampleMeal 3600000) freshInstall))).home.meals =
      [sampleMeal 3600000, sampleMeal 7200000] :=
  have h := C18_edit_meal_replaces_in_place noFaults (editedMeal 3600000)
    (handleSaveMeal noFaults (sampleMeal 7200000)
      (handleSaveMeal noFaults (sampleMeal 3600000) freshInstall))
  have h2 := C18_edit_meal_replaces_in_place noFaults (editedMeal 10800000)
    (handleSaveMeal noFaults (sampleMeal 7200000)
      (handleSaveMeal noFaults (sampleMeal 3600000) freshInstall))
  ⟨by decide, (h.2.2.2 rfl).trans (by decide), (h2.2.2.1 (by decide)).trans (by decide)⟩

/-- C19. Deleting a meal removes by id: after the confirmed `handleDeleteMeal i` the
in-memory list is the former list without the meals whose id is `i`, the others in their
former order, and is the former list when no meal has the id `i`; the meals write, when
it succeeds, persists that list. The handler is a total function: it raises nothing. -/
theorem C19_delete_meal_removes_by_id (fl : Faults) (i : Int) (app : App) :
    (handleDeleteMeal fl i app).home.meals = app.home.meals.filter (fun m => m.id != i) ∧
    (handleDeleteMeal fl i app).home.meals.Sublist app.home.meals ∧
    (∀ m, m ∈ (handleDeleteMeal fl i app).home.meals ↔ m ∈ app.home.meals ∧ m.id ≠ i) ∧
    ((∀ m ∈ app.home.meals, m.id ≠ i) →
      (handleDeleteMeal fl i app).home.meals = app.home.meals) ∧
    (fl.setItemThrows .MEALS = false →
      (handleDeleteMeal fl i app).storage .MEALS =
        some (Stored.json (app.home.meals.filter (fun m => m.id != i)))) := by
  have hm : (handleDeleteMeal fl i app).home.meals =
      app.home.meals.filter (fun m => m.id != i) := rfl
  refine ⟨hm, ?_, ?_, ?_, ?_⟩
  · rw [hm]
    exact List.filter_sublist _
  · intro m
    rw [hm, List.mem_filter]
    simp
  · intro hnone
    rw [hm, List.filter_eq_self]
    intro m hmem
    simp [hnone m hmem]
  · intro hw
    exact saveData_same fl _ _ _ hw

/-- Witness of C19: after two meals are added and the first is edited, deleting the
second leaves the edited first meal alone, in memory and in the store, and deleting an
id that no meal has leaves both. -/
theorem C19_delete_meal_removes_by_id_witness :
    (handleDeleteMeal noFaults 7200000
      (handleSaveEditedMeal noFaults (editedMeal 3600000)
        (handleSaveMeal noFaults (sampleMeal 7200000)
          (handleSaveMeal noFaults (sampleMeal 3600000) freshInstall)))).home.meals =
      [editedMeal 3600000] ∧
    (handleDeleteMeal noFaults 7200000
      (handleSaveEditedMeal noFaults (editedMeal 3600000)
        (handleSaveMeal noFaults (sampleMeal 7200000)
          (handleSaveMeal noFaults (sampleMeal 3600000) freshInstall)))).storage .MEALS =
      some (Stored.json [editedMeal 3600000]) ∧
    (handleDeleteMeal noFaults 42
      (handleSaveEditedMeal noFaults (editedMeal 3600000)
        (handleSaveMeal noFaults (sampleMeal 7200000)
          (handleSaveMeal noFaults (sampleMeal 3600000) freshInstall)))).home.meals =
      [editedMeal 3600000, sampleMeal 7200000] :=
  have h := C19_delete_meal_removes_by_id noFaults 7200000
    (handleSaveEditedMeal noFaults (editedMeal 3600000)
      (handleSaveMeal noFaults (sampleMeal 7200000)
        (handleSaveMeal noFaults (sampleMeal 3600000) freshInstall)))
  have h2 := C19_delete_meal_removes_by_id noFaults 42
    (handleSaveEditedMeal noFaults (editedMeal 3600000)
      (handleSaveMeal noFaults (sampleMeal 7200000)
        (handleSaveMeal noFaults (sampleMeal 3600000) freshInstall)))
  ⟨h.1.trans (by decide), (h.2.2.2.2 rfl).trans (by decide),
    (h2.2.2.2.1 (by decide)).trans (by decide)⟩

/-! ## Rollover after several days -/

/-- A write leaves two stores in agreement at every key at which they agreed. -/
theorem saveData_agree (fl : Faults) (key k : STORAGE_KEYS) (value : Val key)
    (st1 st2 : AsyncStorage) (h : st1 k = st2 k) :
    (saveData fl key value st1).2 k = (saveData fl key value st2).2 k := by
  unfold saveData
  split
  · exact h
  · by_cases hk : k = key
    · subst hk
      simp
    · simp only [Function.update_noteq hk]
      exact h

/-- Reading a key is not affected by the stored last-active date. -/
theorem getData_withLastActive (fl : Faults) (la : ISOString) (app : App)
    (key : STORAGE_KEYS) (d : Val key) (hk : key ≠ .LAST_ACTIVE) :
    getData fl (withLastActive la app).storage key d = getData fl app.storage key d := by
  unfold getData withLastActive
  simp only [Function.update_noteq hk]

/-- A stored last-active date on another day than the check makes the rollover due. -/
theorem rolloverDue_withLastActive (cal : Calendar) (fl : Faults) (today : Instant)
    (la : ISOString) (app : App) (hr : fl.getItemThrows .LAST_ACTIVE = false)
    (hday : isSameDay cal (newDate la) today = false) :
    rolloverDue cal fl today (withLastActive la app) = true := by
  have hs : (withLastActive la app).storage .LAST_ACTIVE = some (Stored.json la) := by
    simp [withLastActive]
  rw [rolloverDue_eq, getDataNull_json fl _ _ la hr hs]
  simp [hday]

/-- C11. Single-step rollover: whatever two dates on other days than today the store may
hold as last-active date, with a readable store `loadData` leaves the same React state
and the same items under every key but the last-active key, and the same store when the
last-active write succeeds; the streak it leaves is the stored streak plus one when
meals are stored and 0 when none are, with no adjustment for the length of the gap. -/
theorem C11_single_step_rollover (cal : Calendar) (fl : Faults) (today now : Instant)
    (la1 la2 : ISOString) (app : App)
    (hr : fl.getItemThrows .LAST_ACTIVE = false)
    (h1 : isSameDay cal (newDate la1) today = false)
    (h2 : isSameDay cal (newDate la2) today = false) :
    (loadData cal fl today now (withLastActive la1 app)).home =
      (loadData cal fl today now (withLastActive la2 app)).home ∧
    (∀ k, k ≠ .LAST_ACTIVE →
      (loadData cal fl today now (withLastActive la1 app)).storage k =
        (loadData cal fl today now (withLastActive la2 app)).storage k) ∧
    (fl.setItemThrows .LAST_ACTIVE = false →
      (loadData cal fl today now (withLastActive la1 app)).storage =
        (loadData cal fl today now (withLastActive la2 app)).storage) ∧
    (loadData cal fl today now (withLastActive la1 app)).home.streak =
      (if (getData fl app.storage .MEALS []).length > 0
        then getData fl app.storage .STREAK 0 + 1 else 0) := by
  have hload : ∀ la, isSameDay cal (newDate la) today = false →
      loadData cal fl today now (withLastActive la app) =
        resetDailyData fl now (withLastActive la app) := fun la h =>
    loadData_of_due cal fl today now _ (rolloverDue_withLastActive cal fl today la app hr h)
  have hhome : ∀ la, (resetDailyData fl now (withLastActive la app)).home =
      { app.home with
        meals := []
        streak := if (getData fl app.storage .MEALS []).length > 0
          then getData fl app.storage .STREAK 0 + 1 else 0 } := by
    intro la
    rw [resetDailyData_home, getData_withLastActive fl la app _ _ (by decide),
      getData_withLastActive fl la app _ _ (by decide)]
    rfl
  have hother : ∀ k, k ≠ STORAGE_KEYS.LAST_ACTIVE →
      (resetDailyData fl now (withLastActive la1 app)).storage k =
        (resetDailyData fl now (withLastActive la2 app)).storage k := by
    intro k hk
    rw [resetDailyData_storage, resetDailyData_storage,
      getData_withLastActive fl la1 app _ _ (by decide),
      getData_withLastActive fl la1 app _ _ (by decide),
      getData_withLastActive fl la2 app _ _ (by decide),
      getData_withLastActive fl la2 app _ _ (by decide)]
    apply saveData_agree
    apply saveData_agree
    apply saveData_agree
    simp only [withLastActive, Function.update_noteq hk]
  rw [hload la1 h1, hload la2 h2]
  refine ⟨?_, hother, ?_, ?_⟩
  · rw [hhome la1, hhome la2]
  · intro hw
    funext k
    by_cases hk : k = STORAGE_KEYS.LAST_ACTIVE
    · subst hk
      rw [resetDailyData_storage, resetDailyData_storage, saveData_same fl _ _ _ hw,
        saveData_same fl _ _ _ hw]
    · exact hother k hk
  · rw [hhome la1]

/-- Witness of C11: a store with one meal and streak 2 that was last active 1 day or
40 days before a load at 08:00 on 10 February 1970 (UTC) ends with streak 3 and no
meals either way, in memory and in the store. -/
theorem C11_single_step_rollover_witness :
    (loadData Calendar.utc noFaults 3484800000 3484800000
      (withLastActive (toISOString 3398400000) (sampleApp [sampleMeal 3600000] 2 0))).home =
      (loadData Calendar.utc noFaults 3484800000 3484800000
        (withLastActive (toISOString 28800000) (sampleApp [sampleMeal 3600000] 2 0))).home ∧
    (loadData Calendar.utc noFaults 3484800000 3484800000
      (withLastActive (toISOString 3398400000) (sampleApp [sampleMeal 3600000] 2 0))).storage =
      (loadData Calendar.utc noFaults 3484800000 3484800000
        (withLastActive (toISOString 28800000) (sampleApp [sampleMeal 3600000] 2 0))).storage ∧
    (loadData Calendar.utc noFaults 3484800000 3484800000
      (withLastActive (toISOString 28800000) (sampleApp [sampleMeal 3600000] 2 0))).home.streak = 3 ∧
    (loadData Calendar.utc noFaults 3484800000 3484800000
      (withLastActive (toISOString 28800000)
        (sampleApp [sampleMeal 3600000] 2 0))).storage .STREAK = some (Stored.json (3 : Int)) :=
  have h := C11_single_step_rollover Calendar.utc noFaults 3484800000 3484800000
    (toISOString 3398400000) (toISOString 28800000) (sampleApp [sampleMeal 3600000] 2 0)
    rfl (by decide) (by decide)
  ⟨h.1, h.2.2.1 rfl, by decide, by decide⟩

/-! ## Macro goal validation -/

/-- C21. Macro goal validation: `handleSave` of the macro modal hands an object to
`onSave` exactly when the three inputs parse to integers that are all at least 0, and
then it holds those integers; `handleUpdateMacros` makes it the in-memory macro goals
and persists it when the write succeeds; otherwise nothing changes in memory or in the
store. -/
theorem C21_macro_goal_validation (fl : Faults) (protein carbs fat : String) (app : App) :
    (∀ g, MacroGoalsModal.handleSave protein carbs fat = some g ↔
      parseInt protein = some g.protein ∧ parseInt carbs = some g.carbs ∧
        parseInt fat = some g.fat ∧ 0 ≤ g.protein ∧ 0 ≤ g.carbs ∧ 0 ≤ g.fat) ∧
    (∀ g, MacroGoalsModal.handleSave protein carbs fat = some g →
      (pressSaveMacros fl protein carbs fat app).home.macroGoals = g ∧
      (fl.setItemThrows .MACRO_GOALS = false →
        (pressSaveMacros fl protein carbs fat app).storage .MACRO_GOALS =
          some (Stored.json g))) ∧
    (MacroGoalsModal.handleSave protein carbs fat = none →
      pressSaveMacros fl protein carbs fat app = app) := by
  refine ⟨?_, ?_, ?_⟩
  · intro g
    unfold MacroGoalsModal.handleSave
    cases hp : parseInt protein with
    | none => simp
    | some p =>
      cases hc : parseInt carbs with
      | none => simp
      | some c =>
        cases hf : parseInt fat with
        | none => simp
        | some f =>
          simp only [Bool.or_eq_true, decide_eq_true_eq, Option.some.injEq]
          constructor
          · intro h
            split at h
            · cases h
            · next hne =>
              cases h
              have hp0 : 0 ≤ p := by omega
              have hc0 : 0 ≤ c := by omega
              have hf0 : 0 ≤ f := by omega
              exact ⟨rfl, rfl, rfl, hp0, hc0, hf0⟩
          · rintro ⟨rfl, rfl, rfl, h1, h2, h3⟩
            rw [if_neg (by omega)]
  · intro g hg
    unfold pressSaveMacros
    rw [hg]
    refine ⟨rfl, ?_⟩
    intro hw
    exact saveData_same fl _ _ _ hw
  · intro hn
    unfold pressSaveMacros
    rw [hn]

/-- Witness of C21: the inputs 200, 150 and 55 are accepted and become the in-memory
and the stored macro goals, and an input of -5 grams of fat changes nothing. -/
theorem C21_macro_goal_validation_witness :
    (pressSaveMacros noFaults "200" "150" "55" (sampleApp [] 0 3600000)).home.macroGoals =
      { protein := 200, carbs := 150, fat := 55 } ∧
    (pressSaveMacros noFaults "200" "150" "55" (sampleApp [] 0 3600000)).storage .MACRO_GOALS =
      some (Stored.json ({ protein := 200, carbs := 150, fat := 55 } : MacroGoals)) ∧
    (pressSaveMacros noFaults "200" "150" "-5" (sampleApp [] 0 3600000)).home =
      (sampleApp [] 0 3600000).home :=
  have h := C21_macro_goal_validation noFaults "200" "150" "55" (sampleApp [] 0 3600000)
  have h2 := C21_macro_goal_validation noFaults "200" "150" "-5" (sampleApp [] 0 3600000)
  ⟨(h.2.1 _ (by decide)).1, (h.2.1 _ (by decide)).2 rfl, by rw [h2.2.2 (by decide)]⟩

/-! ## Meals built by the meal modal -/

/-- The reduction of `calculateTotals` from any start value. -/
theorem foldl_totals (foods : List SelectedFood) :
    ∀ acc : Totals,
      foods.foldl
        (fun totals food =>
          ({ calories := totals.calories + orElse food.totalCalories 0
             protein := totals.protein + orElse food.totalProtein 0
             carbs := totals.carbs + orElse food.totalCarbs 0
             fat := totals.fat + orElse food.totalFat 0 } : Totals)) acc =
      { calories := acc.calories + (foods.map SelectedFood.totalCalories).sum
        protein := acc.protein + (foods.map SelectedFood.totalProtein).sum
        carbs := acc.carbs + (foods.map SelectedFood.totalCarbs).sum
        fat := acc.fat + (foods.map SelectedFood.totalFat).sum } := by
  induction foods with
  | nil => intro acc; simp
  | cons f fs ih =>
    intro acc
    rw [List.foldl_cons, ih]
    simp only [List.map_cons, List.sum_cons, orElse_zero, add_assoc]

/-- The totals of `calculateTotals` are the sums of the four total fields. -/
theorem calculateTotals_eq_sum (foods : List SelectedFood) :
    calculateTotals foods =
      { calories := (foods.map SelectedFood.totalCalories).sum
        protein := (foods.map SelectedFood.totalProtein).sum
        carbs := (foods.map SelectedFood.totalCarbs).sum
        fat := (foods.map SelectedFood.totalFat).sum } := by
  unfold calculateTotals
  rw [foldl_totals]
  simp only [zero_add]

/-- The meal that `handleSave` of the meal modal hands to `onSave`, field by field. -/
theorem handleSave_some (editingMeal : Option Meal) (mealType : String)
    (selectedFoods : List SelectedFood) (dateNow : Int) (now : Instant) (meal : Meal)
    (h : MealModal.handleSave editingMeal mealType selectedFoods dateNow now = some meal) :
    selectedFoods.length ≠ 0 ∧
    meal.id = (editingMeal.map (fun e => orElse e.id dateNow)).getD dateNow ∧
    meal.mealType = mealType ∧ meal.selectedFoods = selectedFoods ∧
    meal.calories = (calculateTotals selectedFoods).calories ∧
    meal.protein = (calculateTotals selectedFoods).protein ∧
    meal.carbs = (calculateTotals selectedFoods).carbs ∧
    meal.fat = (calculateTotals selectedFoods).fat := by
  unfold MealModal.handleSave at h
  split at h
  · cases h
  · next hne =>
    cases h
    refine ⟨hne, ?_, rfl, rfl, rfl, rfl, rfl, rfl⟩
    cases editingMeal <;> rfl

/-- C22. Meal totals invariant: every meal that `handleSave` of the meal modal hands to
`onSave` has at least one food item, and its calories, protein, carbs and fat are the
sums over its `selectedFoods` of `totalCalories`, `totalProtein`, `totalCarbs` and
`totalFat`; `addFood` appends one item whose four totals are the per-100 g values times
the serving multiplier, rounded, the multiplier being the chosen one or 1. -/
theorem C22_meal_totals_invariant (editingMeal : Option Meal) (mealType : String)
    (selectedFoods : List SelectedFood) (dateNow : Int) (now : Instant) (meal : Meal)
    (numberToString : Rat → String) (food : FoodItem) (st : MealModalState)
    (h : MealModal.handleSave editingMeal mealType selectedFoods dateNow now = some meal) :
    (1 ≤ meal.selectedFoods.length ∧
      meal.calories = (meal.selectedFoods.map SelectedFood.totalCalories).sum ∧
      meal.protein = (meal.selectedFoods.map SelectedFood.totalProtein).sum ∧
      meal.carbs = (meal.selectedFoods.map SelectedFood.totalCarbs).sum ∧
      meal.fat = (meal.selectedFoods.map SelectedFood.totalFat).sum) ∧
    ((addFood numberToString food st).selectedFoods =
        st.selectedFoods ++ [foodToAdd numberToString st.servingSizes food] ∧
      (foodToAdd numberToString st.servingSizes food).food = food ∧
      (foodToAdd numberToString st.servingSizes food).servingMultiplier =
        numberOrElse (st.servingSizes food.id) 1 ∧
      (foodToAdd numberToString st.servingSizes food).totalCalories =
        mathRound ((food.calories : Rat) * numberOrElse (st.servingSizes food.id) 1) ∧
      (foodToAdd numberToString st.servingSizes food).totalProtein =
        mathRound ((food.protein : Rat) * numberOrElse (st.servingSizes food.id) 1) ∧
      (foodToAdd numberToString st.servingSizes food).totalCarbs =
        mathRound ((food.carbs : Rat) * numberOrElse (st.servingSizes food.id) 1) ∧
      (foodToAdd numberToString st.servingSizes food).totalFat =
        mathRound ((food.fat : Rat) * numberOrElse (st.servingSizes food.id) 1)) := by
  obtain ⟨hne, _, _, hfoods, hcal, hpro, hcarb, hfat⟩ :=
    handleSave_some editingMeal mealType selectedFoods dateNow now meal h
  rw [calculateTotals_eq_sum] at hcal hpro hcarb hfat
  refine ⟨⟨?_, ?_, ?_, ?_, ?_⟩, ⟨rfl, rfl, rfl, rfl, rfl, rfl, rfl⟩⟩
  · rw [hfoods]
    omega
  · rw [hfoods]
    exact hcal
  · rw [hfoods]
    exact hpro
  · rw [hfoods]
    exact hcarb
  · rw [hfoods]
    exact hfat

/-- Witness of C22: with a serving multiplier of 1.5 chosen for granola of 500 kcal per
100 g, `addFood` and then `handleSave` give a meal of one food item whose calories are
the total of that item, 750 kcal. -/
theorem C22_meal_totals_invariant_witness :
    MealModal.handleSave none "Breakfast"
        (addFood toString sampleFoodItem sampleModalState).selectedFoods 7200000 7200000 =
      some
        { id := 7200000
          mealType := "Breakfast"
          selectedFoods := (addFood toString sampleFoodItem sampleModalState).selectedFoods
          calories := (calculateTotals
            (addFood toString sampleFoodItem sampleModalState).selectedFoods).calories
          protein := (calculateTotals
            (addFood toString sampleFoodItem sampleModalState).selectedFoods).protein
          carbs := (calculateTotals
            (addFood toString sampleFoodItem sampleModalState).selectedFoods).carbs
          fat := (calculateTotals
            (addFood toString sampleFoodItem sampleModalState).selectedFoods).fat
          timestamp := toISOString 7200000 } ∧
    (calculateTotals (addFood toString sampleFoodItem sampleModalState).selectedFoods).calories =
      ((addFood toString sampleFoodItem sampleModalState).selectedFoods.map
        SelectedFood.totalCalories).sum ∧
    (foodToAdd toString sampleModalState.servingSizes sampleFoodItem).totalCalories = 750 :=
  have hsave : MealModal.handleSave none "Breakfast"
        (addFood toString sampleFoodItem sampleModalState).selectedFoods 7200000 7200000 =
      some _ := rfl
  have h := C22_meal_totals_invariant none "Breakfast"
    (addFood toString sampleFoodItem sampleModalState).selectedFoods 7200000 7200000 _
    toString sampleFoodItem sampleModalState hsave
  ⟨hsave, h.1.2.1, h.2.2.2.2.1.trans (by
    have hm : numberOrElse (sampleModalState.servingSizes sampleFoodItem.id) 1 = 3 / 2 := by
      norm_num [numberOrElse, sampleModalState, sampleFoodItem, sampleFood]
    rw [hm]
    unfold mathRound
    rw [Int.floor_eq_iff]
    norm_num [sampleFoodItem, sampleFood])⟩

/-- C23 at the failing input: the meal that `handleSave` creates when `Date.now()`
reads 0 has the id 0; when that meal is edited at the instant 5 ms, `handleSave`
produces a meal with the id 5, taken from the current instant, not the id 0 of the
original, although it keeps the timestamp of the original; the edit then finds no meal
to replace, and the list still holds the original. -/
theorem C23_edit_of_zero_id_takes_new_id :
    MealModal.handleSave none "Breakfast" [sampleFood] 0 0 = some epochMeal ∧
    epochMeal.id = 0 ∧
    (MealModal.handleSave (some epochMeal) "Lunch" [sampleFood] 5 5).map Meal.id = some 5 ∧
    (MealModal.handleSave (some epochMeal) "Lunch" [sampleFood] 5 5).map Meal.timestamp =
      some epochMeal.timestamp ∧
    (pressSaveMeal noFaults "Lunch" [sampleFood] 5 5 editingEpochMeal).home.meals =
      [epochMeal] := by
  refine ⟨by decide, by decide, by decide, by decide, by decide⟩

/-- Identity of an edited meal whose id is not 0: the meal that `handleSave` of the meal
modal produces for a meal being edited has the timestamp of the original and, when the
id of the original is not 0, its id, so that `handleSaveEditedMeal` puts it at the
positions of the meals with that id, which is the position of the original alone when no
other meal shares its id; for a new meal the id is `Date.now()` and the timestamp the
ISO string of the current instant. -/
theorem handleSave_keeps_identity (fl : Faults) (e : Meal) (mealType : String)
    (selectedFoods : List SelectedFood) (dateNow : Int) (now : Instant) (meal : Meal)
    (app : App)
    (h : MealModal.handleSave (some e) mealType selectedFoods dateNow now = some meal) :
    meal.timestamp = e.timestamp ∧
    (e.id ≠ 0 →
      meal.id = e.id ∧
      (handleSaveEditedMeal fl meal app).home.meals =
        app.home.meals.map (fun m => if m.id = e.id then meal else m) ∧
      ((∀ m ∈ app.home.meals, m.id = e.id → m = e) →
        (handleSaveEditedMeal fl meal app).home.meals =
          app.home.meals.map (fun m => if m = e then meal else m))) ∧
    (∀ newMeal, MealModal.handleSave none mealType selectedFoods dateNow now = some newMeal →
      newMeal.id = dateNow ∧ newMeal.timestamp = toISOString now) := by
  have hts := handleSave_timestamp _ _ _ _ _ _ h
  have hid := (handleSave_some _ _ _ _ _ _ h).2.1
  refine ⟨hts, ?_, ?_⟩
  · intro hne
    have hmid : meal.id = e.id := by
      rw [hid]
      show orElse e.id dateNow = e.id
      unfold orElse
      rw [if_neg hne]
    have hmap : (handleSaveEditedMeal fl meal app).home.meals =
        app.home.meals.map (fun m => if m.id = e.id then meal else m) := by
      show app.home.meals.map (fun m => if m.id == meal.id then meal else m) = _
      apply List.map_congr_left
      intro m _
      simp [hmid]
    refine ⟨hmid, hmap, ?_⟩
    intro huniq
    rw [hmap]
    apply List.map_congr_left
    intro m hm
    by_cases hme : m = e
    · simp [hme]
    · have hne2 : m.id ≠ e.id := fun hc => hme (huniq m hm hc)
      simp [hme, hne2]
  · intro newMeal hnew
    exact ⟨(handleSave_some _ _ _ _ _ _ hnew).2.1, handleSave_timestamp _ _ _ _ _ _ hnew⟩

/-- An instance of `handleSave_keeps_identity`: with two meals listed, editing the first into a lunch
at 03:00 gives a meal with the id and the timestamp of the first, and the list then holds
it at the first position and the second meal unchanged. -/
theorem handleSave_keeps_identity_example :
    (MealModal.handleSave (some (sampleMeal 3600000)) "Lunch" [sampleFood]
      10800000 10800000).map Meal.id = some 3600000 ∧
    (MealModal.handleSave (some (sampleMeal 3600000)) "Lunch" [sampleFood]
      10800000 10800000).map Meal.timestamp = some (toISOString 3600000) ∧
    (pressSaveMeal noFaults "Lunch" [sampleFood] 10800000 10800000
      editingFirstMeal).home.meals =
      [{ sampleMeal 3600000 with mealType := "Lunch" }, sampleMeal 7200000] :=
  have hsave : MealModal.handleSave (some (sampleMeal 3600000)) "Lunch" [sampleFood]
      10800000 10800000 = some { sampleMeal 3600000 with mealType := "Lunch" } := by decide
  have h := handleSave_keeps_identity noFaults (sampleMeal 3600000) "Lunch" [sampleFood]
    10800000 10800000 _ editingFirstMeal hsave
  ⟨by rw [hsave]; exact congrArg some (h.2.1 (by decide)).1,
    by rw [hsave]; exact congrArg some h.1, by decide⟩

/-! ## Persistence -/

/-- C24. Persistence round trip: a read that does not fail returns the value of a
successful `saveData` whatever the default, and returns the default when the key holds
no item, after a successful `removeData`, and when the stored text is not valid JSON;
`getData` is a total function: it raises nothing. -/
theorem C24_persistence_round_trip (fl1 fl2 : Faults) (k : STORAGE_KEYS)
    (v d : Val k) (text : String) (st : AsyncStorage) :
    ((saveData fl1 k v st).1 = true → fl2.getItemThrows k = false →
      getData fl2 (saveData fl1 k v st).2 k d = v) ∧
    (st k = none → getData fl2 st k d = d) ∧
    (getData fl2 AsyncStorage.empty k d = d) ∧
    ((removeData fl1 k st).1 = true → getData fl2 (removeData fl1 k st).2 k d = d) ∧
    (st k = some (Stored.corrupt text) → getData fl2 st k d = d) ∧
    (fl2.getItemThrows k = true → getData fl2 st k d = d) := by
  refine ⟨?_, ?_, ?_, ?_, ?_, ?_⟩
  · intro hs hr
    have hw : fl1.setItemThrows k = false := by
      unfold saveData at hs
      split at hs
      · cases hs
      · next hne => simpa using hne
    exact getData_json fl2 _ k d v hr (saveData_same fl1 k v st hw)
  · intro hn
    exact getData_absent fl2 st k d hn
  · exact getData_absent fl2 _ k d rfl
  · intro hs
    have hw : fl1.removeItemThrows k = false := by
      unfold removeData at hs
      split at hs
      · cases hs
      · next hne => simpa using hne
    exact getData_absent fl2 _ k d (removeData_same fl1 k st hw)
  · intro hc
    simp [getData, hc]
  · intro ht
    simp [getData, ht]

/-- Witness of C24: after the streak 7 is saved the read returns 7 and not the default
0, and after the item is removed the read returns the default 0. -/
theorem C24_persistence_round_trip_witness :
    getData noFaults (saveData noFaults .STREAK 7 AsyncStorage.empty).2 .STREAK 0 = 7 ∧
    getData noFaults (removeData noFaults .STREAK (sampleStore [] 5 0)).2 .STREAK 0 = 0 :=
  have h := C24_persistence_round_trip noFaults noFaults .STREAK 7 0 "" AsyncStorage.empty
  have h2 := C24_persistence_round_trip noFaults noFaults .STREAK 7 0 "" (sampleStore [] 5 0)
  ⟨h.1 rfl rfl, h2.2.2.2.1 rfl⟩

/-- C25. Write failure does not roll back: `saveData` returns `false` exactly when the
underlying write throws, and then leaves the store as it was; it is a total function:
it raises nothing. When the write inside `handleSaveMeal`, `handleSaveEditedMeal` or
`handleDeleteMeal` fails, the in-memory meal list is the updated list all the same, and
the stored item is the old one. -/
theorem C25_write_failure_no_rollback (fl : Faults) (k : STORAGE_KEYS) (v : Val k)
    (st : AsyncStorage) (m : Meal) (i : Int) (app : App) :
    ((saveData fl k v st).1 = false ↔ fl.setItemThrows k = true) ∧
    ((saveData fl k v st).1 = true ↔ fl.setItemThrows k = false) ∧
    (fl.setItemThrows k = true → (saveData fl k v st).2 = st) ∧
    (fl.setItemThrows .MEALS = true →
      ((handleSaveMeal fl m app).home.meals = app.home.meals ++ [m] ∧
        (handleSaveMeal fl m app).storage = app.storage) ∧
      ((handleSaveEditedMeal fl m app).home.meals =
          app.home.meals.map (fun x => if x.id = m.id then m else x) ∧
        (handleSaveEditedMeal fl m app).storage = app.storage) ∧
      ((handleDeleteMeal fl i app).home.meals =
          app.home.meals.filter (fun x => x.id != i) ∧
        (handleDeleteMeal fl i app).storage = app.storage)) := by
  refine ⟨?_, ?_, ?_, ?_⟩
  · unfold saveData
    split <;> simp_all
  · unfold saveData
    split <;> simp_all
  · intro hw
    simp [saveData, hw]
  · intro hw
    have hst : ∀ (L : List Meal) (a : App), (saveData fl .MEALS L a.storage).2 = a.storage := by
      intro L a
      simp [saveData, hw]
    refine ⟨⟨rfl, hst _ _⟩, ⟨?_, hst _ _⟩, ⟨rfl, hst _ _⟩⟩
    show app.home.meals.map (fun x => if x.id == m.id then m else x) = _
    apply List.map_congr_left
    intro x _
    simp

/-- Witness of C25: with every write failing, adding a second meal shows both meals
in memory while the store keeps the list of one meal. -/
theorem C25_write_failure_no_rollback_witness :
    (handleSaveMeal failingWrites (sampleMeal 7200000)
      (loadData Calendar.utc noFaults 7200000 7200000
        (sampleApp [sampleMeal 3600000] 2 3600000))).home.meals =
      [sampleMeal 3600000, sampleMeal 7200000] ∧
    (handleSaveMeal failingWrites (sampleMeal 7200000)
      (loadData Calendar.utc noFaults 7200000 7200000
        (sampleApp [sampleMeal 3600000] 2 3600000))).storage .MEALS =
      some (Stored.json [sampleMeal 3600000]) :=
  have h := C25_write_failure_no_rollback failingWrites
    .MEALS [] AsyncStorage.empty (sampleMeal 7200000) 0
    (loadData Calendar.utc noFaults 7200000 7200000 (sampleApp [sampleMeal 3600000] 2 3600000))
  ⟨(h.2.2.2 rfl).1.1.trans (by decide), by rw [(h.2.2.2 rfl).1.2]; decide⟩

/-! ## Macro percentages -/

/-- One percentage of `calculateMacroPercentages`: when the rounded product `a` and the
rounded total `T` are within the fraction `1 / 2 ^ 50` of their exact values `A ≤ S`,
the rounded percentage is an integer within `1 / 2 + 1 / 1000` of `100 * (A / S)`. -/
theorem share_round (a T A S : Rat) (hS : 0 < S) (hA0 : 0 ≤ A) (hAS : A ≤ S)
    (ha1 : A * (1 - 1 / 2 ^ 50) ≤ a) (ha2 : a ≤ A * (1 + 1 / 2 ^ 50))
    (hT1 : S * (1 - 1 / 2 ^ 50) ≤ T) (hT2 : T ≤ S * (1 + 1 / 2 ^ 50)) :
    ∃ r : Int,
      Math.round (((Number.finite a).div (Number.finite T)).mul (Number.ofInt 100)) =
        Number.ofInt r ∧
      100 * (A / S) - 1 / 2 - 1 / 1000 < (r : Rat) ∧
      (r : Rat) ≤ 100 * (A / S) + 1 / 2 + 1 / 1000 := by
  have hXS : A / S * S = A := div_mul_cancel₀ A (ne_of_gt hS)
  have hX0 : 0 ≤ A / S := div_nonneg hA0 hS.le
  have hX1 : A / S ≤ 1 := (div_le_one hS).mpr hAS
  generalize A / S = X at hXS hX0 hX1 ⊢
  have hT0 : 0 < T := by linarith
  have ha0 : 0 ≤ a := by linarith
  have hx0 : 0 ≤ a / T := div_nonneg ha0 hT0.le
  have h3 : X * S ≤ S := by
    calc X * S ≤ 1 * S := mul_le_mul_of_nonneg_right hX1 hS.le
      _ = S := one_mul S
  have h0 : 0 ≤ X * S := mul_nonneg hX0 hS.le
  rw [← hXS] at ha1 ha2
  have hxhi : a / T ≤ X + 1 / 2 ^ 40 := by
    rw [div_le_iff₀ hT0]
    have h1 : (X + 1 / 2 ^ 40) * (S * (1 - 1 / 2 ^ 50)) ≤ (X + 1 / 2 ^ 40) * T :=
      mul_le_mul_of_nonneg_left hT1 (by positivity)
    linarith
  have hxlo : X - 1 / 2 ^ 40 ≤ a / T := by
    rw [le_div_iff₀ hT0]
    have h4 : X * T ≤ X * (S * (1 + 1 / 2 ^ 50)) := mul_le_mul_of_nonneg_left hT2 hX0
    linarith
  have hxlt : |a / T| < 2 ^ (1 : Int) := by
    rw [abs_of_nonneg hx0]
    norm_num
    linarith
  obtain ⟨q, hq, hqe⟩ := ofRat_abs_err (a / T) 1 (by norm_num) (by norm_num) hxlt
  have hpow : (2 : Rat) ^ ((1 : Int) - 54) = 1 / 2 ^ 53 := by norm_num
  rw [hpow, abs_le] at hqe
  obtain ⟨hq1, hq2⟩ := hqe
  have hylt : |q * ((100 : Int) : Rat)| < 2 ^ (7 : Int) := by
    rw [abs_lt]
    push_cast
    constructor <;> norm_num <;> linarith
  obtain ⟨s, hs, hse⟩ :=
    ofRat_abs_err (q * ((100 : Int) : Rat)) 7 (by norm_num) (by norm_num) hylt
  have hpow2 : (2 : Rat) ^ ((7 : Int) - 54) = 1 / 2 ^ 47 := by norm_num
  rw [hpow2, abs_le] at hse
  obtain ⟨hs1, hs2⟩ := hse
  push_cast at hs1 hs2
  have hf1 : ((Int.floor (s + 1 / 2) : Int) : Rat) ≤ s + 1 / 2 := Int.floor_le _
  have hf2 : s + 1 / 2 < ((Int.floor (s + 1 / 2) : Int) : Rat) + 1 := Int.lt_floor_add_one _
  refine ⟨Int.floor (s + 1 / 2), ?_, ?_, ?_⟩
  · simp only [Number.div, Number.ofInt, if_neg (ne_of_gt hT0), hq, Number.mul, hs,
      Math.round]
  · linarith
  · linarith

/-- The calorie total of `calculateMacroPercentages` in binary64 arithmetic: for
non-negative integer amounts whose exact total is below `2 ^ 1023`, the three products
and the total are finite and within the fraction `1 / 2 ^ 50` of their exact values. -/
theorem calories_number_bounds (protein carbs fat : Int) (hp : 0 ≤ protein)
    (hc : 0 ≤ carbs) (hf : 0 ≤ fat)
    (hfin : ((calculateCaloriesFromMacros protein carbs fat : Int) : Rat) < 2 ^ 1023) :
    ∃ a1 a2 a3 T : Rat,
      (Number.ofInt protein).mul (Number.ofInt 4) = .finite a1 ∧
      (Number.ofInt carbs).mul (Number.ofInt 4) = .finite a2 ∧
      (Number.ofInt fat).mul (Number.ofInt 9) = .finite a3 ∧
      calculateCaloriesFromMacrosNumber (Number.ofInt protein) (Number.ofInt carbs)
        (Number.ofInt fat) = .finite T ∧
      (protein : Rat) * 4 * (1 - 1 / 2 ^ 50) ≤ a1 ∧ a1 ≤ (protein : Rat) * 4 * (1 + 1 / 2 ^ 50) ∧
      (carbs : Rat) * 4 * (1 - 1 / 2 ^ 50) ≤ a2 ∧ a2 ≤ (carbs : Rat) * 4 * (1 + 1 / 2 ^ 50) ∧
      (fat : Rat) * 9 * (1 - 1 / 2 ^ 50) ≤ a3 ∧ a3 ≤ (fat : Rat) * 9 * (1 + 1 / 2 ^ 50) ∧
      ((protein : Rat) * 4 + (carbs : Rat) * 4 + (fat : Rat) * 9) * (1 - 1 / 2 ^ 50) ≤ T ∧
      T ≤ ((protein : Rat) * 4 + (carbs : Rat) * 4 + (fat : Rat) * 9) * (1 + 1 / 2 ^ 50) := by
  have hP : (protein : Rat) = 0 ∨ (1 : Rat) ≤ (protein : Rat) := by
    rcases (show protein = 0 ∨ 1 ≤ protein by omega) with h | h
    · exact Or.inl (by exact_mod_cast h)
    · exact Or.inr (by exact_mod_cast h)
  have hC : (carbs : Rat) = 0 ∨ (1 : Rat) ≤ (carbs : Rat) := by
    rcases (show carbs = 0 ∨ 1 ≤ carbs by omega) with h | h
    · exact Or.inl (by exact_mod_cast h)
    · exact Or.inr (by exact_mod_cast h)
  have hF : (fat : Rat) = 0 ∨ (1 : Rat) ≤ (fat : Rat) := by
    rcases (show fat = 0 ∨ 1 ≤ fat by omega) with h | h
    · exact Or.inl (by exact_mod_cast h)
    · exact Or.inr (by exact_mod_cast h)
  have hP0 : (0 : Rat) ≤ (protein : Rat) := by exact_mod_cast hp
  have hC0 : (0 : Rat) ≤ (carbs : Rat) := by exact_mod_cast hc
  have hF0 : (0 : Rat) ≤ (fat : Rat) := by exact_mod_cast hf
  have hS : (protein : Rat) * 4 + (carbs : Rat) * 4 + (fat : Rat) * 9 < 2 ^ 1023 := by
    unfold calculateCaloriesFromMacros at hfin
    push_cast at hfin
    exact hfin
  have hnum : (2 : Rat) ^ 1023 * (1 + 1 / 2 ^ 53) * (1 + 1 / 2 ^ 53) < 2 ^ 1024 - 2 ^ 970 := by
    norm_num
  obtain ⟨a1, h1, hz1, hlo1, hhi1⟩ :=
    ofRat_rel_err ((protein : Rat) * ((4 : Int) : Rat))
      (by rcases hP with h | h
          · exact Or.inl (by rw [h, zero_mul])
          · exact Or.inr (by push_cast; linarith))
      (by push_cast; linarith)
  obtain ⟨a2, h2, hz2, hlo2, hhi2⟩ :=
    ofRat_rel_err ((carbs : Rat) * ((4 : Int) : Rat))
      (by rcases hC with h | h
          · exact Or.inl (by rw [h, zero_mul])
          · exact Or.inr (by push_cast; linarith))
      (by push_cast; linarith)
  obtain ⟨a3, h3, hz3, hlo3, hhi3⟩ :=
    ofRat_rel_err ((fat : Rat) * ((9 : Int) : Rat))
      (by rcases hF with h | h
          · exact Or.inl (by rw [h, zero_mul])
          · exact Or.inr (by push_cast; linarith))
      (by push_cast; linarith)
  push_cast at hlo1 hhi1 hlo2 hhi2 hlo3 hhi3
  have ha1 : 0 ≤ a1 := by rcases hz1 with h | h <;> linarith
  have ha2 : 0 ≤ a2 := by rcases hz2 with h | h <;> linarith
  have ha3 : 0 ≤ a3 := by rcases hz3 with h | h <;> linarith
  obtain ⟨b, hb, hzb, hlob, hhib⟩ :=
    ofRat_rel_err (a1 + a2)
      (by rcases hz1 with h | h
          · rcases hz2 with h' | h'
            · exact Or.inl (by rw [h, h', add_zero])
            · exact Or.inr (by linarith)
          · exact Or.inr (by linarith))
      (by linarith)
  have hb0 : 0 ≤ b := by rcases hzb with h | h <;> linarith
  obtain ⟨T, hT, -, hloT, hhiT⟩ :=
    ofRat_rel_err (b + a3)
      (by rcases hzb with h | h
          · rcases hz3 with h' | h'
            · exact Or.inl (by rw [h, h', add_zero])
            · exact Or.inr (by linarith)
          · exact Or.inr (by linarith))
      (by linarith)
  refine ⟨a1, a2, a3, T, ?_, ?_, ?_, ?_, by linarith, by linarith, by linarith,
    by linarith, by linarith, by linarith, by linarith, by linarith⟩
  · simp only [Number.ofInt, Number.mul, h1]
  · simp only [Number.ofInt, Number.mul, h2]
  · simp only [Number.ofInt, Number.mul, h3]
  · simp only [calculateCaloriesFromMacrosNumber, Number.ofInt, Number.mul, h1, h2, h3,
      Number.add, hb, hT]

/-- The macro percentages of 17 g protein and 23 g carbs: the carbs share 92 / 160
rounds below 57.5 in binary64 arithmetic, so the result is 43, 57, 0. -/
theorem calculateMacroPercentages_17_23_0 :
    calculateMacroPercentages 17 23 0 =
      { protein := Number.ofInt 43, carbs := Number.ofInt 57, fat := Number.ofInt 0 } := by
  have ha1 : Number.ofRat (((17 : Int) : Rat) * ((4 : Int) : Rat)) = .finite 68 :=
    ofRat_eq_of _ _ 6 (68 * 2 ^ 46) (by rw [le_abs]; norm_num)
      (by rw [abs_lt]; constructor <;> norm_num) (by norm_num) (by norm_num)
      (by rw [abs_lt]; constructor <;> norm_num) (by norm_num)
  have ha2 : Number.ofRat (((23 : Int) : Rat) * ((4 : Int) : Rat)) = .finite 92 :=
    ofRat_eq_of _ _ 6 (92 * 2 ^ 46) (by rw [le_abs]; norm_num)
      (by rw [abs_lt]; constructor <;> norm_num) (by norm_num) (by norm_num)
      (by rw [abs_lt]; constructor <;> norm_num) (by norm_num)
  have ha3 : Number.ofRat (((0 : Int) : Rat) * ((9 : Int) : Rat)) = .finite 0 := by
    rw [show ((0 : Int) : Rat) * ((9 : Int) : Rat) = 0 by norm_num]
    exact ofRat_zero
  have hb : Number.ofRat ((68 : Rat) + 92) = .finite 160 :=
    ofRat_eq_of _ _ 7 (160 * 2 ^ 45) (by rw [le_abs]; norm_num)
      (by rw [abs_lt]; constructor <;> norm_num) (by norm_num) (by norm_num)
      (by rw [abs_lt]; constructor <;> norm_num) (by norm_num)
  have hT : Number.ofRat ((160 : Rat) + 0) = .finite 160 :=
    ofRat_eq_of _ _ 7 (160 * 2 ^ 45) (by rw [le_abs]; norm_num)
      (by rw [abs_lt]; constructor <;> norm_num) (by norm_num) (by norm_num)
      (by rw [abs_lt]; constructor <;> norm_num) (by norm_num)
  have hq1 : Number.ofRat ((68 : Rat) / 160) = .finite (7656119366529843 / 2 ^ 54) :=
    ofRat_eq_of _ _ (-2) 7656119366529843 (by rw [le_abs]; norm_num)
      (by rw [abs_lt]; constructor <;> norm_num) (by norm_num) (by norm_num)
      (by rw [abs_lt]; constructor <;> norm_num) (by norm_num)
  have hs1 : Number.ofRat ((7656119366529843 / 2 ^ 54 : Rat) * ((100 : Int) : Rat)) =
      .finite (85 / 2) :=
    ofRat_eq_of _ _ 5 5981343255101440 (by rw [le_abs]; norm_num)
      (by rw [abs_lt]; constructor <;> norm_num) (by norm_num) (by norm_num)
      (by rw [abs_lt]; constructor <;> norm_num) (by norm_num)
  have hq2 : Number.ofRat ((92 : Rat) / 160) = .finite (5179139571476070 / 2 ^ 53) :=
    ofRat_eq_of _ _ (-1) 5179139571476070 (by rw [le_abs]; norm_num)
      (by rw [abs_lt]; constructor <;> norm_num) (by norm_num) (by norm_num)
      (by rw [abs_lt]; constructor <;> norm_num) (by norm_num)
  have hs2 : Number.ofRat ((5179139571476070 / 2 ^ 53 : Rat) * ((100 : Int) : Rat)) =
      .finite (8092405580431359 / 2 ^ 47) :=
    ofRat_eq_of _ _ 5 8092405580431359 (by rw [le_abs]; norm_num)
      (by rw [abs_lt]; constructor <;> norm_num) (by norm_num) (by norm_num)
      (by rw [abs_lt]; constructor <;> norm_num) (by norm_num)
  have hq3 : Number.ofRat ((0 : Rat) / 160) = .finite 0 := by
    rw [zero_div]
    exact ofRat_zero
  have hs3 : Number.ofRat ((0 : Rat) * ((100 : Int) : Rat)) = .finite 0 := by
    rw [zero_mul]
    exact ofRat_zero
  have hf1 : Int.floor ((85 / 2 : Rat) + 1 / 2) = 43 := by
    rw [Int.floor_eq_iff]
    norm_num
  have hf2 : Int.floor ((8092405580431359 / 2 ^ 47 : Rat) + 1 / 2) = 57 := by
    rw [Int.floor_eq_iff]
    norm_num
  have hf3 : Int.floor ((0 : Rat) + 1 / 2) = 0 := by
    rw [Int.floor_eq_iff]
    norm_num
  have h160 : (160 : Rat) ≠ 0 := by norm_num
  have hne : ¬ (Number.finite (160 : Rat) = Number.finite (((0 : Int) : Rat))) := by
    intro h
    simp only [Number.finite.injEq] at h
    norm_num at h
  unfold calculateMacroPercentages
  simp only [calculateCaloriesFromMacrosNumber, Number.ofInt, Number.mul, ha1, ha2, ha3,
    Number.add, hb, hT, if_neg hne, Number.div, if_neg h160, hq1, hq2, hq3, hs1, hs2, hs3,
    Math.round, hf1, hf2, hf3]

/-- While the calorie total stays below `2 ^ 53`, the binary64 evaluation of
`calculateCaloriesFromMacros` is exact: it is the integer of the formula. -/
theorem calculateCaloriesFromMacrosNumber_eq (protein carbs fat : Int) (hp : 0 ≤ protein)
    (hc : 0 ≤ carbs) (hf : 0 ≤ fat)
    (h : calculateCaloriesFromMacros protein carbs fat < 2 ^ 53) :
    calculateCaloriesFromMacrosNumber (Number.ofInt protein) (Number.ofInt carbs)
        (Number.ofInt fat) =
      Number.ofInt (calculateCaloriesFromMacros protein carbs fat) := by
  unfold calculateCaloriesFromMacros at h
  have e1 : Number.ofRat ((protein : Rat) * ((4 : Int) : Rat)) =
      .finite (((protein * 4 : Int) : Rat)) := by
    have := ofRat_intCast (protein * 4) (by omega) (by omega)
    rw [← this]
    push_cast
    rfl
  have e2 : Number.ofRat ((carbs : Rat) * ((4 : Int) : Rat)) =
      .finite (((carbs * 4 : Int) : Rat)) := by
    have := ofRat_intCast (carbs * 4) (by omega) (by omega)
    rw [← this]
    push_cast
    rfl
  have e3 : Number.ofRat ((fat : Rat) * ((9 : Int) : Rat)) =
      .finite (((fat * 9 : Int) : Rat)) := by
    have := ofRat_intCast (fat * 9) (by omega) (by omega)
    rw [← this]
    push_cast
    rfl
  have e4 : Number.ofRat (((protein * 4 : Int) : Rat) + ((carbs * 4 : Int) : Rat)) =
      .finite (((protein * 4 + carbs * 4 : Int) : Rat)) := by
    have := ofRat_intCast (protein * 4 + carbs * 4) (by omega) (by omega)
    rw [← this]
    push_cast
    rfl
  have e5 : Number.ofRat (((protein * 4 + carbs * 4 : Int) : Rat) + ((fat * 9 : Int) : Rat)) =
      .finite (((protein * 4 + carbs * 4 + fat * 9 : Int) : Rat)) := by
    have := ofRat_intCast (protein * 4 + carbs * 4 + fat * 9) (by omega) (by omega)
    rw [← this]
    push_cast
    rfl
  simp only [calculateCaloriesFromMacrosNumber, calculateCaloriesFromMacros, Number.ofInt,
    Number.mul, Number.add, e1, e2, e3, e4, e5]

/-- Past the binary64 range the total is `Infinity` and the share of the overflowing
amount is `NaN`: with `2 ^ 1023` g protein alone, the product by 4 overflows. -/
theorem calculateMacroPercentages_overflow (protein : Int)
    (hprotein : (protein : Rat) = 2 ^ 1023) :
    calculateMacroPercentages protein 0 0 =
      { protein := .nan, carbs := Number.ofInt 0, fat := Number.ofInt 0 } := by
  have hx : (protein : Rat) * ((4 : Int) : Rat) = 2 ^ (1025 : Int) := by
    rw [hprotein]
    norm_num
  have hx0 : (2 : Rat) ^ (1025 : Int) ≠ 0 := by positivity
  have hpos : (0 : Rat) < 2 ^ (1025 : Int) := by positivity
  have hlog : Int.log 2 |(2 : Rat) ^ (1025 : Int)| = 1025 := by
    rw [abs_of_pos hpos]
    have := Int.log_zpow (R := Rat) (b := 2) (by norm_num) 1025
    exact_mod_cast this
  have hsp : spacing ((2 : Rat) ^ (1025 : Int)) = 2 ^ (973 : Int) := by
    rw [spacing_eq _ (by rw [hlog]; norm_num), hlog]
    norm_num
  have hr : roundHalfEven ((2 : Rat) ^ (1025 : Int) / spacing ((2 : Rat) ^ (1025 : Int))) =
      2 ^ 52 := by
    rw [hsp]
    apply roundHalfEven_eq
    norm_num
  have ha1 : Number.ofRat ((protein : Rat) * ((4 : Int) : Rat)) = .posInf := by
    rw [hx]
    unfold Number.ofRat
    rw [if_neg hx0]
    simp only []
    rw [hr, hsp, if_pos (by norm_num), if_pos hpos]
  have h0 : Number.ofRat (((0 : Int) : Rat) * ((4 : Int) : Rat)) = .finite 0 := by
    rw [show ((0 : Int) : Rat) * ((4 : Int) : Rat) = 0 by norm_num]
    exact ofRat_zero
  have h9 : Number.ofRat (((0 : Int) : Rat) * ((9 : Int) : Rat)) = .finite 0 := by
    rw [show ((0 : Int) : Rat) * ((9 : Int) : Rat) = 0 by norm_num]
    exact ofRat_zero
  have h100 : Number.ofRat ((0 : Rat) * ((100 : Int) : Rat)) = .finite 0 := by
    rw [zero_mul]
    exact ofRat_zero
  have hf : Int.floor ((0 : Rat) + 1 / 2) = 0 := by
    rw [Int.floor_eq_iff]
    norm_num
  have hne : ¬ (Number.posInf = Number.finite (((0 : Int) : Rat))) := by
    intro h
    cases h
  unfold calculateMacroPercentages
  simp only [calculateCaloriesFromMacrosNumber, Number.ofInt, Number.mul, ha1, h0, h9,
    Number.add, if_neg hne, Number.div, h100, Math.round, hf]

/-- C29. Macro percentages are a near-partition: for non-negative integer amounts of
protein, carbs and fat, not all zero, whose calorie total is below `2 ^ 1023` (so that
no product and no sum overflows), each component of `calculateMacroPercentages` is an
integer in 0..100 and the three components sum to 99, 100 or 101; when all three
amounts are zero the result is `{0, 0, 0}`. -/
theorem C29_macro_percentages (protein carbs fat : Int) (hp : 0 ≤ protein)
    (hc : 0 ≤ carbs) (hf : 0 ≤ fat)
    (hfin : ((calculateCaloriesFromMacros protein carbs fat : Int) : Rat) < 2 ^ 1023) :
    (¬ (protein = 0 ∧ carbs = 0 ∧ fat = 0) →
      ∃ p c f : Int,
        calculateMacroPercentages protein carbs fat =
          { protein := Number.ofInt p, carbs := Number.ofInt c, fat := Number.ofInt f } ∧
        (0 ≤ p ∧ p ≤ 100) ∧ (0 ≤ c ∧ c ≤ 100) ∧ (0 ≤ f ∧ f ≤ 100) ∧
        (p + c + f = 99 ∨ p + c + f = 100 ∨ p + c + f = 101)) ∧
    calculateMacroPercentages 0 0 0 =
      { protein := Number.ofInt 0, carbs := Number.ofInt 0, fat := Number.ofInt 0 } := by
  constructor
  · intro hne
    obtain ⟨a1, a2, a3, T, h1, h2, h3, hT, hlo1, hhi1, hlo2, hhi2, hlo3, hhi3, hloT, hhiT⟩ :=
      calories_number_bounds protein carbs fat hp hc hf hfin
    have hP0 : (0 : Rat) ≤ (protein : Rat) := by exact_mod_cast hp
    have hC0 : (0 : Rat) ≤ (carbs : Rat) := by exact_mod_cast hc
    have hF0 : (0 : Rat) ≤ (fat : Rat) := by exact_mod_cast hf
    have hSint : 1 ≤ protein * 4 + carbs * 4 + fat * 9 := by omega
    have hS1 : (1 : Rat) ≤ (protein : Rat) * 4 + (carbs : Rat) * 4 + (fat : Rat) * 9 := by
      exact_mod_cast hSint
    generalize hSdef : (protein : Rat) * 4 + (carbs : Rat) * 4 + (fat : Rat) * 9 = S
      at hloT hhiT hS1
    have hS0 : 0 < S := by linarith
    have hT0 : T ≠ 0 := by
      have : 0 < T := by linarith
      exact ne_of_gt this
    obtain ⟨p, hp1, hp2, hp3⟩ :=
      share_round a1 T ((protein : Rat) * 4) S hS0 (by linarith) (by linarith)
        hlo1 hhi1 hloT hhiT
    obtain ⟨c, hc1, hc2, hc3⟩ :=
      share_round a2 T ((carbs : Rat) * 4) S hS0 (by linarith) (by linarith)
        hlo2 hhi2 hloT hhiT
    obtain ⟨f, hf1, hf2, hf3⟩ :=
      share_round a3 T ((fat : Rat) * 9) S hS0 (by linarith) (by linarith)
        hlo3 hhi3 hloT hhiT
    have hsum : (protein : Rat) * 4 / S + (carbs : Rat) * 4 / S + (fat : Rat) * 9 / S = 1 := by
      rw [← add_div, ← add_div, hSdef]
      exact div_self (ne_of_gt hS0)
    have hX1 : 0 ≤ (protein : Rat) * 4 / S := div_nonneg (by linarith) hS0.le
    have hX2 : 0 ≤ (carbs : Rat) * 4 / S := div_nonneg (by linarith) hS0.le
    have hX3 : 0 ≤ (fat : Rat) * 9 / S := div_nonneg (by linarith) hS0.le
    refine ⟨p, c, f, ?_, ?_, ?_, ?_, ?_⟩
    · unfold calculateMacroPercentages
      simp only [hT]
      rw [if_neg (by
        intro h
        simp only [Number.ofInt, Number.finite.injEq] at h
        exact hT0 (by exact_mod_cast h))]
      rw [h1, h2, h3, hp1, hc1, hf1]
    · have l : ((-1 : Int) : Rat) < (p : Rat) := by push_cast; linarith
      have u : (p : Rat) < ((101 : Int) : Rat) := by push_cast; linarith
      have l2 := Int.cast_lt.mp l
      have u2 := Int.cast_lt.mp u
      omega
    · have l : ((-1 : Int) : Rat) < (c : Rat) := by push_cast; linarith
      have u : (c : Rat) < ((101 : Int) : Rat) := by push_cast; linarith
      have l2 := Int.cast_lt.mp l
      have u2 := Int.cast_lt.mp u
      omega
    · have l : ((-1 : Int) : Rat) < (f : Rat) := by push_cast; linarith
      have u : (f : Rat) < ((101 : Int) : Rat) := by push_cast; linarith
      have l2 := Int.cast_lt.mp l
      have u2 := Int.cast_lt.mp u
      omega
    · have l : ((98 : Int) : Rat) < ((p + c + f : Int) : Rat) := by push_cast; linarith
      have u : ((p + c + f : Int) : Rat) < ((102 : Int) : Rat) := by push_cast; linarith
      have l2 := Int.cast_lt.mp l
      have u2 := Int.cast_lt.mp u
      omega
  · have h0 : Number.ofRat 0 = .finite 0 := by simp [Number.ofRat]
    simp [calculateMacroPercentages, calculateCaloriesFromMacrosNumber, Number.ofInt,
      Number.mul, Number.add, h0]

/-- Witness of C29: for 17 g protein, 23 g carbs and no fat the three percentages are
integers in 0..100 that add up to 99, 100 or 101. -/
theorem C29_macro_percentages_witness :
    ∃ p c f : Int,
      calculateMacroPercentages 17 23 0 =
        { protein := Number.ofInt p, carbs := Number.ofInt c, fat := Number.ofInt f } ∧
      (0 ≤ p ∧ p ≤ 100) ∧ (0 ≤ c ∧ c ≤ 100) ∧ (0 ≤ f ∧ f ≤ 100) ∧
      (p + c + f = 99 ∨ p + c + f = 100 ∨ p + c + f = 101) :=
  (C29_macro_percentages 17 23 0 (by decide) (by decide) (by decide)
    (by norm_num [calculateCaloriesFromMacros])).1 (by decide)

/-! ## Sign-in -/

/-- C30. Sign-in and the identity provider: for the email `test@repright.com` and the
password `test123`, `signIn` returns success with the fixed user `test-user-123`, makes
no call to the provider and gives the same run whatever the provider; for every other
pair it calls the provider once with that pair and returns success exactly when the
call resolves. -/
theorem C30_sign_in (provider provider2 : String → String → ProviderAnswer) (fl : Faults)
    (now : Instant) (email password : String) (user : Option User) (st : AsyncStorage) :
    (signIn provider fl now "test@repright.com" "test123" user st).result =
      { success := true, user := some (testUser now), error := none } ∧
    (testUser now).uid = "test-user-123" ∧
    (signIn provider fl now "test@repright.com" "test123" user st).providerCalls = [] ∧
    signIn provider fl now "test@repright.com" "test123" user st =
      signIn provider2 fl now "test@repright.com" "test123" user st ∧
    (¬ (email = "test@repright.com" ∧ password = "test123") →
      ((signIn provider fl now email password user st).result.success = true ↔
        ∃ firebaseUser, provider email password = ProviderAnswer.resolved firebaseUser) ∧
      (signIn provider fl now email password user st).providerCalls = [(email, password)]) := by
  refine ⟨rfl, rfl, rfl, rfl, ?_⟩
  intro hne
  unfold signIn
  rw [if_neg hne]
  cases hp : provider email password with
  | resolved u => simp
  | rejected code => simp

/-- Witness of C30: with a provider that knows one account, that account signs in, a
wrong password does not, and the test credential signs in although the provider would
reject it. -/
theorem C30_sign_in_witness :
    (signIn oneAccountProvider noFaults 0 "ana@example.com" "secret1" none
      AsyncStorage.empty).result.success = true ∧
    (signIn oneAccountProvider noFaults 0 "ana@example.com" "secret2" none
      AsyncStorage.empty).result.success = false ∧
    (signIn oneAccountProvider noFaults 0 "test@repright.com" "test123" none
      AsyncStorage.empty).result.success = true ∧
    oneAccountProvider "test@repright.com" "test123" =
      ProviderAnswer.rejected "auth/wrong-password" :=
  have h := C30_sign_in oneAccountProvider rejectingProvider noFaults 0 "ana@example.com"
    "secret1" none AsyncStorage.empty
  ⟨((h.2.2.2.2 (by decide)).1).mpr ⟨_, rfl⟩, by decide, congrArg SignInResult.success h.1,
    by decide⟩

/-! ## Regular expression matching -/

/-- An expression is nullable exactly when it matches the empty input. -/
theorem RegExp.nullable_iff (r : RegExp) : r.nullable = true ↔ r.Matches [] := by
  induction r with
  | never => simp [RegExp.nullable, RegExp.Matches]
  | empty => simp [RegExp.nullable, RegExp.Matches]
  | charClass p => simp [RegExp.nullable, RegExp.Matches]
  | seq r s ihr ihs =>
    simp only [RegExp.nullable, RegExp.Matches, Bool.and_eq_true, ihr, ihs]
    constructor
    · rintro ⟨h1, h2⟩
      exact ⟨[], [], rfl, h1, h2⟩
    · rintro ⟨u, v, huv, h1, h2⟩
      have hnil := List.append_eq_nil.mp huv.symm
      rw [hnil.1] at h1
      rw [hnil.2] at h2
      exact ⟨h1, h2⟩
  | alt r s ihr ihs =>
    simp only [RegExp.nullable, RegExp.Matches, Bool.or_eq_true, ihr, ihs]
  | star r _ =>
    simp only [RegExp.nullable, RegExp.Matches, true_iff]
    exact ⟨[], rfl, fun u hu => by cases hu⟩

/-- A repetition that matches a non-empty input starts with a non-empty piece. -/
theorem RegExp.star_cons (r : RegExp) (c : Char) (cs : List Char) :
    ∀ pieces : List (List Char), c :: cs = pieces.flatten → (∀ u ∈ pieces, r.Matches u) →
      ∃ u v, cs = u ++ v ∧ r.Matches (c :: u) ∧ (RegExp.star r).Matches v := by
  intro pieces
  induction pieces with
  | nil =>
    intro h
    cases h
  | cons piece rest ih =>
    intro h hall
    cases piece with
    | nil =>
      apply ih
      · simpa using h
      · intro u hu
        exact hall u (List.mem_cons_of_mem _ hu)
    | cons d ds =>
      rw [List.flatten_cons, List.cons_append] at h
      injection h with hc hcs
      subst hc
      refine ⟨ds, rest.flatten, hcs, hall _ (List.mem_cons_self _ _), rest, rfl, ?_⟩
      intro u hu
      exact hall u (List.mem_cons_of_mem _ hu)

/-- The derivative matches exactly the rests of the inputs that start with `c`. -/
theorem RegExp.deriv_iff (c : Char) (r : RegExp) :
    ∀ cs, (r.deriv c).Matches cs ↔ r.Matches (c :: cs) := by
  induction r with
  | never => intro cs; simp [RegExp.deriv, RegExp.Matches]
  | empty => intro cs; simp [RegExp.deriv, RegExp.Matches]
  | charClass p =>
    intro cs
    by_cases hp : p c = true
    · simp only [RegExp.deriv, hp, if_true, RegExp.Matches]
      constructor
      · intro h
        exact ⟨c, by rw [h], hp⟩
      · rintro ⟨d, hd, _⟩
        injection hd with _ hcs
    · simp only [RegExp.deriv, hp, RegExp.Matches, false_iff]
      rintro ⟨d, hd, hpd⟩
      injection hd with hc _
      subst hc
      exact hp hpd
  | seq r s ihr ihs =>
    intro cs
    have hsplit : (RegExp.seq r s).Matches (c :: cs) ↔
        (r.Matches [] ∧ s.Matches (c :: cs)) ∨
          ∃ u v, cs = u ++ v ∧ r.Matches (c :: u) ∧ s.Matches v := by
      simp only [RegExp.Matches]
      constructor
      · rintro ⟨u, v, huv, hr, hs⟩
        cases u with
        | nil =>
          left
          rw [List.nil_append] at huv
          rw [← huv] at hs
          exact ⟨hr, hs⟩
        | cons d ds =>
          right
          rw [List.cons_append] at huv
          injection huv with hc hcs
          subst hc
          exact ⟨ds, v, hcs, hr, hs⟩
      · rintro (⟨hr, hs⟩ | ⟨u, v, hcs, hr, hs⟩)
        · exact ⟨[], c :: cs, rfl, hr, hs⟩
        · exact ⟨c :: u, v, by rw [hcs]; rfl, hr, hs⟩
    have hleft : (RegExp.seq (r.deriv c) s).Matches cs ↔
        ∃ u v, cs = u ++ v ∧ r.Matches (c :: u) ∧ s.Matches v := by
      simp only [RegExp.Matches]
      constructor
      · rintro ⟨u, v, hcs, hr, hs⟩
        exact ⟨u, v, hcs, (ihr u).mp hr, hs⟩
      · rintro ⟨u, v, hcs, hr, hs⟩
        exact ⟨u, v, hcs, (ihr u).mpr hr, hs⟩
    rw [hsplit]
    by_cases hn : r.nullable = true
    · have hdef : (RegExp.seq r s).deriv c =
          RegExp.alt (RegExp.seq (r.deriv c) s) (s.deriv c) := by
        simp [RegExp.deriv, hn]
      rw [hdef]
      show (RegExp.seq (r.deriv c) s).Matches cs ∨ (s.deriv c).Matches cs ↔ _
      rw [hleft, ihs cs]
      constructor
      · rintro (h | h)
        · exact Or.inr h
        · exact Or.inl ⟨(RegExp.nullable_iff r).mp hn, h⟩
      · rintro (⟨_, h⟩ | h)
        · exact Or.inr h
        · exact Or.inl h
    · have hdef : (RegExp.seq r s).deriv c = RegExp.seq (r.deriv c) s := by
        simp [RegExp.deriv, hn]
      rw [hdef, hleft]
      constructor
      · intro h
        exact Or.inr h
      · rintro (⟨hr, _⟩ | h)
        · exact absurd ((RegExp.nullable_iff r).mpr hr) hn
        · exact h
  | alt r s ihr ihs =>
    intro cs
    simp only [RegExp.deriv, RegExp.Matches, ihr cs, ihs cs]
  | star r ihr =>
    intro cs
    show (RegExp.seq (r.deriv c) (RegExp.star r)).Matches cs ↔ _
    constructor
    · rintro ⟨u, v, hcs, hr, pieces, hv, hall⟩
      refine ⟨(c :: u) :: pieces, ?_, ?_⟩
      · rw [List.flatten_cons, hcs, hv]
        rfl
      · intro w hw
        rcases List.mem_cons.mp hw with rfl | hw
        · exact (ihr u).mp hr
        · exact hall w hw
    · rintro ⟨pieces, hflat, hall⟩
      obtain ⟨u, v, hcs, hr, hv⟩ := RegExp.star_cons r c cs pieces hflat hall
      exact ⟨u, v, hcs, (ihr u).mpr hr, hv⟩

/-- The matcher accepts exactly the inputs that the expression matches. -/
theorem RegExp.fullMatch_iff (cs : List Char) :
    ∀ r : RegExp, r.fullMatch cs = true ↔ r.Matches cs := by
  induction cs with
  | nil =>
    intro r
    exact RegExp.nullable_iff r
  | cons c cs ih =>
    intro r
    show (r.deriv c).fullMatch cs = true ↔ _
    rw [ih, RegExp.deriv_iff]

/-- A repeated class matches exactly the inputs whose characters are all in the
class. -/
theorem RegExp.star_class_iff (p : Char → Bool) (cs : List Char) :
    (RegExp.star (RegExp.charClass p)).Matches cs ↔ ∀ c ∈ cs, p c = true := by
  constructor
  · rintro ⟨pieces, hflat, hall⟩ c hc
    rw [hflat, List.mem_flatten] at hc
    obtain ⟨piece, hpiece, hmem⟩ := hc
    obtain ⟨d, hd, hpd⟩ := hall piece hpiece
    rw [hd, List.mem_singleton] at hmem
    rw [hmem]
    exact hpd
  · intro hall
    refine ⟨cs.map (fun c => [c]), ?_, ?_⟩
    · clear hall
      induction cs with
      | nil => rfl
      | cons c cs ih =>
        rw [List.map_cons, List.flatten_cons, ← ih]
        rfl
    · intro u hu
      obtain ⟨c, hc, rfl⟩ := List.mem_map.mp hu
      exact ⟨c, rfl, hall c hc⟩

/-- A class under `+` matches exactly the non-empty inputs whose characters are all in
the class. -/
theorem RegExp.plus_class_iff (p : Char → Bool) (cs : List Char) :
    (RegExp.plus (RegExp.charClass p)).Matches cs ↔ cs ≠ [] ∧ ∀ c ∈ cs, p c = true := by
  show (RegExp.seq (RegExp.charClass p) (RegExp.star (RegExp.charClass p))).Matches cs ↔ _
  constructor
  · rintro ⟨u, v, hcs, ⟨d, hd, hpd⟩, hv⟩
    rw [RegExp.star_class_iff] at hv
    rw [hcs, hd]
    refine ⟨by simp, ?_⟩
    intro c hc
    rcases List.mem_append.mp hc with h | h
    · rw [List.mem_singleton] at h
      rw [h]
      exact hpd
    · exact hv c h
  · rintro ⟨hne, hall⟩
    cases cs with
    | nil => exact absurd rfl hne
    | cons d ds =>
      refine ⟨[d], ds, rfl, ⟨d, rfl, hall d (List.mem_cons_self _ _)⟩, ?_⟩
      rw [RegExp.star_class_iff]
      intro c hc
      exact hall c (List.mem_cons_of_mem _ hc)

/-- The class of one character matches exactly the input made of that character. -/
theorem RegExp.char_iff (a : Char) (cs : List Char) :
    (RegExp.charClass (fun c => c == a)).Matches cs ↔ cs = [a] := by
  constructor
  · rintro ⟨d, hd, hda⟩
    rw [hd, eq_of_beq hda]
  · intro h
    exact ⟨a, h, by simp⟩

/-- The inputs that `emailRegex` matches: three non-empty runs of characters that are
neither white space nor at signs, the first two separated by an at sign and the last two
by a dot. -/
theorem emailRegex_iff (cs : List Char) :
    emailRegex.Matches cs ↔
      ∃ u v w, cs = u ++ '@' :: (v ++ '.' :: w) ∧
        (u ≠ [] ∧ ∀ c ∈ u, notSpaceNorAt c = true) ∧
        (v ≠ [] ∧ ∀ c ∈ v, notSpaceNorAt c = true) ∧
        (w ≠ [] ∧ ∀ c ∈ w, notSpaceNorAt c = true) := by
  unfold emailRegex
  constructor
  · rintro ⟨u, r1, h1, hu, a, r2, h2, ha, v, r3, h3, hv, d, w, h4, hd, hw⟩
    rw [RegExp.plus_class_iff] at hu hv hw
    rw [RegExp.char_iff] at ha hd
    refine ⟨u, v, w, ?_, hu, hv, hw⟩
    rw [h1, h2, h3, h4, ha, hd]
    rfl
  · rintro ⟨u, v, w, hcs, hu, hv, hw⟩
    refine ⟨u, '@' :: (v ++ '.' :: w), hcs, (RegExp.plus_class_iff _ _).mpr hu,
      ['@'], v ++ '.' :: w, rfl, (RegExp.char_iff _ _).mpr rfl,
      v, '.' :: w, rfl, (RegExp.plus_class_iff _ _).mpr hv,
      ['.'], w, rfl, (RegExp.char_iff _ _).mpr rfl, (RegExp.plus_class_iff _ _).mpr hw⟩

/-- Membership in the class `[^\s@]`. -/
theorem notSpaceNorAt_iff (c : Char) :
    notSpaceNorAt c = true ↔ isStrWhiteSpaceChar c = false ∧ c ≠ '@' := by
  simp [notSpaceNorAt]

/-- The trimmed text is empty exactly when every character is white space. -/
theorem trimChars_eq_nil_iff (cs : List Char) :
    trimChars cs = [] ↔ ∀ c ∈ cs, isStrWhiteSpaceChar c = true := by
  unfold trimChars
  rw [List.reverse_eq_nil_iff, List.dropWhile_eq_nil_iff]
  constructor
  · intro h
    have hdrop : cs.dropWhile isStrWhiteSpaceChar = [] := by
      cases hd : cs.dropWhile isStrWhiteSpaceChar with
      | nil => rfl
      | cons d ds =>
        have hnot : isStrWhiteSpaceChar d = false := by
          have hh := List.head_dropWhile_not isStrWhiteSpaceChar cs (by rw [hd]; simp)
          simpa [hd] using hh
        have hyes := h d (by rw [List.mem_reverse, hd]; exact List.mem_cons_self _ _)
        rw [hnot] at hyes
        cases hyes
    exact List.dropWhile_eq_nil_iff.mp hdrop
  · intro h c hc
    rw [List.mem_reverse] at hc
    exact h c ((List.dropWhile_sublist _).subset hc)

/-! ## Email format -/

/-- A string is empty exactly when it has no characters. -/
theorem string_eq_empty_iff (text : String) : text = "" ↔ text.toList = [] := by
  rw [← String.toList_inj]
  rfl

/-- The email validator accepts exactly the strings that `emailRegex` matches. -/
theorem validateEmail_isValid_iff (e : String) :
    (validateEmail e).isValid = true ↔ emailRegex.Matches e.toList := by
  rw [← RegExp.fullMatch_iff]
  unfold validateEmail
  by_cases h1 : (e = "" ∨ trimChars e.toList = [])
  · have hleft : (decide (e = "") || decide (trimChars e.toList = [])) = true := by
      simpa using h1
    rw [if_pos hleft]
    constructor
    · intro h
      cases h
    · intro hm
      exfalso
      rw [RegExp.fullMatch_iff, emailRegex_iff] at hm
      obtain ⟨u, v, w, hcs, ⟨hune, hu⟩, _, _⟩ := hm
      have hall : ∀ c ∈ e.toList, isStrWhiteSpaceChar c = true := by
        rcases h1 with h | h
        · rw [(string_eq_empty_iff e).mp h]
          intro c hc
          cases hc
        · exact (trimChars_eq_nil_iff _).mp h
      cases u with
      | nil => exact hune rfl
      | cons d ds =>
        have hd := ((notSpaceNorAt_iff d).mp (hu d (List.mem_cons_self _ _))).1
        have hd2 := hall d (by rw [hcs]; simp)
        rw [hd] at hd2
        cases hd2
  · have hleft : ¬ ((decide (e = "") || decide (trimChars e.toList = [])) = true) := by
      simpa using h1
    rw [if_neg hleft]
    unfold RegExp.test
    cases hm : emailRegex.fullMatch e.toList <;> simp

/-- The inputs of `emailRegex_iff` in the words of the format: no white space, exactly
one at sign with a character before it, and after it a dot with a character before and
a character after. -/
theorem emailShape_iff (cs : List Char) :
    (∃ u v w, cs = u ++ '@' :: (v ++ '.' :: w) ∧
        (u ≠ [] ∧ ∀ c ∈ u, notSpaceNorAt c = true) ∧
        (v ≠ [] ∧ ∀ c ∈ v, notSpaceNorAt c = true) ∧
        (w ≠ [] ∧ ∀ c ∈ w, notSpaceNorAt c = true)) ↔
      (∀ c ∈ cs, isStrWhiteSpaceChar c = false) ∧ cs.count '@' = 1 ∧
        ∃ u d, cs = u ++ '@' :: d ∧ u ≠ [] ∧ ∃ v w, d = v ++ '.' :: w ∧ v ≠ [] ∧ w ≠ [] := by
  have hnoat : ∀ l : List Char, (∀ c ∈ l, notSpaceNorAt c = true) → l.count '@' = 0 := by
    intro l hl
    rw [List.count_eq_zero]
    intro hmem
    exact ((notSpaceNorAt_iff _).mp (hl _ hmem)).2 rfl
  constructor
  · rintro ⟨u, v, w, hcs, ⟨hune, hu⟩, ⟨hvne, hv⟩, ⟨hwne, hw⟩⟩
    refine ⟨?_, ?_, u, v ++ '.' :: w, hcs, hune, v, w, rfl, hvne, hwne⟩
    · intro c hc
      rw [hcs] at hc
      simp only [List.mem_append, List.mem_cons] at hc
      rcases hc with h | h | h | h | h
      · exact ((notSpaceNorAt_iff c).mp (hu c h)).1
      · rw [h]
        decide
      · exact ((notSpaceNorAt_iff c).mp (hv c h)).1
      · rw [h]
        decide
      · exact ((notSpaceNorAt_iff c).mp (hw c h)).1
    · rw [hcs]
      simp [List.count_append, List.count_cons, hnoat u hu, hnoat v hv, hnoat w hw]
  · rintro ⟨hws, hcount, u, d, hcs, hune, v, w, hd, hvne, hwne⟩
    rw [hd] at hcs
    have hc2 : u.count '@' + (v.count '@' + w.count '@' + 1) = 1 := by
      rw [hcs] at hcount
      simp [List.count_append, List.count_cons] at hcount
      omega
    have hu0 : '@' ∉ u := List.count_eq_zero.mp (by omega)
    have hv0 : '@' ∉ v := List.count_eq_zero.mp (by omega)
    have hw0 : '@' ∉ w := List.count_eq_zero.mp (by omega)
    have hok : ∀ l : List Char, (∀ c ∈ l, c ∈ cs) → '@' ∉ l →
        ∀ c ∈ l, notSpaceNorAt c = true := by
      intro l hsub hno c hc
      rw [notSpaceNorAt_iff]
      refine ⟨hws c (hsub c hc), ?_⟩
      intro heq
      rw [heq] at hc
      exact hno hc
    refine ⟨u, v, w, hcs, ⟨hune, hok u ?_ hu0⟩, ⟨hvne, hok v ?_ hv0⟩, ⟨hwne, hok w ?_ hw0⟩⟩
    · intro c hc
      rw [hcs]
      simp [hc]
    · intro c hc
      rw [hcs]
      simp [hc]
    · intro c hc
      rw [hcs]
      simp [hc]

/-- C28. Email format: `validateEmail` accepts a string exactly when it contains no
white space, contains exactly one at sign with at least one character before it, and
the part after the at sign contains a dot with at least one character before it and at
least one after it; a string that is empty or all white space is rejected with "Email is
required" and any other rejected string with "Please enter a valid email address". -/
theorem C28_email_format (e : String) :
    ((validateEmail e).isValid = true ↔
      (∀ c ∈ e.toList, isStrWhiteSpaceChar c = false) ∧ e.toList.count '@' = 1 ∧
        ∃ u d, e.toList = u ++ '@' :: d ∧ u ≠ [] ∧
          ∃ v w, d = v ++ '.' :: w ∧ v ≠ [] ∧ w ≠ []) ∧
    ((∀ c ∈ e.toList, isStrWhiteSpaceChar c = true) →
      validateEmail e = { isValid := false, error := "Email is required" }) ∧
    (¬ (∀ c ∈ e.toList, isStrWhiteSpaceChar c = true) → (validateEmail e).isValid = false →
      validateEmail e = { isValid := false, error := "Please enter a valid email address" }) := by
  refine ⟨?_, ?_, ?_⟩
  · rw [validateEmail_isValid_iff, emailRegex_iff, emailShape_iff]
  · intro hall
    have htrim := (trimChars_eq_nil_iff _).mpr hall
    have hcond : (decide (e = "") || decide (trimChars e.toList = [])) = true := by
      rw [Bool.or_eq_true]
      exact Or.inr (decide_eq_true htrim)
    unfold validateEmail
    rw [if_pos hcond]
  · intro hnot hinvalid
    have htrim : trimChars e.toList ≠ [] := fun h => hnot ((trimChars_eq_nil_iff _).mp h)
    have hne : e ≠ "" := by
      intro h
      apply hnot
      rw [(string_eq_empty_iff e).mp h]
      intro c hc
      cases hc
    have hcond : ¬ ((decide (e = "") || decide (trimChars e.toList = [])) = true) := by
      intro h
      rw [Bool.or_eq_true] at h
      rcases h with h | h
      · exact hne (of_decide_eq_true h)
      · exact htrim (of_decide_eq_true h)
    unfold validateEmail at hinvalid ⊢
    rw [if_neg hcond] at hinvalid ⊢
    split
    · rfl
    · next hm =>
      rw [if_neg hm] at hinvalid
      cases hinvalid

/-- Witness of C28: the address `ana@example.com` is accepted, the text of three spaces
is rejected as missing and `ana@example` as not valid. -/
theorem C28_email_format_witness :
    (validateEmail "ana@example.com").isValid = true ∧
    validateEmail "   " = { isValid := false, error := "Email is required" } ∧
    validateEmail "ana@example" =
      { isValid := false, error := "Please enter a valid email address" } :=
  have h1 := C28_email_format "ana@example.com"
  have h2 := C28_email_format "   "
  have h3 := C28_email_format "ana@example"
  ⟨h1.1.mpr ⟨by decide, by decide, "ana".toList, "example.com".toList, by decide, by decide,
      "example".toList, "com".toList, by decide, by decide, by decide⟩,
    h2.2.1 (by decide), h3.2.2 (by decide) (by decide)⟩

/-! ## Registration form -/

/-- A validation leaves no entry exactly when it accepts. -/
theorem errorEntry_eq_none_iff (v : ValidationResult) :
    errorEntry v = none ↔ v.isValid = true := by
  unfold errorEntry
  cases v.isValid <;> simp

/-- A validation leaves an entry exactly when it rejects, and the entry is its
message. -/
theorem errorEntry_eq (v : ValidationResult) :
    errorEntry v = if v.isValid = true then none else some v.error := by
  unfold errorEntry
  cases v.isValid <;> simp

/-- An `errors` object has no keys exactly when its four fields have no entry. -/
theorem keyCount_eq_zero_iff (e : RegistrationErrors) :
    e.keyCount = 0 ↔
      e.name = none ∧ e.email = none ∧ e.password = none ∧ e.confirmPassword = none := by
  unfold RegistrationErrors.keyCount
  cases e.name <;> cases e.email <;> cases e.password <;> cases e.confirmPassword <;> simp

/-- The result of `validateRegistrationForm` on any `formData`, with or without a
`confirmPassword`: `isValid = true` exactly when `validateName`, `validateEmail` and
`validatePassword` accept their fields and, if `confirmPassword` is not `undefined`,
the password equals it; the `errors` object has an entry, the message of the validator,
for exactly the fields that failed. -/
theorem validateRegistrationForm_result (form : RegistrationForm) :
    ((validateRegistrationForm form).isValid = true ↔
      (validateName form.name).isValid = true ∧
      (validateEmail form.email).isValid = true ∧
      (validatePassword form.password).isValid = true ∧
      (∀ confirmPassword, form.confirmPassword = some confirmPassword →
        form.password = confirmPassword)) ∧
    (validateRegistrationForm form).errors.name =
      (if (validateName form.name).isValid = true then none
        else some (validateName form.name).error) ∧
    (validateRegistrationForm form).errors.email =
      (if (validateEmail form.email).isValid = true then none
        else some (validateEmail form.email).error) ∧
    (validateRegistrationForm form).errors.password =
      (if (validatePassword form.password).isValid = true then none
        else some (validatePassword form.password).error) ∧
    (validateRegistrationForm form).errors.confirmPassword =
      (match form.confirmPassword with
        | none => none
        | some confirmPassword =>
          if form.password = confirmPassword then none else some "Passwords do not match") := by
  have hconfirm : (validateRegistrationForm form).errors.confirmPassword =
      (match form.confirmPassword with
        | none => none
        | some confirmPassword =>
          if form.password = confirmPassword then none else some "Passwords do not match") := by
    unfold validateRegistrationForm
    simp only
    cases form.confirmPassword with
    | none => rfl
    | some cp =>
      simp only [errorEntry, validatePasswordsMatch]
      by_cases hcp : form.password = cp <;> simp [hcp]
  refine ⟨?_, errorEntry_eq _, errorEntry_eq _, errorEntry_eq _, hconfirm⟩
  have hvalid : (validateRegistrationForm form).isValid = true ↔
      (validateRegistrationForm form).errors.keyCount = 0 := by
    unfold validateRegistrationForm
    simp
  rw [hvalid, keyCount_eq_zero_iff, hconfirm]
  have hn : (validateRegistrationForm form).errors.name = none ↔
      (validateName form.name).isValid = true := errorEntry_eq_none_iff _
  have he : (validateRegistrationForm form).errors.email = none ↔
      (validateEmail form.email).isValid = true := errorEntry_eq_none_iff _
  have hp : (validateRegistrationForm form).errors.password = none ↔
      (validatePassword form.password).isValid = true := errorEntry_eq_none_iff _
  rw [hn, he, hp]
  cases form.confirmPassword with
  | none => simp
  | some cp =>
    by_cases hcp : form.password = cp <;> simp [hcp]

/-- C27. Registration form validation: for every form with a name, an email, a
password and a `confirmPassword`, `validateRegistrationForm` returns `isValid = true`
exactly when `validateName`, `validateEmail` and `validatePassword` accept their fields
and the password equals `confirmPassword`; the `errors` object has an entry, the
message of the validator, for exactly the fields that failed. -/
theorem C27_registration_form (name email password confirmPassword : String) :
    ((validateRegistrationForm
        { name := name, email := email, password := password
          confirmPassword := some confirmPassword }).isValid = true ↔
      (validateName name).isValid = true ∧
      (validateEmail email).isValid = true ∧
      (validatePassword password).isValid = true ∧
      password = confirmPassword) ∧
    (validateRegistrationForm
        { name := name, email := email, password := password
          confirmPassword := some confirmPassword }).errors =
      { name := if (validateName name).isValid = true then none
          else some (validateName name).error
        email := if (validateEmail email).isValid = true then none
          else some (validateEmail email).error
        password := if (validatePassword password).isValid = true then none
          else some (validatePassword password).error
        confirmPassword := if password = confirmPassword then none
          else some "Passwords do not match" } := by
  have h := validateRegistrationForm_result
    { name := name, email := email, password := password
      confirmPassword := some confirmPassword }
  obtain ⟨hvalid, hn, he, hp, hc⟩ := h
  refine ⟨?_, ?_⟩
  · rw [hvalid]
    constructor
    · rintro ⟨h1, h2, h3, h4⟩
      exact ⟨h1, h2, h3, h4 confirmPassword rfl⟩
    · rintro ⟨h1, h2, h3, h4⟩
      exact ⟨h1, h2, h3, fun cp hcp => by cases hcp; exact h4⟩
  · have hext : ∀ a b : RegistrationErrors, a.name = b.name → a.email = b.email →
        a.password = b.password → a.confirmPassword = b.confirmPassword → a = b := by
      intro a b h1 h2 h3 h4
      cases a; cases b; simp_all
    exact hext _ _ hn he hp hc

/-- Witness of C27: the form with a matching confirmation is valid and has no entry
in `errors`, and the form with another confirmation is not valid and has the one entry
"Passwords do not match". -/
theorem C27_registration_form_witness :
    (validateRegistrationForm (formWithConfirm "secret1")).isValid = true ∧
    (validateRegistrationForm (formWithConfirm "secret1")).errors =
      { name := none, email := none, password := none, confirmPassword := none } ∧
    (validateRegistrationForm (formWithConfirm "secret2")).isValid = false ∧
    (validateRegistrationForm (formWithConfirm "secret2")).errors =
      { name := none, email := none, password := none
        confirmPassword := some "Passwords do not match" } :=
  have h := C27_registration_form "Ana" "ana@example.com" "secret1" "secret1"
  have h2 := C27_registration_form "Ana" "ana@example.com" "secret1" "secret2"
  ⟨h.1.mpr ⟨by decide, by decide, by decide, rfl⟩, h.2.trans (by decide),
    by decide, h2.2.trans (by decide)⟩

/-! ## Weekly meal plan -/

/-- When every key has a value, the object is built and each key reads back the
value computed for it. -/
theorem fillKeys_lookup {κ β : Type} [BEq κ] [LawfulBEq κ] (value : κ → Option β)
    (keys : List κ) (h : ∀ k ∈ keys, ∃ v, value k = some v) :
    ∃ filled, fillKeys value keys = some filled ∧
      ∀ k ∈ keys, filled.lookup k = value k := by
  induction keys with
  | nil => exact ⟨[], rfl, by simp⟩
  | cons k rest ih =>
    obtain ⟨v, hv⟩ := h k (List.mem_cons_self _ _)
    obtain ⟨filled, hfilled, hlookup⟩ :=
      ih (fun a ha => h a (List.mem_cons_of_mem _ ha))
    refine ⟨(k, v) :: filled, by simp [fillKeys, hv, hfilled], ?_⟩
    intro a ha
    by_cases hak : a = k
    · subst hak
      simp [List.lookup, hv]
    · have hne : (a == k) = false := by simpa using hak
      rcases List.mem_cons.mp ha with h1 | h1
      · exact absurd h1 hak
      · simp only [List.lookup, hne]
        exact hlookup a h1

/-- Each meal type of `MEAL_TYPES` has a table of seven variations. -/
theorem mealVariations_of_mem (mealType : String) (hmem : mealType ∈ MEAL_TYPES) :
    ∃ variations, mealVariations mealType = some variations ∧
      variations.length = 7 := by
  simp only [MEAL_TYPES, List.mem_cons, List.mem_singleton, List.not_mem_nil,
    or_false] at hmem
  rcases hmem with h | h | h | h <;> subst h
  · exact ⟨breakfastVariations, by decide, rfl⟩
  · exact ⟨lunchVariations, by decide, rfl⟩
  · exact ⟨dinnerVariations, by decide, rfl⟩
  · exact ⟨snacksVariations, by decide, rfl⟩

/-- Each meal type of `MEAL_TYPES` has a calorie target. -/
theorem mealCalories_of_mem (calorieTarget : Int) (mealType : String)
    (hmem : mealType ∈ MEAL_TYPES) :
    ∃ calories, mealCalories calorieTarget mealType = some calories := by
  simp only [MEAL_TYPES, List.mem_cons, List.mem_singleton, List.not_mem_nil,
    or_false] at hmem
  rcases hmem with h | h | h | h <;> subst h <;> simp [mealCalories]

/-- On a table of seven variations the template is built from the variation at
index `dayIndex % 7` and carries the calories it was given. -/
theorem generateVariedMeal_of_table (mealType : String)
    (variations : List MealVariation)
    (hmv : mealVariations mealType = some variations) (hlen : variations.length = 7)
    (calories : Number) (dayIndex : Nat) (dateNow : Int) :
    ∃ selectedVariation meal,
      variations[dayIndex % 7]? = some selectedVariation ∧
      generateVariedMeal mealType calories dayIndex dateNow = some meal ∧
      meal.title = selectedVariation.title ∧ meal.calories = calories := by
  have hlt : dayIndex % 7 < variations.length := by
    rw [hlen]; exact Nat.mod_lt _ (by norm_num)
  have hget : variations[dayIndex % 7]? = some (variations.get ⟨dayIndex % 7, hlt⟩) :=
    List.getElem?_eq_getElem hlt
  have hgen : ∃ meal, generateVariedMeal mealType calories dayIndex dateNow = some meal ∧
      meal.title = (variations.get ⟨dayIndex % 7, hlt⟩).title ∧
      meal.calories = calories := by
    simp only [generateVariedMeal, hmv, Option.orElse, hlen, hget]
    exact ⟨_, rfl, rfl, rfl⟩
  obtain ⟨meal, h1, h2, h3⟩ := hgen
  exact ⟨variations.get ⟨dayIndex % 7, hlt⟩, meal, hget, h1, h2, h3⟩

/-- With a daily target of 2000 the Dinner share is 600: the binary64 value of the
literal `0.30` lies below 3/10, and its product with 2000 rounds to 600 exactly. -/
theorem mealCalories_dinner_2000 : mealCalories 2000 "Dinner" = some (Number.ofInt 600) := by
  have h30 : Number.ofRat 0.30 = .finite (5404319552844595 / 2 ^ 54) :=
    ofRat_eq_of _ _ (-2) 5404319552844595 (by rw [le_abs]; norm_num)
      (by rw [abs_lt]; constructor <;> norm_num) (by norm_num) (by norm_num)
      (by rw [abs_lt]; constructor <;> norm_num) (by norm_num)
  have hm : Number.ofRat (((2000 : Int) : Rat) * (5404319552844595 / 2 ^ 54)) =
      .finite 600 :=
    ofRat_eq_of _ _ 9 5277655813324800 (by rw [le_abs]; norm_num)
      (by rw [abs_lt]; constructor <;> norm_num) (by norm_num) (by norm_num)
      (by rw [abs_lt]; constructor <;> norm_num) (by norm_num)
  have hf : Int.floor ((600 : Rat) + 1 / 2) = 600 := by
    rw [Int.floor_eq_iff]
    norm_num
  have hd : mealCalories 2000 "Dinner" =
      some (Math.round ((Number.ofInt 2000).mul (Number.ofRat 0.30))) := by
    simp [mealCalories]
  rw [hd, h30]
  simp only [Number.ofInt, Number.mul, hm, Math.round, hf]

/-- With a daily target of 650 the Lunch share is 227: the binary64 product of 650 and
the literal `0.35` lies below 227.5. -/
theorem mealCalories_lunch_650 : mealCalories 650 "Lunch" = some (Number.ofInt 227) := by
  have h35 : Number.ofRat 0.35 = .finite (6305039478318694 / 2 ^ 54) :=
    ofRat_eq_of _ _ (-2) 6305039478318694 (by rw [le_abs]; norm_num)
      (by rw [abs_lt]; constructor <;> norm_num) (by norm_num) (by norm_num)
      (by rw [abs_lt]; constructor <;> norm_num) (by norm_num)
  have hm : Number.ofRat (((650 : Int) : Rat) * (6305039478318694 / 2 ^ 54)) =
      .finite (8004444650209279 / 2 ^ 45) :=
    ofRat_eq_of _ _ 7 8004444650209279 (by rw [le_abs]; norm_num)
      (by rw [abs_lt]; constructor <;> norm_num) (by norm_num) (by norm_num)
      (by rw [abs_lt]; constructor <;> norm_num) (by norm_num)
  have hf : Int.floor ((8004444650209279 / 2 ^ 45 : Rat) + 1 / 2) = 227 := by
    rw [Int.floor_eq_iff]
    norm_num
  have hd : mealCalories 650 "Lunch" =
      some (Math.round ((Number.ofInt 650).mul (Number.ofRat 0.35))) := by
    simp [mealCalories]
  rw [hd, h35]
  simp only [Number.ofInt, Number.mul, hm, Math.round, hf]

/-- Claim C26: once preferences exist, whatever the outcome of each remote call,
`generateWeeklyMealPlan` produces a plan in which every slot (day 0..6, meal type
of `MEAL_TYPES`) has a target and holds a meal; a slot whose remote call resolved
holds the meal it resolved with, and a slot whose remote call rejected holds the
template of `generateVariedMeal`, whose title is that of the variation at index
`day % 7` of the meal type and whose calories are the target of the slot. -/
theorem C26_meal_plan_fallback (generateMealWithClaude : RemoteMeals)
    (dateNow : Nat → String → Int) (fl : Faults) (st : AsyncStorage)
    (prefs : MealPreferences) :
    ∃ plan,
      generateWeeklyMealPlan generateMealWithClaude dateNow fl st (some prefs)
        = some plan ∧
      ∀ day, day < 7 → ∀ mealType, mealType ∈ MEAL_TYPES →
        ∃ calories meal,
          mealCalories (getData fl st .DAILY_GOAL 2000) mealType = some calories ∧
          WeeklyMealPlan.slot plan day mealType = some meal ∧
          (∀ aiMeal,
            generateMealWithClaude mealType calories prefs.diet prefs.cuisines
              prefs.allergies prefs.budget day = some aiMeal → meal = aiMeal) ∧
          (generateMealWithClaude mealType calories prefs.diet prefs.cuisines
              prefs.allergies prefs.budget day = none →
            generateVariedMeal mealType calories day (dateNow day mealType)
              = some meal ∧
            (∃ variations selectedVariation,
              mealVariations mealType = some variations ∧
              variations[day % 7]? = some selectedVariation ∧
              meal.title = selectedVariation.title) ∧
            meal.calories = calories) := by
  -- each slot of the loop yields a meal
  have hslot : ∀ day mealType, mealType ∈ MEAL_TYPES →
      ∃ meal, planSlot generateMealWithClaude dateNow prefs
        (getData fl st .DAILY_GOAL 2000) day mealType = some meal := by
    intro day mealType hmem
    obtain ⟨calories, hcal⟩ :=
      mealCalories_of_mem (getData fl st .DAILY_GOAL 2000) mealType hmem
    obtain ⟨variations, hmv, hlen⟩ := mealVariations_of_mem mealType hmem
    obtain ⟨sel, meal, -, hgen, -, -⟩ :=
      generateVariedMeal_of_table mealType variations hmv hlen calories day
        (dateNow day mealType)
    cases hr : generateMealWithClaude mealType calories prefs.diet prefs.cuisines
        prefs.allergies prefs.budget day with
    | none => exact ⟨meal, by simp only [planSlot, hcal, hr, hgen]⟩
    | some aiMeal => exact ⟨aiMeal, by simp only [planSlot, hcal, hr]⟩
  -- each day is filled
  have hday : ∀ day ∈ List.range 7, ∃ meals,
      fillKeys (planSlot generateMealWithClaude dateNow prefs
        (getData fl st .DAILY_GOAL 2000) day) MEAL_TYPES = some meals := by
    intro day _
    obtain ⟨meals, hmeals, -⟩ :=
      fillKeys_lookup (planSlot generateMealWithClaude dateNow prefs
        (getData fl st .DAILY_GOAL 2000) day) MEAL_TYPES (hslot day)
    exact ⟨meals, hmeals⟩
  obtain ⟨plan, hplan, hdays⟩ := fillKeys_lookup _ (List.range 7) hday
  refine ⟨plan, by simpa only [generateWeeklyMealPlan] using hplan, ?_⟩
  intro day hlt mealType hmem
  obtain ⟨meals, hmeals, hlookup⟩ :=
    fillKeys_lookup (planSlot generateMealWithClaude dateNow prefs
      (getData fl st .DAILY_GOAL 2000) day) MEAL_TYPES (hslot day)
  have hplanDay : plan.lookup day = some meals := by
    rw [hdays day (List.mem_range.mpr hlt)]; exact hmeals
  obtain ⟨calories, hcal⟩ :=
    mealCalories_of_mem (getData fl st .DAILY_GOAL 2000) mealType hmem
  obtain ⟨variations, hmv, hlen⟩ := mealVariations_of_mem mealType hmem
  obtain ⟨sel, template, hsel, hgen, htitle, hcalories⟩ :=
    generateVariedMeal_of_table mealType variations hmv hlen calories day
      (dateNow day mealType)
  have hread : WeeklyMealPlan.slot plan day mealType
      = planSlot generateMealWithClaude dateNow prefs
          (getData fl st .DAILY_GOAL 2000) day mealType := by
    simp only [WeeklyMealPlan.slot, hplanDay, Option.bind]
    exact hlookup mealType hmem
  cases hr : generateMealWithClaude mealType calories prefs.diet prefs.cuisines
      prefs.allergies prefs.budget day with
  | none =>
    refine ⟨calories, template, hcal, ?_, ?_, ?_⟩
    · rw [hread]; simp only [planSlot, hcal, hr, hgen]
    · intro aiMeal h; rw [hr] at h; cases h
    · intro _
      exact ⟨hgen, ⟨variations, sel, hmv, hsel, htitle⟩, hcalories⟩
  | some aiMeal =>
    refine ⟨calories, aiMeal, hcal, ?_, ?_, ?_⟩
    · rw [hread]; simp only [planSlot, hcal, hr]
    · intro other h; rw [hr] at h; exact Option.some.inj h
    · intro h; rw [hr] at h; cases h

/-- Witness of C26: with every remote call rejecting and the default target of
2000, the plan holds in the Dinner slot of day 3 the fourth dinner variation with
the Dinner target of 600 calories. -/
theorem C26_meal_plan_fallback_witness :
    ∃ plan meal,
      generateWeeklyMealPlan rejectingRemote fixedClock noFaults AsyncStorage.empty
        (some samplePreferences) = some plan ∧
      WeeklyMealPlan.slot plan 3 "Dinner" = some meal ∧
      meal.title = "Shrimp Tacos" ∧ meal.calories = Number.ofInt 600 := by
  obtain ⟨plan, hplan, hslots⟩ :=
    C26_meal_plan_fallback rejectingRemote fixedClock noFaults AsyncStorage.empty
      samplePreferences
  obtain ⟨calories, meal, hcal, hmeal, -, hfail⟩ :=
    hslots 3 (by decide) "Dinner" (by decide)
  obtain ⟨-, ⟨variations, sel, hmv, hsel, htitle⟩, hcalories⟩ := hfail rfl
  have hv : variations = dinnerVariations := by
    have h : mealVariations "Dinner" = some dinnerVariations := by decide
    rw [h] at hmv; exact (Option.some.inj hmv).symm
  subst hv
  have hs : sel.title = "Shrimp Tacos" := by
    have h : dinnerVariations[3 % 7]? = dinnerVariations[3]? := rfl
    rw [h] at hsel
    have h3 : dinnerVariations[3]?.map (fun v => v.title) = some "Shrimp Tacos" := by
      decide
    rw [hsel] at h3; exact Option.some.inj h3
  have hc : calories = Number.ofInt 600 := by
    have h : mealCalories (getData noFaults AsyncStorage.empty .DAILY_GOAL 2000)
        "Dinner" = some (Number.ofInt 600) := by
      have hg : getData noFaults AsyncStorage.empty .DAILY_GOAL 2000 = 2000 := by decide
      rw [hg]
      exact mealCalories_dinner_2000
    rw [h] at hcal; exact (Option.some.inj hcal).symm
  exact ⟨plan, meal, hplan, hmeal, by rw [htitle, hs], by rw [hcalories, hc]⟩

end RepRight
